import Mathlib

/-!
# Finance-Tracker: exchange-rate cache and converted reports

A shallow embedding of `backend/utils/exchangeRates.js`, of the two converted report
handlers of `backend/controllers/reportingController.js`, of the savings allocator and of
`getGoalById` of `backend/controllers/goalController.js`, of `createTransaction` of
`backend/controllers/transactionController.js`, of the unusual-spending, budget-monitoring
and recurring-transaction jobs of `backend/jobs`, and of `login`, `refreshToken` and the two
middleware functions of `backend/controllers/authController.js` and
`backend/middleware/auth.js`.

Modelling conventions.

* JavaScript numbers are idealised as rationals (`ℚ`): finite values with exact arithmetic.
  `NaN`, the infinities and binary rounding error are outside the model, except in the
  budget-monitoring job, whose division by a budget amount of zero is modelled (`JsNumber`).
* A `Date` is its time value in milliseconds, an integer; the invalid date and the limits of
  the range of time values are outside the model.
* A JavaScript object used as a string-keyed table is the list of its own properties in
  insertion order (`setProp` writes a property, `List.lookup` reads one, the absent property
  reads as `none`, which stands for `undefined`).  Keys are currency codes or group keys.
  A read of a name that the table inherits from `Object.prototype` is modelled apart, by
  `readOperand` and `getExchangeRateOnObject`, which agree with `rateOf` and
  `getExchangeRate` on every other name.
* Module-level variables (`cachedRates`, `lastUpdate`) are an explicit state record, and the
  outcome of an awaited call (the HTTP request to the rate provider, the store query) is an
  explicit argument.
* A `throw` is a value: `Except String _` for a function, the `thrown` field of a
  `Completion` for a statement block that has touched the module state before throwing.
-/

namespace FinanceTracker

/-! ## JavaScript values -/

/-- Assignment `obj[k] = v` on an object seen as the list of its own properties: an existing
property keeps its position and takes the new value, a new property goes last. -/
def setProp {α : Type} (obj : List (String × α)) (k : String) (v : α) : List (String × α) :=
  match obj with
  | [] => [(k, v)]
  | (k', v') :: rest => if k' = k then (k, v) :: rest else (k', v') :: setProp rest k v

/-- The number read back by `parseFloat(x.toFixed(f))`.  `toFixed` takes the integer `n` for
which `n / 10^f - |x|` is as close to zero as possible, the larger `n` when there are two,
writes `n / 10^f` with `f` decimals and puts the sign of `x` in front; `parseFloat` reads that
decimal numeral back. -/
def parseFloatToFixed (x : ℚ) (f : ℕ) : ℚ :=
  if x < 0 then -((⌊(-x) * 10 ^ f + 1 / 2⌋ : ℤ) : ℚ) / 10 ^ f
  else ((⌊x * 10 ^ f + 1 / 2⌋ : ℤ) : ℚ) / 10 ^ f

/-- A value found in the provider's JSON under `rates`. -/
inductive JsonValue where
  | null
  | bool (b : Bool)
  | number (x : ℚ)
  | string (s : String)
  deriving DecidableEq

/-- Evaluation of `v.toFixed(2)` followed by `parseFloat`: only a number has the method
`toFixed`; on any other value the call throws a `TypeError`. -/
def JsonValue.parseFloatToFixed2 : JsonValue → Except String ℚ
  | .number x => .ok (parseFloatToFixed x 2)
  | .null => .error "Cannot read properties of null (reading 'toFixed')"
  | .bool _ => .error "rawRates[currency].toFixed is not a function"
  | .string _ => .error "rawRates[currency].toFixed is not a function"

/-! ## `utils/exchangeRates.js` -/

/-- The object `cachedRates`: currency code to rate relative to EUR. -/
abbrev RateTable := List (String × ℚ)

/-- The module state of `exchangeRates.js`: `cachedRates` and `lastUpdate` (a `Date`, here its
time value; `none` is `null`). -/
structure RateCacheState where
  cachedRates : RateTable
  lastUpdate : Option ℕ
  deriving DecidableEq

/-- The state at module load: `let cachedRates = {}; let lastUpdate = null;`. -/
def initialState : RateCacheState :=
  { cachedRates := [], lastUpdate := none }

/-- The body `response.data` of the provider's answer: `rates` is `none` when the field is
absent (or `null`), and the object's properties in enumeration order otherwise. -/
structure ResponseData where
  rates : Option (List (String × JsonValue))
  deriving DecidableEq

/-- Outcome of `await axios.get(...)`: the promise is rejected (network error, non-2xx status)
or fulfilled with a response whose `data` may be empty (`none`). -/
inductive AxiosResult where
  | rejected (message : String)
  | fulfilled (data : Option ResponseData)
  deriving DecidableEq

/-- Where a statement block leaves the module: the state, the lines written to the console,
and the exception thrown out of the block, if any. -/
structure Completion where
  state : RateCacheState
  console : List String
  thrown : Option String
  deriving DecidableEq

/-- The loop `for (const currency in rawRates) cachedRates[currency] = parseFloat(...)`,
run on the table assigned to `cachedRates` so far.  It stops at the first value on which
`toFixed` throws; the table written so far stays in `cachedRates`. -/
def roundRatesLoop : List (String × JsonValue) → RateTable → RateTable × Option String
  | [], table => (table, none)
  | (currency, v) :: rest, table =>
    match v.parseFloatToFixed2 with
    | .ok r => roundRatesLoop rest (setProp table currency r)
    | .error e => (table, some e)

/-- The `try` block of `updateExchangeRates`, after the awaited provider call has settled as
`result`; `now` is the value of `new Date()`. -/
def updateExchangeRatesTry (result : AxiosResult) (now : ℕ) (s : RateCacheState) : Completion :=
  match result with
  | .rejected message => { state := s, console := [], thrown := some message }
  | .fulfilled none =>
    { state := s, console := ["No rates found in response:"], thrown := none }
  | .fulfilled (some data) =>
    match data.rates with
    | none => { state := s, console := ["No rates found in response:"], thrown := none }
    | some rawRates =>
      -- `cachedRates = {}` comes before the loop
      match roundRatesLoop rawRates [] with
      | (table, some e) =>
        { state := { s with cachedRates := table }, console := [], thrown := some e }
      | (table, none) =>
        { state := { cachedRates := table, lastUpdate := some now },
          console := ["Exchange rates updated:"], thrown := none }

/-- The function `updateExchangeRates`: the `try` block, and the `catch` that logs the error's
message and swallows it. -/
def updateExchangeRates (result : AxiosResult) (now : ℕ) (s : RateCacheState) : Completion :=
  let c := updateExchangeRatesTry result now s
  match c.thrown with
  | none => c
  | some message =>
    { c with console := c.console ++ ["Error updating exchange rates: " ++ message],
             thrown := none }

/-- The operand `c === "EUR" ? 1 : cachedRates[c]` of `getExchangeRate`, read among the own
properties of the table; `none` is `undefined`.  For a name that the table inherits from
`Object.prototype` the read is that of `readOperand`. -/
def rateOf (cachedRates : RateTable) (c : String) : Option ℚ :=
  if c = "EUR" then some 1 else cachedRates.lookup c

/-- The test `!rate` on such an operand: `undefined` and `0` are falsy. -/
def isFalsy : Option ℚ → Bool
  | none => true
  | some r => decide (r = 0)

/-- The function `getExchangeRate`, reading the table `cachedRates` (always an object, so
`!cachedRates` is false and the first guard is the test on `Object.keys`). -/
def getExchangeRate (cachedRates : RateTable) (fromCurrency toCurrency : String) :
    Except String ℚ :=
  if fromCurrency = toCurrency then .ok 1
  else if (cachedRates.map Prod.fst).length = 0 then
    .error "Exchange rates not available; please try again later"
  else
    let rateFrom := rateOf cachedRates fromCurrency
    let rateTo := rateOf cachedRates toCurrency
    if isFalsy rateFrom || isFalsy rateTo then
      .error "Exchange rate not available for given currency"
    else
      match rateFrom, rateTo with
      | some rf, some rt => .ok (parseFloatToFixed ((1 / rf) * rt) 2)
      | _, _ => .error "Exchange rate not available for given currency"

/-- The function `getLastUpdate`. -/
def getLastUpdate (s : RateCacheState) : Option ℕ := s.lastUpdate

/-! ## `controllers/reportingController.js` -/

/-- A `Date` holding a valid time value, seen through the three getters the report uses:
`getUTCFullYear()`, `getUTCMonth()` (0 for January) and `getUTCDate()`. -/
structure JsDate where
  utcFullYear : ℤ
  utcMonth : ℕ
  utcDate : ℕ
  deriving DecidableEq

/-- The ranges of the getters on a valid `Date`: month 0..11, day of month 1..31. -/
def JsDate.Valid (d : JsDate) : Prop :=
  d.utcMonth ≤ 11 ∧ 1 ≤ d.utcDate ∧ d.utcDate ≤ 31

instance (d : JsDate) : Decidable d.Valid := by
  unfold JsDate.Valid; infer_instance

/-- A document of the `Transaction` model as returned by `.lean()`. -/
structure Transaction where
  user : String
  amount : ℚ
  currency : String
  type : String
  date : JsDate
  category : String
  tags : List String
  deriving DecidableEq

/-- A value of `req.query`: a string, or the array the query parser builds from a repeated
parameter. -/
inductive QueryValue where
  | str (s : String)
  | list (items : List String)
  deriving DecidableEq

/-- JavaScript truthiness of a query value: only the empty string is falsy. -/
def QueryValue.truthy : QueryValue → Bool
  | .str s => decide (s ≠ "")
  | .list _ => true

/-- The query parameters read by `getSpendingTrendReportConverted`; `none` is `undefined`. -/
structure TrendParams where
  startDate : Option QueryValue
  endDate : Option QueryValue
  groupBy : Option QueryValue
  type : Option QueryValue
  category : Option QueryValue
  tags : Option QueryValue
  deriving DecidableEq

/-- The `date` condition of a store query; a bound `new Date(v)` is kept as its argument. -/
structure DateRange where
  gte : Option QueryValue
  lte : Option QueryValue
  deriving DecidableEq

/-- The filter object handed to `Transaction.find`; `none` is an absent key. -/
structure StoreQuery where
  user : String
  date : Option DateRange
  type : Option QueryValue
  category : Option QueryValue
  tagsIn : Option (List String)
  deriving DecidableEq

/-- The store behind `Transaction.find(query).lean()`: the documents, or the error the
awaited call throws. -/
abbrev Store := StoreQuery → Except String (List Transaction)

/-- The imported function `getExchangeRate` as the controller sees it (the unit tests replace
it by a mock). -/
abbrev RateFn := String → String → Except String ℚ

/-- One entry of the object `report`: `{ total, count }`. -/
structure Bucket where
  total : ℚ
  count : ℕ
  deriving DecidableEq

/-- One element of the trend response: `{ group, total, count }`. -/
structure ReportRow where
  group : String
  total : ℚ
  count : ℕ
  deriving DecidableEq

/-- The JSON bodies the two handlers send. -/
inductive ResponseBody where
  | trend (rows : List ReportRow)
  | summary (totalIncome totalExpense netBalance : ℚ)
  | serverError (msg error : String)
  deriving DecidableEq

/-- What a handler sends: `res.json(body)` has status 200, `res.status(500).json(body)` 500. -/
structure HttpResponse where
  status : ℕ
  body : ResponseBody
  deriving DecidableEq

/-- The constant `baseCurrency` of both handlers. -/
def baseCurrency : String := "USD"

/-- The statements
`let conversionRate = 1; try { conversionRate = tx.currency !== baseCurrency ?
getExchangeRate(tx.currency, baseCurrency) : 1; } catch (error) { console.error(...) }`,
which both handlers run for each transaction: the value of `conversionRate` afterwards. -/
def conversionRate (rate : RateFn) (tx : Transaction) : ℚ :=
  if tx.currency ≠ baseCurrency then
    match rate tx.currency baseCurrency with
    | .ok r => r
    | .error _ => 1
  else 1

/-- The expression `tx.amount * conversionRate`. -/
def convertedAmount (rate : RateFn) (tx : Transaction) : ℚ :=
  tx.amount * conversionRate rate tx

/-- The strings built by the template literals: integers print in decimal. -/
def groupKey (groupBy : Option QueryValue) (date : JsDate) : String :=
  if groupBy = some (.str "daily") then
    toString date.utcFullYear ++ "-" ++ toString (date.utcMonth + 1) ++ "-" ++
      toString date.utcDate
  else
    toString date.utcFullYear ++ "-" ++ toString (date.utcMonth + 1)

/-- The object `report`: group key to bucket. -/
abbrev Report := List (String × Bucket)

/-- The body of `transactions.forEach`: create the bucket when `report[groupKey]` is
undefined, then add to its `total` and `count`.  Reading a field of an undefined bucket
would throw. -/
def trendStep (rate : RateFn) (groupBy : Option QueryValue) (report : Report)
    (tx : Transaction) : Except String Report :=
  let key := groupKey groupBy tx.date
  let report1 :=
    if (report.lookup key).isNone then setProp report key { total := 0, count := 0 }
    else report
  match report1.lookup key with
  | none => .error "Cannot read properties of undefined (reading 'total')"
  | some b =>
    .ok (setProp report1 key
      { total := b.total + convertedAmount rate tx, count := b.count + 1 })

/-- The comparison `x < y` of two strings, unit by unit (the keys are ASCII, one code unit per
character). -/
def codeUnitsLt : List Char → List Char → Bool
  | _, [] => false
  | [], _ :: _ => true
  | a :: as, b :: bs => decide (a.toNat < b.toNat) || (a.toNat == b.toNat && codeUnitsLt as bs)

/-- Insertion of a key into a sorted array, after the keys smaller than it. -/
def insertKey (k : String) : List String → List String
  | [] => [k]
  | h :: t => if codeUnitsLt h.data k.data then h :: insertKey k t else k :: h :: t

/-- The call `.sort()` with the default comparator on an array of strings. -/
def sortKeys : List String → List String
  | [] => []
  | k :: ks => insertKey k (sortKeys ks)

/-- The expression
`Object.keys(report).sort().map(key => ({ group: key, total: report[key].total, ... }))`. -/
def sortedReport (report : Report) : Except String (List ReportRow) :=
  (sortKeys (report.map Prod.fst)).mapM fun key =>
    match report.lookup key with
    | none => .error "Cannot read properties of undefined (reading 'total')"
    | some b => .ok { group := key, total := b.total, count := b.count }

/-- The characters `String.prototype.trim` removes: white space and line terminators. -/
def isTrimmed (c : Char) : Bool :=
  c.toNat ∈ [0x09, 0x0A, 0x0B, 0x0C, 0x0D, 0x20, 0xA0, 0x1680, 0x2028, 0x2029, 0x202F, 0x205F,
      0x3000, 0xFEFF]
    || (decide (0x2000 ≤ c.toNat) && decide (c.toNat ≤ 0x200A))

/-- The method `trim` on the characters of a string. -/
def trimChars (cs : List Char) : List Char :=
  ((cs.dropWhile isTrimmed).reverse.dropWhile isTrimmed).reverse

/-- The call `split(",")` on the characters of a string: the pieces between the commas, the
empty ones included. -/
def splitOnComma : List Char → List (List Char)
  | [] => [[]]
  | c :: cs =>
    if c = ',' then [] :: splitOnComma cs
    else
      match splitOnComma cs with
      | [] => [[c]]
      | piece :: pieces => (c :: piece) :: pieces

/-- The expression `tags.split(",").map(tag => tag.trim())`: `split` is a method of strings
only. -/
def splitTags : QueryValue → Except String (List String)
  | .str s => .ok ((splitOnComma s.data).map fun piece => String.mk (trimChars piece))
  | .list _ => .error "tags.split is not a function"

/-- The filter object built from the request: lines 23 to 32 of the controller. -/
def buildQuery (userId : String) (p : TrendParams) : Except String StoreQuery := do
  let date0 : Option DateRange := none
  let date1 : Option DateRange :=
    match p.startDate with
    | some v => if v.truthy then some { (date0.getD ⟨none, none⟩) with gte := some v } else date0
    | none => date0
  let date2 : Option DateRange :=
    match p.endDate with
    | some v => if v.truthy then some { (date1.getD ⟨none, none⟩) with lte := some v } else date1
    | none => date1
  let keep (v : Option QueryValue) : Option QueryValue :=
    match v with
    | some w => if w.truthy then some w else none
    | none => none
  let tagsIn ←
    match keep p.tags with
    | some t => (splitTags t).map some
    | none => pure none
  pure { user := userId, date := date2, type := keep p.type, category := keep p.category,
         tagsIn := tagsIn }

/-- The `try` block of `getSpendingTrendReportConverted`: the rows passed to `res.json`, or
the error thrown on the way. -/
def spendingTrendTry (rate : RateFn) (userId : String) (p : TrendParams) (find : Store) :
    Except String (List ReportRow) := do
  let query ← buildQuery userId p
  let transactions ← find query
  let report ← transactions.foldlM (trendStep rate p.groupBy) []
  sortedReport report

/-- The handler `getSpendingTrendReportConverted`. -/
def getSpendingTrendReportConverted (rate : RateFn) (userId : String) (p : TrendParams)
    (find : Store) : HttpResponse :=
  match spendingTrendTry rate userId p find with
  | .ok rows => { status := 200, body := .trend rows }
  | .error e => { status := 500, body := .serverError "Server Error" e }

/-- The callback of `incomes.reduce` and of `expenses.reduce`: `sum + tx.amount * rate`. -/
def reduceStep (rate : RateFn) (sum : ℚ) (tx : Transaction) : ℚ :=
  sum + tx.amount * conversionRate rate tx

/-- The filter `{ user: userId, type: "income" }`. -/
def incomeQuery (userId : String) : StoreQuery :=
  { user := userId, date := none, type := some (.str "income"), category := none,
    tagsIn := none }

/-- The filter `{ user: userId, type: "expense" }`. -/
def expenseQuery (userId : String) : StoreQuery :=
  { user := userId, date := none, type := some (.str "expense"), category := none,
    tagsIn := none }

/-- The `try` block of `getDashboardSummaryConverted`. -/
def dashboardSummaryTry (rate : RateFn) (userId : String) (find : Store) :
    Except String ResponseBody := do
  let incomes ← find (incomeQuery userId)
  let totalIncome := incomes.foldl (reduceStep rate) 0
  let expenses ← find (expenseQuery userId)
  let totalExpense := expenses.foldl (reduceStep rate) 0
  pure (.summary totalIncome totalExpense (totalIncome - totalExpense))

/-- The handler `getDashboardSummaryConverted`. -/
def getDashboardSummaryConverted (rate : RateFn) (userId : String) (find : Store) :
    HttpResponse :=
  match dashboardSummaryTry rate userId find with
  | .ok body => { status := 200, body := body }
  | .error e => { status := 500, body := .serverError "Server Error" e }

/-! ## `controllers/goalController.js`: the savings allocator -/

/-- A document of the `Goal` model; `deadline` is a `Date`, here its time value. -/
structure Goal where
  id : String
  user : String
  description : String
  targetAmount : ℚ
  currentAmount : ℚ
  deadline : ℕ
  achieved : Bool
  autoAllocate : Bool
  autoAllocatePercentage : ℚ
  deriving DecidableEq

/-- The filter `{ user: userId, autoAllocate: true }` handed to `Goal.find`. -/
structure GoalQuery where
  user : String
  autoAllocate : Bool
  deriving DecidableEq

/-- The statements of the loop body before `await goal.save()`:
`const allocation = incomeAmount * (goal.autoAllocatePercentage / 100);
goal.currentAmount += allocation;
if (goal.currentAmount >= goal.targetAmount) { goal.achieved = true; }`. -/
def allocateStep (incomeAmount : ℚ) (goal : Goal) : Goal :=
  let allocation := incomeAmount * (goal.autoAllocatePercentage / 100)
  let goal1 := { goal with currentAmount := goal.currentAmount + allocation }
  if goal1.currentAmount ≥ goal1.targetAmount then { goal1 with achieved := true } else goal1

/-- What a call of `allocateSavingsForUser` leaves behind: the documents in memory, in the
order of the query result; the documents on which `save()` was called, as they were at the
call; those among them whose `save()` succeeded; and the error the call rejects with. -/
structure AllocationOutcome where
  goals : List Goal
  saveCalls : List Goal
  persisted : List Goal
  thrown : Option String
  deriving DecidableEq

/-- The loop `for (const goal of goals) { ...; await goal.save(); }`: a failing `save()`
throws out of the loop, and the goals after it are not visited. -/
def allocateLoop (incomeAmount : ℚ) (save : Goal → Except String Unit) :
    List Goal → AllocationOutcome
  | [] => { goals := [], saveCalls := [], persisted := [], thrown := none }
  | goal :: rest =>
    let updated := allocateStep incomeAmount goal
    match save updated with
    | .error e =>
      { goals := updated :: rest, saveCalls := [updated], persisted := [], thrown := some e }
    | .ok _ =>
      let r := allocateLoop incomeAmount save rest
      { goals := updated :: r.goals, saveCalls := updated :: r.saveCalls,
        persisted := updated :: r.persisted, thrown := r.thrown }

/-- The function `allocateSavingsForUser`: the query, the loop, and the `catch` that logs the
error and throws it again. -/
def allocateSavingsForUser (userId : String) (incomeAmount : ℚ)
    (find : GoalQuery → Except String (List Goal)) (save : Goal → Except String Unit) :
    AllocationOutcome :=
  match find { user := userId, autoAllocate := true } with
  | .error e => { goals := [], saveCalls := [], persisted := [], thrown := some e }
  | .ok goals => allocateLoop incomeAmount save goals

/-! ## `controllers/transactionController.js`: `createTransaction` -/

/-- The collections the two controllers write to. -/
structure Database where
  transactions : List Transaction
  goals : List Goal
  deriving DecidableEq

/-- What `createTransaction` sends: status 201 with the saved document, or status 500 with
`{ msg: "Server Error", error }`. -/
structure CreateResponse where
  status : ℕ
  saved : Option Transaction
  error : Option String
  deriving DecidableEq

/-- The handler `createTransaction`: the document is `{ ...req.body, user: req.user.id }`,
`saveError` is the error `transaction.save()` throws on this document, if any (schema
validation, database), and a saved document is added to the collection.  The handler has no
other statement: it neither reads nor writes the goals and does not call
`allocateSavingsForUser`. -/
def createTransaction (userId : String) (body : Transaction)
    (saveError : Transaction → Option String) (db : Database) : CreateResponse × Database :=
  let transactionData := { body with user := userId }
  match saveError transactionData with
  | some e => ({ status := 500, saved := none, error := some e }, db)
  | none =>
    ({ status := 201, saved := some transactionData, error := none },
     { db with transactions := db.transactions ++ [transactionData] })

/-! ## Runs of the refresh job and specification-side notions -/

/-- The test `response.data && response.data.rates` of `updateExchangeRates`, false as well
when the provider call was rejected. -/
def AxiosResult.hasRates : AxiosResult → Bool
  | .fulfilled (some data) => data.rates.isSome
  | _ => false

/-- Successive runs of `updateExchangeRates` (the call at startup, the half-hourly interval
and the hourly job of `server.js`), each with the outcome of its provider call and its clock
reading.  The statements after the `await` run without interruption, so runs do not
interleave. -/
def runUpdates : List (AxiosResult × ℕ) → RateCacheState → RateCacheState
  | [], s => s
  | (result, now) :: rest, s => runUpdates rest (updateExchangeRates result now s).state

/-- The number `r` is `x` rounded to two decimal places: a whole number of hundredths, and no
whole number of hundredths is closer to `x`. -/
def RoundedToTwoDecimals (x r : ℚ) : Prop :=
  (∃ n : ℤ, r = (n : ℚ) / 100) ∧ ∀ m : ℤ, |r - x| ≤ |(m : ℚ) / 100 - x|

/-- The decimal numeral of a natural number without zero padding: its base-ten digits, the
most significant first, and the single digit 0 for zero. -/
def unpaddedDecimal (n : ℕ) : String :=
  if n = 0 then "0" else String.mk ((Nat.digits 10 n).reverse.map Nat.digitChar)

/-- The decimal numeral of an integer without zero padding, a minus sign before a negative
one. -/
def unpaddedDecimalInt : ℤ → String
  | .ofNat n => unpaddedDecimal n
  | .negSucc n => "-" ++ unpaddedDecimal (n + 1)

/-- The transactions of a list that fall under the group key `k`. -/
def inBucket (groupBy : Option QueryValue) (k : String) (txs : List Transaction) :
    List Transaction :=
  txs.filter fun tx => decide (groupKey groupBy tx.date = k)

/-- The sum, over the transactions under the key `k`, of amount times conversion factor. -/
def bucketTotal (rate : RateFn) (groupBy : Option QueryValue) (k : String)
    (txs : List Transaction) : ℚ :=
  ((inBucket groupBy k txs).map (convertedAmount rate)).sum

/-- The number of transactions under the key `k`. -/
def bucketCount (groupBy : Option QueryValue) (k : String) (txs : List Transaction) : ℕ :=
  (inBucket groupBy k txs).length

/-- A list of keys is strictly ascending in the code-unit order of strings: each key sorts
before every key after it. -/
def StrictlyAscending (keys : List String) : Prop :=
  keys.Pairwise fun a b => codeUnitsLt a.data b.data = true

/-- The period of `d1` is chronologically earlier than the period of `d2`: the earlier year,
or the same year and the earlier month, or (daily granularity only) the same month and the
earlier day. -/
def bucketEarlier (groupBy : Option QueryValue) (d1 d2 : JsDate) : Prop :=
  d1.utcFullYear < d2.utcFullYear
    ∨ (d1.utcFullYear = d2.utcFullYear
        ∧ (d1.utcMonth < d2.utcMonth
            ∨ (d1.utcMonth = d2.utcMonth ∧ groupBy = some (.str "daily")
                ∧ d1.utcDate < d2.utcDate)))

instance (groupBy : Option QueryValue) (d1 d2 : JsDate) :
    Decidable (bucketEarlier groupBy d1 d2) := by
  unfold bucketEarlier; infer_instance

/-- Two natural numbers are written with the same number of decimal digits. -/
def sameWidth (a b : ℕ) : Prop :=
  (unpaddedDecimal a).length = (unpaddedDecimal b).length

/-- The two dates are written with the same number of digits in the first component in which
their periods differ: the years when the years differ, else the months when the months
differ, else the days. -/
def sameWidthWhereTheyDiffer (d1 d2 : JsDate) : Prop :=
  (d1.utcFullYear ≠ d2.utcFullYear → sameWidth d1.utcFullYear.toNat d2.utcFullYear.toNat)
    ∧ (d1.utcFullYear = d2.utcFullYear → d1.utcMonth ≠ d2.utcMonth →
        sameWidth (d1.utcMonth + 1) (d2.utcMonth + 1))
    ∧ (d1.utcFullYear = d2.utcFullYear → d1.utcMonth = d2.utcMonth →
        sameWidth d1.utcDate d2.utcDate)

/-- A query parameter counts as given when it is present and truthy (the tests `if (type)`,
`if (tags)`, ... of the handler); the result is the given value. -/
def given (v : Option QueryValue) : Option QueryValue :=
  v.filter QueryValue.truthy

/-- Modelled from the spec: the filtering done by the store (MongoDB behind Mongoose, not part
of the repository), as section 4.5 words it: same owner, inclusive date range, exact match on
classification and on category, at least one tag in the supplied set.  The comparisons of a
document's date with the bounds `new Date(startDate)` and `new Date(endDate)` are the
parameters `onOrAfter` and `onOrBefore`; an array never equals a string field. -/
def matchesQuery (onOrAfter onOrBefore : JsDate → QueryValue → Bool) (q : StoreQuery)
    (tx : Transaction) : Bool :=
  decide (tx.user = q.user)
    && (match q.date with
        | none => true
        | some range =>
          (match range.gte with
            | none => true
            | some v => onOrAfter tx.date v)
          && (match range.lte with
            | none => true
            | some v => onOrBefore tx.date v))
    && (match q.type with
        | none => true
        | some (.str t) => decide (tx.type = t)
        | some (.list _) => false)
    && (match q.category with
        | none => true
        | some (.str c) => decide (tx.category = c)
        | some (.list _) => false)
    && (match q.tagsIn with
        | none => true
        | some wanted => tx.tags.any fun tag => decide (tag ∈ wanted))

/-- Modelled from the spec: a store holding the documents `docs` answers a query with the
documents that match it. -/
def collectionStore (onOrAfter onOrBefore : JsDate → QueryValue → Bool)
    (docs : List Transaction) : Store :=
  fun q => .ok (docs.filter (matchesQuery onOrAfter onOrBefore q))

/-- The record fails one of the filters given in the request: it is dated before the given
start or after the given end, or its type or its category is not the given one, or none of its
tags is among the given tags. -/
def failsFilter (onOrAfter onOrBefore : JsDate → QueryValue → Bool) (p : TrendParams)
    (tx : Transaction) : Prop :=
  (∃ v, given p.startDate = some v ∧ onOrAfter tx.date v = false)
    ∨ (∃ v, given p.endDate = some v ∧ onOrBefore tx.date v = false)
    ∨ (∃ t, given p.type = some (.str t) ∧ tx.type ≠ t)
    ∨ (∃ c, given p.category = some (.str c) ∧ tx.category ≠ c)
    ∨ (∃ s, given p.tags = some (.str s)
        ∧ ∀ tag ∈ tx.tags,
            tag ∉ (splitOnComma s.data).map fun piece => String.mk (trimChars piece))

/-! ## Data of the unit tests -/

/-- A transaction as the unit tests of the report handlers write it: amount, currency and
date; the fields the tests leave out are empty. -/
def testTransaction (amount : ℚ) (currency : String) (year : ℤ) (month day : ℕ) : Transaction :=
  { user := "64fabc0123456789abcdef01", amount := amount, currency := currency, type := "",
    date := { utcFullYear := year, utcMonth := month - 1, utcDate := day }, category := "",
    tags := [] }

/-- The mock of `getExchangeRate` in the trend test: 1.1 from EUR to USD, 1 otherwise. -/
def trendTestRate : RateFn :=
  fun fromCurrency toCurrency =>
    if fromCurrency = "EUR" ∧ toCurrency = "USD" then .ok (11 / 10) else .ok 1

/-- The mock of `getExchangeRate` in the dashboard test: 1.1 from EUR, 1.2 from GBP, 1
otherwise. -/
def dashboardTestRate : RateFn :=
  fun fromCurrency _ =>
    if fromCurrency = "EUR" then .ok (11 / 10)
    else if fromCurrency = "GBP" then .ok (12 / 10)
    else .ok 1

/-- A request without query parameters. -/
def noParams : TrendParams :=
  { startDate := none, endDate := none, groupBy := none, type := none, category := none,
    tags := none }

/-- A goal as the unit tests of `allocateSavingsForUser` write it: id, percentage, current
amount, target amount and achieved flag, for the user of the tests, with `autoAllocate` on. -/
def testGoal (id : String) (autoAllocatePercentage currentAmount targetAmount : ℚ)
    (achieved : Bool) : Goal :=
  { id := id, user := "64fabc0123456789abcdef01", description := "", targetAmount := targetAmount,
    currentAmount := currentAmount, deadline := 0, achieved := achieved, autoAllocate := true,
    autoAllocatePercentage := autoAllocatePercentage }

/-! ## `controllers/goalController.js`: `getGoalById` -/

/-- The text of `Number::toString` for a whole number at or above `10^21`: the digits without
the trailing zeros, a point after the first digit when there are several, then `e+` and the
decimal exponent. -/
def exponentNotation (n : ℕ) : String :=
  let digits := (toString n).data
  let e := toString (digits.length - 1)
  match (digits.reverse.dropWhile fun c => c == '0').reverse with
  | [] => "0"
  | [d] => String.mk [d] ++ "e+" ++ e
  | d :: rest => String.mk [d] ++ "." ++ String.mk rest ++ "e+" ++ e

/-- Zeros put to the left of `m` until it has `len` characters. -/
def padZeros (m : List Char) (len : ℕ) : List Char :=
  List.replicate (len - m.length) '0' ++ m

/-- The string of `x.toFixed(fractionDigits)`.  A negative `x` gives the sign `-` and is
negated.  At or above `10^21` the text is that of `String(x)`, in exponent notation (every
number of that size is whole).  Below, `n` is the integer for which `n / 10^f - x` is as close
to zero as possible, the larger one when there are two; its digits are padded with zeros on
the left to `f + 1` characters and the point goes before the last `f` of them. -/
def toFixed (x : ℚ) (fractionDigits : ℕ) : String :=
  let s := if x < 0 then "-" else ""
  let x := if x < 0 then -x else x
  if 10 ^ 21 ≤ x then s ++ exponentNotation ⌊x⌋.toNat
  else
    let n := ⌊x * 10 ^ fractionDigits + 1 / 2⌋.toNat
    let m := (toString n).data
    if fractionDigits ≠ 0 then
      let m := padZeros m (fractionDigits + 1)
      let k := m.length
      s ++ String.mk (m.take (k - fractionDigits)) ++ "."
        ++ String.mk (m.drop (k - fractionDigits))
    else s ++ String.mk m

/-- The filter `{ _id: req.params.id, user: req.user.id }` handed to `Goal.findOne`. -/
structure GoalIdQuery where
  id : String
  user : String
  deriving DecidableEq

/-- The JSON bodies of `getGoalById`: `{ ...goal.toObject(), progress }`, `{ msg }`, and
`{ msg, error }`. -/
inductive GoalResponseBody where
  | goalWithProgress (goal : Goal) (progress : String)
  | message (msg : String)
  | serverError (msg error : String)
  deriving DecidableEq

/-- The response of `getGoalById`. -/
structure GoalResponse where
  status : ℕ
  body : GoalResponseBody
  deriving DecidableEq

/-- The progress number of `getGoalById`:
`goal.targetAmount > 0 ? (goal.currentAmount / goal.targetAmount) * 100 : 0`. -/
def goalProgress (goal : Goal) : ℚ :=
  if goal.targetAmount > 0 then (goal.currentAmount / goal.targetAmount) * 100 else 0

/-- The handler `getGoalById`; `findOne` is the awaited `Goal.findOne`, which rejects with a
message, or resolves to `null` or to a document. -/
def getGoalById (paramsId userId : String)
    (findOne : GoalIdQuery → Except String (Option Goal)) : GoalResponse :=
  match findOne { id := paramsId, user := userId } with
  | .error e => { status := 500, body := .serverError "Server Error" e }
  | .ok none => { status := 404, body := .message "Goal not found" }
  | .ok (some goal) =>
    { status := 200, body := .goalWithProgress goal (toFixed (goalProgress goal) 2) }

/-- The string `s` writes the number `x` with exactly two decimals: the sign of `x`, the whole
part without padding, a point and two digits, the number written being `|x|` rounded to two
decimal places. -/
def WrittenWithTwoDecimals (s : String) (x : ℚ) : Prop :=
  ∃ n d1 d2 : ℕ, d1 < 10 ∧ d2 < 10
    ∧ RoundedToTwoDecimals |x| ((n : ℚ) + (d1 : ℚ) / 10 + (d2 : ℚ) / 100)
    ∧ s = (if x < 0 then "-" else "") ++ unpaddedDecimal n ++ "."
          ++ String.mk [Nat.digitChar d1, Nat.digitChar d2]

/-! ## `jobs/unusualSpendingNotifications.js` -/

/-- The instant `new Date(Date.UTC(year, month, 1))`, kept as the two arguments handed to
`Date.UTC`; the month index may lie outside 0..11, as in the source. -/
structure MonthStart where
  year : ℤ
  month : ℤ
  deriving DecidableEq

/-- The `$match` stage of the two aggregations:
`{ user: userId, type: "expense", date: { $gte, $lt } }`. -/
structure ExpenseMatch where
  user : String
  type : String
  gte : MonthStart
  lt : MonthStart
  deriving DecidableEq

/-- The awaited `Transaction.aggregate([{ $match }, { $group: { _id: null, total } }])`: it
rejects with a message or resolves to the `total` fields of the result rows. -/
abbrev Aggregate := ExpenseMatch → Except String (List ℚ)

/-- The arguments of a call `createNotification(userId, message, type)`. -/
structure NotificationCall where
  user : String
  message : String
  type : String
  deriving DecidableEq

/-- What a run of a notification job leaves behind: the calls of `createNotification` that
resolved, in order, the lines of `console.log`, and the error handed to `console.error` by the
`catch` block, if the `try` block threw. -/
structure JobRun where
  notifications : List NotificationCall
  console : List String
  consoleError : Option String
  deriving DecidableEq

/-- The expression `agg.length > 0 ? agg[0].total : 0`. -/
def firstTotal (agg : List ℚ) : ℚ :=
  match agg with
  | [] => 0
  | total :: _ => total

/-- The template literal of the unusual-spending message. -/
def unusualSpendingMessage (currentExpense averageExpense : ℚ) : String :=
  "Unusual spending alert: Your expenses this month ($" ++ toFixed currentExpense 2
    ++ ") exceed your average monthly expenses ($" ++ toFixed averageExpense 2
    ++ ") by more than 50%. Please review your spending."

/-- The body of the `for` loop for one user; `now` is the `new Date()` of the iteration.  The
result is the call of `createNotification` made, if any, or the error thrown by an awaited
call. -/
def unusualSpendingStep (now : JsDate) (aggregate : Aggregate)
    (createNotification : NotificationCall → Except String Unit) (userId : String) :
    Except String (Option NotificationCall) := do
  let currentMonthStart : MonthStart := { year := now.utcFullYear, month := now.utcMonth }
  let currentMonthEnd : MonthStart := { year := now.utcFullYear, month := now.utcMonth + 1 }
  let currentAgg ← aggregate
    { user := userId, type := "expense", gte := currentMonthStart, lt := currentMonthEnd }
  let currentExpense := firstTotal currentAgg
  let threeMonthsAgo : MonthStart := { year := now.utcFullYear, month := now.utcMonth - 3 }
  let previousAgg ← aggregate
    { user := userId, type := "expense", gte := threeMonthsAgo, lt := currentMonthStart }
  let previousTotal := firstTotal previousAgg
  let averageExpense := previousTotal / 3
  if averageExpense > 0 ∧ currentExpense > averageExpense * (3 / 2) then
    let call : NotificationCall :=
      { user := userId, message := unusualSpendingMessage currentExpense averageExpense,
        type := "unusual" }
    createNotification call
    pure (some call)
  else
    pure none

/-- The `for (const userId of users)` loop inside the `try` block: an error thrown in one
iteration ends the loop; the notifications created before stay. -/
def unusualSpendingLoop (now : String → JsDate) (aggregate : Aggregate)
    (createNotification : NotificationCall → Except String Unit) : List String → JobRun
  | [] => { notifications := [], console := [], consoleError := none }
  | userId :: rest =>
    match unusualSpendingStep (now userId) aggregate createNotification userId with
    | .error e => { notifications := [], console := [], consoleError := some e }
    | .ok none => unusualSpendingLoop now aggregate createNotification rest
    | .ok (some call) =>
      let run := unusualSpendingLoop now aggregate createNotification rest
      { notifications := call :: run.notifications,
        console := ("Created unusual spending notification for user " ++ userId) :: run.console,
        consoleError := run.consoleError }

/-- One run of the scheduled callback; `distinctUsers` is the awaited
`Transaction.distinct("user", { type: "expense" })` and `now` the clock read in the iteration
of each user. -/
def unusualSpendingJob (now : String → JsDate) (distinctUsers : Except String (List String))
    (aggregate : Aggregate) (createNotification : NotificationCall → Except String Unit) :
    JobRun :=
  match distinctUsers with
  | .error e => { notifications := [], console := [], consoleError := some e }
  | .ok users => unusualSpendingLoop now aggregate createNotification users

/-- The current month's total of expenses of a user, as the first aggregation reports it. -/
def currentExpenseOf (now : JsDate) (aggregate : Aggregate) (userId : String) :
    Except String ℚ :=
  (aggregate { user := userId, type := "expense",
               gte := { year := now.utcFullYear, month := now.utcMonth },
               lt := { year := now.utcFullYear, month := now.utcMonth + 1 } }).map firstTotal

/-- The total of expenses of a user over the three months before the current one, as the
second aggregation reports it. -/
def previousTotalOf (now : JsDate) (aggregate : Aggregate) (userId : String) :
    Except String ℚ :=
  (aggregate { user := userId, type := "expense",
               gte := { year := now.utcFullYear, month := now.utcMonth - 3 },
               lt := { year := now.utcFullYear, month := now.utcMonth } }).map firstTotal

/-- The condition of the claim: the current total exceeds 150% of the average of the previous
three months, the average being the previous total divided by 3. -/
def ExceedsAverageByHalf (currentExpense previousTotal : ℚ) : Prop :=
  currentExpense > (150 / 100) * (previousTotal / 3)

/-! ## `jobs/budgetMonitoring.js` -/

/-- A JavaScript number where a division by zero can occur: a finite value, one of the two
infinities, or `NaN`.  Finite values are exact and there is one zero. -/
inductive JsNumber where
  | finite (value : ℚ)
  | posInfinity
  | negInfinity
  | nan
  deriving DecidableEq

/-- The quotient `a / b` of two finite numbers: a non-zero number divided by zero is the
infinity of its sign, and `0 / 0` is `NaN`. -/
def jsDivide (a b : ℚ) : JsNumber :=
  if b ≠ 0 then .finite (a / b)
  else if a > 0 then .posInfinity
  else if a < 0 then .negInfinity
  else .nan

/-- The product `x * c` for a finite `c > 0`: the infinities and `NaN` stay what they are. -/
def JsNumber.timesPositive (x : JsNumber) (c : ℚ) : JsNumber :=
  match x with
  | .finite value => .finite (value * c)
  | .posInfinity => .posInfinity
  | .negInfinity => .negInfinity
  | .nan => .nan

/-- The comparison `x >= c` with a finite `c`; it is false for `NaN`. -/
def JsNumber.ge (x : JsNumber) (c : ℚ) : Bool :=
  match x with
  | .finite value => decide (value ≥ c)
  | .posInfinity => true
  | .negInfinity => false
  | .nan => false

/-- The comparison `x < c` with a finite `c`; it is false for `NaN`. -/
def JsNumber.lt (x : JsNumber) (c : ℚ) : Bool :=
  match x with
  | .finite value => decide (value < c)
  | .posInfinity => false
  | .negInfinity => true
  | .nan => false

/-- The string of `x.toFixed(2)`: `toFixed` writes `Infinity`, `-Infinity` and `NaN` for the
values that are not finite. -/
def JsNumber.toFixed2 (x : JsNumber) : String :=
  match x with
  | .finite value => toFixed value 2
  | .posInfinity => "Infinity"
  | .negInfinity => "-Infinity"
  | .nan => "NaN"

/-- A document of the `Budget` model.  `category` is `none` for `null`; `period` is kept by
the first seven characters of `period.toISOString()`, the year and the month. -/
structure Budget where
  id : String
  user : String
  amount : ℚ
  category : Option String
  periodYearMonth : String
  deriving DecidableEq

/-- The `$match` query of `calculateTotalSpending`: user, the month that starts at the
budget period, type "expense", and the category when one is given. -/
structure SpendingQuery where
  user : String
  monthOf : String
  type : String
  category : Option String
  deriving DecidableEq

/-- The test `if (category)`: a category that is `null` or the empty string is not a
filter. -/
def categoryFilter (category : Option String) : Option String :=
  match category with
  | none => none
  | some c => if c = "" then none else some c

/-- The function `calculateTotalSpending`: the awaited aggregation rejects or resolves to the
`total` fields of its rows; `result.length > 0 ? result[0].total : 0`. -/
def calculateTotalSpending (aggregate : SpendingQuery → Except String (List ℚ))
    (userId period : String) (category : Option String) : Except String ℚ := do
  let query : SpendingQuery :=
    { user := userId, monthOf := period, type := "expense", category := categoryFilter category }
  let result ← aggregate query
  pure (firstTotal result)

/-- The expression `(totalSpending / budget.amount) * 100`. -/
def thresholdPercent (totalSpending amount : ℚ) : JsNumber :=
  (jsDivide totalSpending amount).timesPositive 100

/-- The text `Your budget${budget.category ? " for " + budget.category : ""} for
${period}`, common to the two messages. -/
def budgetMessageHead (budget : Budget) : String :=
  "Your budget"
    ++ (match categoryFilter budget.category with
        | some c => " for " ++ c
        | none => "")
    ++ " for " ++ budget.periodYearMonth

/-- The body of the `for` loop for one budget: the call of `createNotification` made, if any,
or the error thrown by an awaited call. -/
def budgetStep (aggregate : SpendingQuery → Except String (List ℚ))
    (createNotification : NotificationCall → Except String Unit) (budget : Budget) :
    Except String (Option NotificationCall) := do
  let totalSpending ←
    calculateTotalSpending aggregate budget.user budget.periodYearMonth budget.category
  let thresholdPercent := thresholdPercent totalSpending budget.amount
  if thresholdPercent.ge 90 && thresholdPercent.lt 100 then
    let message := budgetMessageHead budget ++ " is nearly exceeded ("
      ++ thresholdPercent.toFixed2 ++ "%). Consider reducing discretionary spending."
    let call : NotificationCall := { user := budget.user, message := message, type := "upcoming" }
    createNotification call
    pure (some call)
  else if thresholdPercent.ge 100 then
    let message := budgetMessageHead budget ++ " has been exceeded ("
      ++ thresholdPercent.toFixed2
      ++ "%). Please review your spending and consider revising your budget."
    let call : NotificationCall := { user := budget.user, message := message, type := "missed" }
    createNotification call
    pure (some call)
  else
    pure none

/-- The `for (const budget of budgets)` loop inside the `try` block; each entry of the result
pairs the budget with the call made for it. -/
def budgetLoop (aggregate : SpendingQuery → Except String (List ℚ))
    (createNotification : NotificationCall → Except String Unit) :
    List Budget → List (Budget × NotificationCall) × Option String
  | [] => ([], none)
  | budget :: rest =>
    match budgetStep aggregate createNotification budget with
    | .error e => ([], some e)
    | .ok none => budgetLoop aggregate createNotification rest
    | .ok (some call) =>
      let run := budgetLoop aggregate createNotification rest
      ((budget, call) :: run.1, run.2)

/-- One run of the scheduled callback: the notifications created, each with the budget it was
created for, and the error caught, if any.  `find` is the awaited `Budget.find()`. -/
def budgetMonitoringJob (find : Except String (List Budget))
    (aggregate : SpendingQuery → Except String (List ℚ))
    (createNotification : NotificationCall → Except String Unit) :
    List (Budget × NotificationCall) × Option String :=
  match find with
  | .error e => ([], some e)
  | .ok budgets => budgetLoop aggregate createNotification budgets

/-! ## `controllers/authController.js` and `middleware/auth.js` -/

/-- The object under `user` in the payload of an access token; a property that is not there
reads as `none`, which stands for `undefined`. -/
structure UserClaims where
  id : Option String
  role : Option String
  deriving DecidableEq

/-- The payload of a token, as far as the code reads it: the properties `user` and `id`. -/
structure JwtPayload where
  user : Option UserClaims
  id : Option String
  deriving DecidableEq

/-- The two calls of the `jsonwebtoken` library: `sign(payload, secret, { expiresIn })`
returns the token, and `verify(token, secret)` returns the payload or fails with a message. -/
structure Jwt where
  sign : JwtPayload → String → String → String
  verify : String → String → Except String JwtPayload

/-- The variables of `process.env` read by the code. -/
structure Env where
  jwtSecret : String
  jwtExpires : String
  refreshTokenSecret : String
  refreshTokenExpires : String

/-- A document of the `User` model, as far as `login` reads it. -/
structure User where
  id : String
  email : String
  role : String
  deriving DecidableEq

/-- The JSON bodies sent by the handlers and the middleware of authentication. -/
inductive AuthBody where
  | errors (errors : List String)
  | message (msg : String)
  | messageWithError (msg error : String)
  | accessTokenAndUser (accessToken userID : String)
  | accessToken (accessToken : String)
  deriving DecidableEq

/-- A response of `login` or `refreshToken`: status, body, and the `refreshToken` cookie when
one is set. -/
structure AuthResponse where
  status : ℕ
  body : AuthBody
  cookie : Option String
  deriving DecidableEq

/-- The handler `login`.  `validationErrors` is `validationResult(req)`, `findOne` the awaited
`User.findOne({ email }).select("+password")` and `comparePassword` the awaited
`user.comparePassword(password)`. -/
def login (jwt : Jwt) (env : Env) (validationErrors : List String)
    (findOne : Except String (Option User)) (comparePassword : User → Except String Bool) :
    AuthResponse :=
  if validationErrors ≠ [] then
    { status := 400, body := .errors validationErrors, cookie := none }
  else
    match findOne with
    | .error e => { status := 500, body := .messageWithError "Server Error" e, cookie := none }
    | .ok none => { status := 400, body := .message "Invalid credentials", cookie := none }
    | .ok (some user) =>
      match comparePassword user with
      | .error e => { status := 500, body := .messageWithError "Server Error" e, cookie := none }
      | .ok false => { status := 400, body := .message "Invalid credentials", cookie := none }
      | .ok true =>
        let accessToken := jwt.sign
          { user := some { id := some user.id, role := some user.role }, id := none }
          env.jwtSecret env.jwtExpires
        let refreshToken := jwt.sign { user := none, id := some user.id }
          env.refreshTokenSecret env.refreshTokenExpires
        { status := 200, body := .accessTokenAndUser accessToken user.id,
          cookie := some refreshToken }

/-- The handler `refreshToken`; `cookie` is `req.cookies.refreshToken`. -/
def refreshToken (jwt : Jwt) (env : Env) (cookie : Option String) : AuthResponse :=
  match cookie with
  | none => { status := 403, body := .message "Access denied", cookie := none }
  | some refreshToken =>
    if refreshToken = "" then
      { status := 403, body := .message "Access denied", cookie := none }
    else
      match jwt.verify refreshToken env.refreshTokenSecret with
      | .error _ => { status := 403, body := .message "Invalid refresh token", cookie := none }
      | .ok decoded =>
        let newAccessToken := jwt.sign
          { user := some { id := decoded.id, role := none }, id := none }
          env.jwtSecret env.jwtExpires
        { status := 200, body := .accessToken newAccessToken, cookie := none }

/-- The call `split(" ")` on the characters of a string: the pieces between the spaces, the
empty ones included. -/
def splitOnSpace : List Char → List (List Char)
  | [] => [[]]
  | c :: cs =>
    if c = ' ' then [] :: splitOnSpace cs
    else
      match splitOnSpace cs with
      | [] => [[c]]
      | piece :: pieces => (c :: piece) :: pieces

/-- What a middleware does with a request: it answers, or it calls `next()` with `req.user`
as it then stands, or it throws. -/
inductive MiddlewareOutcome where
  | response (status : ℕ) (body : AuthBody)
  | next (reqUser : Option UserClaims)
  | thrown (error : String)
  deriving DecidableEq

/-- The middleware `authMiddleware`; `authHeader` is `req.header("Authorization")`. -/
def authMiddleware (jwt : Jwt) (env : Env) (authHeader : Option String) : MiddlewareOutcome :=
  match authHeader with
  | none => .response 401 (.message "Access denied, no token provided")
  | some authHeader =>
    if authHeader = "" then .response 401 (.message "Access denied, no token provided")
    else
      match (splitOnSpace authHeader.data).map String.mk with
      | [scheme, token] =>
        if scheme ≠ "Bearer" then .response 401 (.message "Invalid token format")
        else
          match jwt.verify token env.jwtSecret with
          | .ok decoded => .next decoded.user
          | .error e => .response 401 (.messageWithError "Invalid token" e)
      | _ => .response 401 (.message "Invalid token format")

/-- The middleware `adminMiddleware`, run on the `req.user` left by `authMiddleware`: reading
`role` of `undefined` throws a `TypeError`. -/
def adminMiddleware (reqUser : Option UserClaims) : MiddlewareOutcome :=
  match reqUser with
  | none => .thrown "Cannot read properties of undefined (reading 'role')"
  | some user =>
    if user.role ≠ some "Admin" then .response 403 (.message "Access denied")
    else .next reqUser

/-! ## `Date` in UTC

A `Date` object is its time value, the number of milliseconds since the epoch, an integer.
The functions are those of the ECMAScript definition of `Date`. -/

/-- The milliseconds of a day. -/
def msPerDay : ℤ := 86400000

/-- The day number of a time value: `floor(t / msPerDay)`. -/
def dayNumber (t : ℤ) : ℤ := t / msPerDay

/-- The milliseconds since the start of the day: `t modulo msPerDay`. -/
def timeWithinDay (t : ℤ) : ℤ := t % msPerDay

/-- The number of days of the year `y`. -/
def daysInYear (y : ℤ) : ℤ :=
  if y % 4 ≠ 0 then 365
  else if y % 100 ≠ 0 then 366
  else if y % 400 ≠ 0 then 365
  else 366

/-- The day number of the first day of the year `y`. -/
def dayFromYear (y : ℤ) : ℤ :=
  365 * (y - 1970) + (y - 1969) / 4 - (y - 1901) / 100 + (y - 1601) / 400

/-- The year of a day number: the largest `y` whose first day is not after it, found next to
the estimate that counts 146097 days for 400 years. -/
def yearFromDay (d : ℤ) : ℤ :=
  let y0 := 1970 + d * 400 / 146097
  if dayFromYear (y0 + 1) ≤ d then y0 + 1
  else if dayFromYear y0 ≤ d then y0
  else y0 - 1

/-- The year of a time value (`getUTCFullYear`). -/
def yearFromTime (t : ℤ) : ℤ := yearFromDay (dayNumber t)

/-- The number 1 for a time value in a leap year and 0 otherwise. -/
def inLeapYear (t : ℤ) : ℤ := if daysInYear (yearFromTime t) = 366 then 1 else 0

/-- The day of the year of a time value, 0 for the first of January. -/
def dayWithinYear (t : ℤ) : ℤ := dayNumber t - dayFromYear (yearFromTime t)

/-- The month index of the day `d` of a year, `leap` being 1 in a leap year and 0
otherwise. -/
def monthOfDayWithinYear (d leap : ℤ) : ℤ :=
  if d < 31 then 0
  else if d < 59 + leap then 1
  else if d < 90 + leap then 2
  else if d < 120 + leap then 3
  else if d < 151 + leap then 4
  else if d < 181 + leap then 5
  else if d < 212 + leap then 6
  else if d < 243 + leap then 7
  else if d < 273 + leap then 8
  else if d < 304 + leap then 9
  else if d < 334 + leap then 10
  else 11

/-- The number of days of the year before the month of index `month`. -/
def daysBeforeMonth (month leap : ℤ) : ℤ :=
  if month = 0 then 0
  else if month = 1 then 31
  else if month = 2 then 59 + leap
  else if month = 3 then 90 + leap
  else if month = 4 then 120 + leap
  else if month = 5 then 151 + leap
  else if month = 6 then 181 + leap
  else if month = 7 then 212 + leap
  else if month = 8 then 243 + leap
  else if month = 9 then 273 + leap
  else if month = 10 then 304 + leap
  else 334 + leap

/-- The number of days of the month of index `month`. -/
def daysInMonth (month leap : ℤ) : ℤ :=
  if month = 1 then 28 + leap
  else if month = 3 ∨ month = 5 ∨ month = 8 ∨ month = 10 then 30
  else 31

/-- The month index, 0 to 11, of a time value (`getUTCMonth`). -/
def monthFromTime (t : ℤ) : ℤ := monthOfDayWithinYear (dayWithinYear t) (inLeapYear t)

/-- The day of the month, from 1, of a time value (`getUTCDate`). -/
def dateFromTime (t : ℤ) : ℤ :=
  dayWithinYear t - daysBeforeMonth (monthFromTime t) (inLeapYear t) + 1

/-- The day number of the date `date` of the month `month` of the year `year`; a month index
outside 0..11 carries into the year and a date outside the month carries into the
neighbouring months. -/
def makeDay (year month date : ℤ) : ℤ :=
  let ym := year + month / 12
  let mn := month % 12
  dayFromYear ym + daysBeforeMonth mn (if daysInYear ym = 366 then 1 else 0) + date - 1

/-- The time value of a day number and a time within the day. -/
def makeDate (day time : ℤ) : ℤ := day * msPerDay + time

/-- The method `setUTCDate(dt)`: the time value after the call. -/
def setUTCDate (t dt : ℤ) : ℤ :=
  makeDate (makeDay (yearFromTime t) (monthFromTime t) dt) (timeWithinDay t)

/-- The method `setUTCMonth(month)`: the time value after the call. -/
def setUTCMonth (t month : ℤ) : ℤ :=
  makeDate (makeDay (yearFromTime t) month (dateFromTime t)) (timeWithinDay t)

/-- The decimal numeral of `n`, padded with zeros on the left to `width` characters. -/
def padNat (n width : ℕ) : String :=
  String.mk (padZeros (toString n).data width)

/-- The method `toISOString()`: `YYYY-MM-DDTHH:mm:ss.sssZ`, the year with a sign and six
digits when it is outside 0..9999. -/
def toISOString (t : ℤ) : String :=
  let year := yearFromTime t
  let yearText :=
    if 0 ≤ year ∧ year ≤ 9999 then padNat year.toNat 4
    else if year < 0 then "-" ++ padNat (-year).toNat 6
    else "+" ++ padNat year.toNat 6
  let time := timeWithinDay t
  yearText ++ "-" ++ padNat (monthFromTime t + 1).toNat 2 ++ "-"
    ++ padNat (dateFromTime t).toNat 2 ++ "T" ++ padNat (time / 3600000).toNat 2 ++ ":"
    ++ padNat (time / 60000 % 60).toNat 2 ++ ":" ++ padNat (time / 1000 % 60).toNat 2 ++ "."
    ++ padNat (time % 1000).toNat 3 ++ "Z"

/-! ## `jobs/recurringTransactionNotifications.js` -/

/-- The time values of the two `Date` objects when `getNextOccurrence` returns: the argument
`lastDate`, and the copy `nextDate`, which is the one returned. -/
structure Occurrence where
  lastDate : ℤ
  nextDate : ℤ
  deriving DecidableEq

/-- The function `getNextOccurrence`.  `new Date(lastDate)` makes a copy with the same time
value, and the setters are called on the copy.  The pattern is `none` for `null`; the `switch`
compares it with the three strings and throws in the `default` branch. -/
def getNextOccurrence (lastDate : ℤ) (pattern : Option String) : Except String Occurrence :=
  let nextDate := lastDate
  if pattern = some "daily" then
    .ok { lastDate := lastDate, nextDate := setUTCDate nextDate (dateFromTime nextDate + 1) }
  else if pattern = some "weekly" then
    .ok { lastDate := lastDate, nextDate := setUTCDate nextDate (dateFromTime nextDate + 7) }
  else if pattern = some "monthly" then
    .ok { lastDate := lastDate, nextDate := setUTCMonth nextDate (monthFromTime nextDate + 1) }
  else
    .error "Invalid recurrence pattern"

/-- A document of the `Transaction` model, as far as the recurring job reads it; `date` is a
time value and `recurrencePattern` is `none` for the schema default `null`. -/
structure RecurringTransaction where
  id : String
  user : String
  date : ℤ
  recurrencePattern : Option String
  deriving DecidableEq

/-- The filter `{ recurring: true, recurrenceEndDate: { $gte: currentTimeUTC } }`. -/
structure RecurringQuery where
  recurring : Bool
  recurrenceEndDateGte : ℤ
  deriving DecidableEq

/-- One awaited `createNotification(user, message, type)` inside the loop body: the calls
that resolved so far, and the error if this one rejects. -/
def notify (createNotification : NotificationCall → Except String Unit)
    (done : List NotificationCall) (call : NotificationCall) :
    List NotificationCall × Option String :=
  match createNotification call with
  | .ok _ => (done ++ [call], none)
  | .error e => (done, some e)

/-- The body of the `for` loop for one transaction: the calls of `createNotification` that
resolved, and the error thrown, if any. -/
def recurringStep (currentTimeUTC : ℤ)
    (createNotification : NotificationCall → Except String Unit)
    (transaction : RecurringTransaction) : List NotificationCall × Option String :=
  match getNextOccurrence transaction.date transaction.recurrencePattern with
  | .error e => ([], some e)
  | .ok occurrence =>
    let nextOccurrence := occurrence.nextDate
    let diffHours : ℚ := ((nextOccurrence - currentTimeUTC : ℤ) : ℚ) / (1000 * 60 * 60)
    let upcoming :=
      if diffHours > 0 ∧ diffHours ≤ 24 then
        notify createNotification []
          { user := transaction.user,
            message := "Your recurring transaction (ID: " ++ transaction.id
              ++ ") is scheduled for " ++ toISOString nextOccurrence ++ ".",
            type := "upcoming" }
      else ([], none)
    match upcoming.2 with
    | some e => (upcoming.1, some e)
    | none =>
      if nextOccurrence < currentTimeUTC then
        notify createNotification upcoming.1
          { user := transaction.user,
            message := "Your recurring transaction (ID: " ++ transaction.id
              ++ ") was due on " ++ toISOString nextOccurrence ++ " and appears to be missed.",
            type := "missed" }
      else upcoming

/-- The `for (const transaction of recurringTransactions)` loop inside the `try` block: the
notifications created, each with the transaction it was created for, and the error that ended
the loop, if any. -/
def recurringLoop (currentTimeUTC : ℤ)
    (createNotification : NotificationCall → Except String Unit) :
    List RecurringTransaction → List (RecurringTransaction × NotificationCall) × Option String
  | [] => ([], none)
  | transaction :: rest =>
    let step := recurringStep currentTimeUTC createNotification transaction
    match step.2 with
    | some e => (step.1.map (Prod.mk transaction), some e)
    | none =>
      let run := recurringLoop currentTimeUTC createNotification rest
      (step.1.map (Prod.mk transaction) ++ run.1, run.2)

/-- One run of the hourly callback at the time `now`: the notifications created and the error
caught by the `catch` block, if any.  `find` is the awaited `Transaction.find`. -/
def recurringTransactionJob (now : ℤ)
    (find : RecurringQuery → Except String (List RecurringTransaction))
    (createNotification : NotificationCall → Except String Unit) :
    List (RecurringTransaction × NotificationCall) × Option String :=
  let currentTimeUTC := now
  match find { recurring := true, recurrenceEndDateGte := currentTimeUTC } with
  | .error e => ([], some e)
  | .ok recurringTransactions =>
    recurringLoop currentTimeUTC createNotification recurringTransactions

/-! ## `utils/exchangeRates.js`: reads that reach `Object.prototype`

The table `cachedRates` is an object literal.  A read `cachedRates[c]` of a name that is not an
own property goes on to `Object.prototype`, which has a member for some names. -/

/-- The names of the members of `Object.prototype`: a read of one of them on an object literal
without such an own property gives a function, or the prototype object for `__proto__`. -/
def objectPrototypeMembers : List String :=
  ["constructor", "__defineGetter__", "__defineSetter__", "hasOwnProperty",
   "__lookupGetter__", "__lookupSetter__", "isPrototypeOf", "propertyIsEnumerable",
   "toString", "valueOf", "__proto__", "toLocaleString"]

/-- The value of the expression `c === "EUR" ? 1 : cachedRates[c]`: `undefined`, a number, or
a member inherited from `Object.prototype`. -/
inductive RateOperand where
  | undefined
  | number (rate : ℚ)
  | inherited
  deriving DecidableEq

/-- The expression `c === "EUR" ? 1 : cachedRates[c]`: an own property wins, then the members
of `Object.prototype` are found, and every other name reads as `undefined`. -/
def readOperand (cachedRates : RateTable) (c : String) : RateOperand :=
  if c = "EUR" then .number 1
  else
    match cachedRates.lookup c with
    | some rate => .number rate
    | none => if c ∈ objectPrototypeMembers then .inherited else .undefined

/-- The test `!rate`: `undefined` and `0` are falsy, a function or an object is truthy. -/
def RateOperand.falsy : RateOperand → Bool
  | .undefined => true
  | .number rate => decide (rate = 0)
  | .inherited => false

/-- The function `getExchangeRate` with the reads of `readOperand`.  With a function or an
object as operand, `(1 / rateFrom) * rateTo` is `NaN`, `toFixed` writes "NaN" and `parseFloat`
reads `NaN` back. -/
def getExchangeRateOnObject (cachedRates : RateTable) (fromCurrency toCurrency : String) :
    Except String JsNumber :=
  if fromCurrency = toCurrency then .ok (.finite 1)
  else if (cachedRates.map Prod.fst).length = 0 then
    .error "Exchange rates not available; please try again later"
  else
    let rateFrom := readOperand cachedRates fromCurrency
    let rateTo := readOperand cachedRates toCurrency
    if rateFrom.falsy || rateTo.falsy then
      .error "Exchange rate not available for given currency"
    else
      match rateFrom, rateTo with
      | .number rf, .number rt => .ok (.finite (parseFloatToFixed ((1 / rf) * rt) 2))
      | _, _ => .ok .nan

/-! ## Rounding -/

theorem parseFloatToFixed_two_hundredths (x : ℚ) :
    ∃ n : ℤ, parseFloatToFixed x 2 = (n : ℚ) / 100 := by
  unfold parseFloatToFixed
  split
  · exact ⟨-⌊(-x) * 10 ^ 2 + 1 / 2⌋, by push_cast; norm_num⟩
  · exact ⟨⌊x * 10 ^ 2 + 1 / 2⌋, by norm_num⟩

theorem abs_parseFloatToFixed_two_sub_le (x : ℚ) : |parseFloatToFixed x 2 - x| ≤ 1 / 200 := by
  unfold parseFloatToFixed
  split
  · have h1 := Int.floor_le ((-x) * 10 ^ 2 + 1 / 2)
    have h2 := Int.lt_floor_add_one ((-x) * 10 ^ 2 + 1 / 2)
    rw [abs_le]
    constructor <;> linarith
  · have h1 := Int.floor_le (x * 10 ^ 2 + 1 / 2)
    have h2 := Int.lt_floor_add_one (x * 10 ^ 2 + 1 / 2)
    rw [abs_le]
    constructor <;> linarith

theorem roundedToTwoDecimals_parseFloatToFixed (x : ℚ) :
    RoundedToTwoDecimals x (parseFloatToFixed x 2) := by
  refine ⟨parseFloatToFixed_two_hundredths x, fun m => ?_⟩
  obtain ⟨n, hn⟩ := parseFloatToFixed_two_hundredths x
  have hb := abs_parseFloatToFixed_two_sub_le x
  rw [hn] at hb ⊢
  by_cases hmn : m = n
  · rw [hmn]
  · have hd : (1 : ℚ) ≤ |(m : ℚ) - n| := by
      have : (1 : ℤ) ≤ |m - n| := Int.one_le_abs (sub_ne_zero.mpr hmn)
      exact_mod_cast this
    have htri : |(m : ℚ) - n| / 100 ≤ |(m : ℚ) / 100 - x| + |(n : ℚ) / 100 - x| := by
      have : |(m : ℚ) - n| / 100 = |((m : ℚ) / 100 - x) - ((n : ℚ) / 100 - x)| := by
        rw [show ((m : ℚ) / 100 - x) - ((n : ℚ) / 100 - x) = ((m : ℚ) - n) / 100 by ring,
          abs_div]
        norm_num
      rw [this]
      exact abs_sub _ _
    linarith

/-! ## The rate resolver -/

theorem isFalsy_eq_false_iff (r : Option ℚ) : isFalsy r = false ↔ ∃ q, r = some q ∧ q ≠ 0 := by
  cases r <;> simp [isFalsy]

theorem getExchangeRate_of_truthy (cachedRates : RateTable) (fromCurrency toCurrency : String)
    (rf rt : ℚ) (hne : fromCurrency ≠ toCurrency) (hcache : cachedRates ≠ [])
    (hf : rateOf cachedRates fromCurrency = some rf) (ht : rateOf cachedRates toCurrency = some rt)
    (hf0 : rf ≠ 0) (ht0 : rt ≠ 0) :
    getExchangeRate cachedRates fromCurrency toCurrency
      = .ok (parseFloatToFixed ((1 / rf) * rt) 2) := by
  simp [getExchangeRate, hne, hcache, hf, ht, isFalsy, hf0, ht0]

theorem getExchangeRate_of_falsy (cachedRates : RateTable) (fromCurrency toCurrency : String)
    (hne : fromCurrency ≠ toCurrency) (hcache : cachedRates ≠ [])
    (h : isFalsy (rateOf cachedRates fromCurrency) = true
      ∨ isFalsy (rateOf cachedRates toCurrency) = true) :
    getExchangeRate cachedRates fromCurrency toCurrency
      = .error "Exchange rate not available for given currency" := by
  rcases h with h | h <;> simp [getExchangeRate, hne, hcache, h]

/-- A successful call with distinct codes read two truthy operands and returned their
rounded quotient. -/
theorem getExchangeRate_ok_inv (cachedRates : RateTable) (fromCurrency toCurrency : String)
    (r : ℚ) (hne : fromCurrency ≠ toCurrency)
    (h : getExchangeRate cachedRates fromCurrency toCurrency = .ok r) :
    ∃ rf rt, rateOf cachedRates fromCurrency = some rf ∧ rateOf cachedRates toCurrency = some rt
      ∧ rf ≠ 0 ∧ rt ≠ 0 ∧ r = parseFloatToFixed ((1 / rf) * rt) 2 := by
  unfold getExchangeRate at h
  rw [if_neg hne] at h
  split at h
  · cases h
  · cases hf : rateOf cachedRates fromCurrency with
    | none => simp [hf, isFalsy] at h
    | some rf =>
      cases ht : rateOf cachedRates toCurrency with
      | none => simp [hf, ht, isFalsy] at h
      | some rt =>
        by_cases hf0 : rf = 0
        · simp [hf, ht, isFalsy, hf0] at h
        · by_cases ht0 : rt = 0
          · simp [hf, ht, isFalsy, ht0] at h
          · simp [hf, ht, isFalsy, hf0, ht0] at h
            exact ⟨rf, rt, rfl, rfl, hf0, ht0, by rw [← h, one_div]⟩

/-! ## The refresh -/

theorem updateExchangeRates_thrown (result : AxiosResult) (now : ℕ) (s : RateCacheState) :
    (updateExchangeRates result now s).thrown = none := by
  unfold updateExchangeRates
  cases h : (updateExchangeRatesTry result now s).thrown <;> simp [h]

theorem updateExchangeRates_state (result : AxiosResult) (now : ℕ) (s : RateCacheState) :
    (updateExchangeRates result now s).state = (updateExchangeRatesTry result now s).state := by
  unfold updateExchangeRates
  cases h : (updateExchangeRatesTry result now s).thrown <;> simp [h]

theorem updateExchangeRates_state_of_hasRates_false (result : AxiosResult) (now : ℕ)
    (s : RateCacheState) (h : result.hasRates = false) :
    (updateExchangeRates result now s).state = s := by
  rw [updateExchangeRates_state]
  match result, h with
  | .rejected _, _ => rfl
  | .fulfilled none, _ => rfl
  | .fulfilled (some ⟨none⟩), _ => rfl

theorem runUpdates_of_hasRates_false (runs : List (AxiosResult × ℕ)) (s : RateCacheState)
    (h : ∀ r ∈ runs, r.1.hasRates = false) : runUpdates runs s = s := by
  induction runs generalizing s with
  | nil => rfl
  | cons r rest ih =>
    obtain ⟨result, now⟩ := r
    have h1 : result.hasRates = false := h (result, now) (List.mem_cons_self _ _)
    simp only [runUpdates, updateExchangeRates_state_of_hasRates_false result now s h1]
    exact ih s fun r hr => h r (List.mem_cons_of_mem _ hr)

theorem setProp_of_not_mem {α : Type} (obj : List (String × α)) (k : String) (v : α)
    (h : k ∉ obj.map Prod.fst) : setProp obj k v = obj ++ [(k, v)] := by
  induction obj with
  | nil => rfl
  | cons p rest ih =>
    obtain ⟨k', v'⟩ := p
    simp only [List.map_cons, List.mem_cons, not_or] at h
    have hk : ¬ k' = k := fun hk => h.1 hk.symm
    simp [setProp, hk, ih h.2]

theorem roundRatesLoop_numbers (rates : List (String × ℚ)) (table : RateTable)
    (hkeys : (rates.map Prod.fst).Nodup)
    (hdisj : ∀ k ∈ rates.map Prod.fst, k ∉ table.map Prod.fst) :
    roundRatesLoop (rates.map fun p => (p.1, JsonValue.number p.2)) table
      = (table ++ rates.map (fun p => (p.1, parseFloatToFixed p.2 2)), none) := by
  induction rates generalizing table with
  | nil => simp [roundRatesLoop]
  | cons p rest ih =>
    obtain ⟨k, x⟩ := p
    simp only [List.map_cons, List.nodup_cons] at hkeys
    have hk : k ∉ table.map Prod.fst := hdisj k (by simp)
    simp only [List.map_cons, roundRatesLoop, JsonValue.parseFloatToFixed2]
    rw [setProp_of_not_mem table k _ hk, ih (table ++ [(k, parseFloatToFixed x 2)]) hkeys.2]
    · simp
    · intro k' hk' hmem
      simp only [List.map_append, List.map_cons, List.map_nil, List.mem_append,
        List.mem_singleton] at hmem
      rcases hmem with hmem | hmem
      · exact hdisj k' (by simp only [List.map_cons, List.mem_cons]; exact Or.inr hk') hmem
      · exact hkeys.1 (hmem ▸ hk')

theorem lookup_eq_none_of_not_mem_keys {α : Type} (obj : List (String × α)) (k : String)
    (h : k ∉ obj.map Prod.fst) : obj.lookup k = none := by
  induction obj with
  | nil => rfl
  | cons p rest ih =>
    obtain ⟨k', v'⟩ := p
    simp only [List.map_cons, List.mem_cons, not_or] at h
    have hk : (k == k') = false := by simpa using h.1
    simp [List.lookup, hk, ih h.2]

theorem lookup_eq_some_of_mem {α : Type} (obj : List (String × α)) (k : String) (v : α)
    (hkeys : (obj.map Prod.fst).Nodup) (h : (k, v) ∈ obj) : obj.lookup k = some v := by
  induction obj with
  | nil => cases h
  | cons p rest ih =>
    obtain ⟨k', v'⟩ := p
    simp only [List.map_cons, List.nodup_cons] at hkeys
    rcases List.mem_cons.mp h with h | h
    · cases h
      simp [List.lookup]
    · have hk : (k == k') = false := by
        have : k ≠ k' := fun hkk => hkeys.1 (hkk ▸ List.mem_map_of_mem Prod.fst h)
        simpa using this
      simp [List.lookup, hk, ih hkeys.2 h]

/-! ## Decimal numerals -/

theorem toDigitsCore_eq_digits (fuel : ℕ) : ∀ (n : ℕ) (ds : List Char), 0 < n → n < fuel →
    Nat.toDigitsCore 10 fuel n ds = (Nat.digits 10 n).reverse.map Nat.digitChar ++ ds := by
  induction fuel with
  | zero => intro n ds _ h; omega
  | succ fuel ih =>
    intro n ds hn hlt
    rw [Nat.digits_def' (by norm_num) hn]
    simp only [Nat.toDigitsCore]
    by_cases h0 : n / 10 = 0
    · simp [h0]
    · rw [if_neg h0, ih (n / 10) _ (Nat.pos_of_ne_zero h0) (by omega)]
      simp

theorem toString_nat_eq_unpaddedDecimal (n : ℕ) : toString n = unpaddedDecimal n := by
  show Nat.repr n = _
  unfold unpaddedDecimal Nat.repr Nat.toDigits
  by_cases h : n = 0
  · subst h; rfl
  · rw [if_neg h, toDigitsCore_eq_digits (n + 1) n [] (Nat.pos_of_ne_zero h) (by omega)]
    simp [List.asString]

theorem toString_int_eq_unpaddedDecimalInt (i : ℤ) : toString i = unpaddedDecimalInt i := by
  cases i with
  | ofNat n => exact toString_nat_eq_unpaddedDecimal n
  | negSucc n =>
    show "-" ++ Nat.repr (n + 1) = "-" ++ unpaddedDecimal (n + 1)
    rw [← toString_nat_eq_unpaddedDecimal]
    rfl

/-! ## The report handlers -/

theorem lookup_setProp_self {α : Type} (obj : List (String × α)) (k : String) (v : α) :
    (setProp obj k v).lookup k = some v := by
  induction obj with
  | nil => simp [setProp, List.lookup]
  | cons p rest ih =>
    obtain ⟨k', v'⟩ := p
    by_cases hk : k' = k
    · simp [setProp, hk, List.lookup]
    · have hb : (k == k') = false := by simpa using fun h : k = k' => hk h.symm
      simp [setProp, hk, List.lookup, hb, ih]

theorem lookup_setProp_of_ne {α : Type} (obj : List (String × α)) (k k' : String) (v : α)
    (h : k' ≠ k) : (setProp obj k v).lookup k' = obj.lookup k' := by
  induction obj with
  | nil =>
    have hb : (k' == k) = false := by simpa using h
    simp [setProp, List.lookup, hb]
  | cons p rest ih =>
    obtain ⟨k0, v0⟩ := p
    by_cases hk : k0 = k
    · subst hk
      have hb : (k' == k0) = false := by simpa using h
      simp [setProp, List.lookup, hb]
    · by_cases hk' : k' = k0
      · simp [setProp, hk, List.lookup, hk']
      · have hb : (k' == k0) = false := by simpa using hk'
        simp [setProp, hk, List.lookup, hb, ih]

theorem lookup_isSome_of_mem_keys {α : Type} (obj : List (String × α)) (k : String)
    (h : k ∈ obj.map Prod.fst) : ∃ v, obj.lookup k = some v := by
  induction obj with
  | nil => cases h
  | cons p rest ih =>
    obtain ⟨k', v'⟩ := p
    by_cases hk : k = k'
    · exact ⟨v', by simp [List.lookup, hk]⟩
    · have hb : (k == k') = false := by simpa using hk
      simp only [List.map_cons, List.mem_cons] at h
      obtain ⟨v, hv⟩ := ih (h.resolve_left hk)
      exact ⟨v, by simp [List.lookup, hb, hv]⟩

/-- The body of `forEach` never throws: it leaves the bucket of the transaction's key with
the converted amount added and the count incremented (from 0 and 0 when the bucket is new),
and every other bucket as it was. -/
theorem trendStep_ok (rate : RateFn) (groupBy : Option QueryValue) (report : Report)
    (tx : Transaction) :
    ∃ report', trendStep rate groupBy report tx = .ok report'
      ∧ report'.lookup (groupKey groupBy tx.date)
          = some { total := ((report.lookup (groupKey groupBy tx.date)).getD
                      { total := 0, count := 0 }).total + convertedAmount rate tx,
                   count := ((report.lookup (groupKey groupBy tx.date)).getD
                      { total := 0, count := 0 }).count + 1 }
      ∧ ∀ k, k ≠ groupKey groupBy tx.date → report'.lookup k = report.lookup k := by
  cases h : report.lookup (groupKey groupBy tx.date) with
  | none =>
    have h1 : trendStep rate groupBy report tx
        = .ok (setProp (setProp report (groupKey groupBy tx.date) { total := 0, count := 0 })
            (groupKey groupBy tx.date)
            { total := 0 + convertedAmount rate tx, count := 0 + 1 }) := by
      simp [trendStep, h, lookup_setProp_self]
    refine ⟨_, h1, lookup_setProp_self _ _ _, fun k hk => ?_⟩
    rw [lookup_setProp_of_ne _ _ _ _ hk, lookup_setProp_of_ne _ _ _ _ hk]
  | some b =>
    have h1 : trendStep rate groupBy report tx
        = .ok (setProp report (groupKey groupBy tx.date)
            { total := b.total + convertedAmount rate tx, count := b.count + 1 }) := by
      simp [trendStep, h]
    exact ⟨_, h1, lookup_setProp_self _ _ _, fun k hk => lookup_setProp_of_ne _ _ _ _ hk⟩

theorem foldlM_trendStep_ok (rate : RateFn) (groupBy : Option QueryValue)
    (txs : List Transaction) (report : Report) :
    ∃ report', txs.foldlM (trendStep rate groupBy) report = .ok report' := by
  induction txs generalizing report with
  | nil => exact ⟨report, rfl⟩
  | cons tx rest ih =>
    obtain ⟨r1, h1, -, -⟩ := trendStep_ok rate groupBy report tx
    obtain ⟨r2, h2⟩ := ih r1
    refine ⟨r2, ?_⟩
    rw [List.foldlM_cons, h1]
    exact h2

theorem mem_insertKey (x k : String) (l : List String) :
    x ∈ insertKey k l ↔ x = k ∨ x ∈ l := by
  induction l with
  | nil => simp [insertKey]
  | cons h t ih =>
    unfold insertKey
    split
    · simp only [List.mem_cons, ih]; tauto
    · simp only [List.mem_cons]

theorem mem_sortKeys (x : String) (l : List String) : x ∈ sortKeys l ↔ x ∈ l := by
  induction l with
  | nil => simp [sortKeys]
  | cons k ks ih => simp [sortKeys, mem_insertKey, ih]

theorem mapM_rows_ok (report : Report) (keys : List String)
    (h : ∀ k ∈ keys, k ∈ report.map Prod.fst) :
    ∃ rows, keys.mapM (fun key =>
      match report.lookup key with
      | none => (Except.error "Cannot read properties of undefined (reading 'total')" :
          Except String ReportRow)
      | some b => .ok { group := key, total := b.total, count := b.count }) = .ok rows := by
  induction keys with
  | nil => exact ⟨[], rfl⟩
  | cons k ks ih =>
    obtain ⟨b, hb⟩ := lookup_isSome_of_mem_keys report k (h k (List.mem_cons_self _ _))
    obtain ⟨rows, hrows⟩ := ih fun k' hk' => h k' (List.mem_cons_of_mem _ hk')
    refine ⟨{ group := k, total := b.total, count := b.count } :: rows, ?_⟩
    rw [List.mapM_cons, hb, hrows]
    rfl

theorem sortedReport_ok (report : Report) : ∃ rows, sortedReport report = .ok rows :=
  mapM_rows_ok report _ fun k hk => (mem_sortKeys k _).mp hk

/-- Once the store has answered the query, the trend handler answers 200. -/
theorem trend_status_of_store_ok (rate : RateFn) (userId : String) (p : TrendParams)
    (find : Store) (q : StoreQuery) (txs : List Transaction)
    (hq : buildQuery userId p = .ok q) (hfind : find q = .ok txs) :
    (getSpendingTrendReportConverted rate userId p find).status = 200 := by
  obtain ⟨report, hreport⟩ := foldlM_trendStep_ok rate p.groupBy txs []
  obtain ⟨rows, hrows⟩ := sortedReport_ok report
  have : spendingTrendTry rate userId p find = .ok rows := by
    unfold spendingTrendTry
    rw [hq]
    show (find q >>= fun transactions => _) = _
    rw [hfind]
    show (List.foldlM (trendStep rate p.groupBy) [] txs >>= fun report => _) = _
    rw [hreport]
    exact hrows
  simp [getSpendingTrendReportConverted, this]

/-- Once the store has answered both queries, the dashboard handler answers 200 with the two
folds and their difference. -/
theorem dashboard_of_store_ok (rate : RateFn) (userId : String) (find : Store)
    (incomes expenses : List Transaction)
    (hi : find (incomeQuery userId) = .ok incomes)
    (he : find (expenseQuery userId) = .ok expenses) :
    getDashboardSummaryConverted rate userId find
      = { status := 200,
          body := .summary (incomes.foldl (reduceStep rate) 0)
            (expenses.foldl (reduceStep rate) 0)
            (incomes.foldl (reduceStep rate) 0 - expenses.foldl (reduceStep rate) 0) } := by
  have : dashboardSummaryTry rate userId find
      = .ok (.summary (incomes.foldl (reduceStep rate) 0)
            (expenses.foldl (reduceStep rate) 0)
            (incomes.foldl (reduceStep rate) 0 - expenses.foldl (reduceStep rate) 0)) := by
    unfold dashboardSummaryTry
    rw [hi]
    show (find (expenseQuery userId) >>= fun expenses => _) = _
    rw [he]
    rfl
  simp [getDashboardSummaryConverted, this]

/-! ## Claims -/

/-- C1: for every currency code `c` and every rate table (empty, or without an entry for `c`,
or any other), `getExchangeRate(c, c)` returns exactly 1 and does not throw. -/
theorem getExchangeRate_same_currency (cachedRates : RateTable) (c : String) :
    getExchangeRate cachedRates c c = .ok 1 := by
  simp [getExchangeRate]

/-- The guard on the empty table: for distinct codes (EUR included) `getExchangeRate` throws
"Exchange rates not available" on the empty table; the table is empty at module load, and it
is still empty after any number of refresh attempts whose provider call was rejected or whose
response carried no `rates`, so the call throws there as well. -/
theorem getExchangeRate_empty_cache (fromCurrency toCurrency : String)
    (hne : fromCurrency ≠ toCurrency) :
    getExchangeRate [] fromCurrency toCurrency
        = .error "Exchange rates not available; please try again later"
      ∧ initialState.cachedRates = []
      ∧ ∀ runs : List (AxiosResult × ℕ), (∀ r ∈ runs, r.1.hasRates = false) →
          getExchangeRate (runUpdates runs initialState).cachedRates fromCurrency toCurrency
            = .error "Exchange rates not available; please try again later" := by
  have h0 : getExchangeRate [] fromCurrency toCurrency
      = .error "Exchange rates not available; please try again later" := by
    simp [getExchangeRate, hne]
  refine ⟨h0, rfl, fun runs hruns => ?_⟩
  rw [runUpdates_of_hasRates_false runs initialState hruns]
  exact h0

theorem getExchangeRate_empty_cache_witness :
    "USD" ≠ "EUR" ∧
    getExchangeRate [] "USD" "EUR"
      = .error "Exchange rates not available; please try again later" :=
  ⟨by decide, (getExchangeRate_empty_cache "USD" "EUR" (by decide)).1⟩

/-- C3: on a non-empty table, for distinct codes whose two operands are available (the guard
`!rateFrom || !rateTo` of the "not available" error does not fire), `getExchangeRate` returns
`(1 / rateOf(from)) * rateOf(to)` rounded to two decimal places, where `rateOf("EUR")` is 1
whatever the table holds and `rateOf(c)` is the table entry for every other code. -/
theorem getExchangeRate_rounded_cross_rate (cachedRates : RateTable)
    (fromCurrency toCurrency : String) (rf rt : ℚ)
    (hne : fromCurrency ≠ toCurrency) (hcache : cachedRates ≠ [])
    (hf : rateOf cachedRates fromCurrency = some rf)
    (ht : rateOf cachedRates toCurrency = some rt)
    (hfa : isFalsy (some rf) = false) (hta : isFalsy (some rt) = false) :
    (∃ r, getExchangeRate cachedRates fromCurrency toCurrency = .ok r
        ∧ RoundedToTwoDecimals ((1 / rf) * rt) r)
      ∧ rateOf cachedRates "EUR" = some 1
      ∧ ∀ c, c ≠ "EUR" → rateOf cachedRates c = cachedRates.lookup c := by
  have hf0 : rf ≠ 0 := by simpa [isFalsy] using hfa
  have ht0 : rt ≠ 0 := by simpa [isFalsy] using hta
  refine ⟨⟨_, getExchangeRate_of_truthy cachedRates fromCurrency toCurrency rf rt hne hcache
    hf ht hf0 ht0, roundedToTwoDecimals_parseFloatToFixed _⟩, by simp [rateOf], ?_⟩
  intro c hc
  simp [rateOf, hc]

theorem getExchangeRate_rounded_cross_rate_witness :
    ∃ r, getExchangeRate [("USD", 108 / 100), ("GBP", 85 / 100)] "USD" "GBP" = .ok r
      ∧ RoundedToTwoDecimals ((1 / (108 / 100)) * (85 / 100)) r :=
  (getExchangeRate_rounded_cross_rate [("USD", 108 / 100), ("GBP", 85 / 100)] "USD" "GBP"
    (108 / 100) (85 / 100) (by decide) (by simp) (by simp [rateOf, List.lookup])
    (by simp [rateOf, List.lookup]) (by simp [isFalsy]) (by simp [isFalsy])).1

/-- C5, refuted as stated: with EUR to JPY cached at 160 both directions succeed, as 160 and
as 0.01, and their product 1.6 is 0.6 away from 1. -/
theorem round_trip_product_off_by_more_than_a_cent :
    ∃ rab rba, getExchangeRate [("JPY", 160)] "EUR" "JPY" = .ok rab
      ∧ getExchangeRate [("JPY", 160)] "JPY" "EUR" = .ok rba
      ∧ ¬ |rab * rba - 1| ≤ 1 / 100 := by
  refine ⟨160, 1 / 100, ?_, ?_, ?_⟩
  · rw [getExchangeRate_of_truthy [("JPY", 160)] "EUR" "JPY" 1 160 (by decide) (by simp)
      (by simp [rateOf]) (by simp [rateOf, List.lookup]) (by norm_num) (by norm_num)]
    norm_num [parseFloatToFixed, Int.floor_eq_iff]
  · rw [getExchangeRate_of_truthy [("JPY", 160)] "JPY" "EUR" 160 1 (by decide) (by simp)
      (by simp [rateOf, List.lookup]) (by simp [rateOf]) (by norm_num) (by norm_num)]
    norm_num [parseFloatToFixed, Int.floor_eq_iff]
  · norm_num [abs_le]

/-- C5, amended: whenever both directions succeed for distinct codes, each returned rate is
within 0.005 of its unrounded value, and the product of the two deviates from 1 by at most
`0.005 * (|u| + |1 / u|) + 0.000025`, where `u = rateOf(B) / rateOf(A)`. -/
theorem round_trip_product_bound (cachedRates : RateTable) (a b : String) (rab rba : ℚ)
    (hne : a ≠ b)
    (hab : getExchangeRate cachedRates a b = .ok rab)
    (hba : getExchangeRate cachedRates b a = .ok rba) :
    ∃ ra rb, rateOf cachedRates a = some ra ∧ rateOf cachedRates b = some rb
      ∧ ra ≠ 0 ∧ rb ≠ 0
      ∧ |rab - (1 / ra) * rb| ≤ 1 / 200
      ∧ |rba - (1 / rb) * ra| ≤ 1 / 200
      ∧ |rab * rba - 1| ≤ (|rb / ra| + |ra / rb|) / 200 + 1 / 40000 := by
  obtain ⟨ra, rb, hra, hrb, ha0, hb0, hrab⟩ := getExchangeRate_ok_inv cachedRates a b rab hne hab
  obtain ⟨rb', ra', hrb', hra', _, _, hrba⟩ :=
    getExchangeRate_ok_inv cachedRates b a rba (Ne.symm hne) hba
  have e1 : rb' = rb := by rw [hrb] at hrb'; exact (Option.some.inj hrb').symm
  have e2 : ra' = ra := by rw [hra] at hra'; exact (Option.some.inj hra').symm
  subst e1 e2
  have h1 : |rab - (1 / ra') * rb'| ≤ 1 / 200 := hrab ▸ abs_parseFloatToFixed_two_sub_le _
  have h2 : |rba - (1 / rb') * ra'| ≤ 1 / 200 := hrba ▸ abs_parseFloatToFixed_two_sub_le _
  refine ⟨ra', rb', hra, hrb, ha0, hb0, h1, h2, ?_⟩
  set u := (1 / ra') * rb' with hu
  set v := (1 / rb') * ra' with hv
  have huv : u * v = 1 := by rw [hu, hv]; field_simp
  have hu' : rb' / ra' = u := by rw [hu]; field_simp
  have hv' : ra' / rb' = v := by rw [hv]; field_simp
  rw [hu', hv']
  have hdecomp : rab * rba - 1 = u * (rba - v) + v * (rab - u) + (rab - u) * (rba - v) := by
    rw [← huv]; ring
  have t1 : |u * (rba - v)| ≤ |u| * (1 / 200) := by
    rw [abs_mul]; exact mul_le_mul_of_nonneg_left h2 (abs_nonneg _)
  have t2 : |v * (rab - u)| ≤ |v| * (1 / 200) := by
    rw [abs_mul]; exact mul_le_mul_of_nonneg_left h1 (abs_nonneg _)
  have t3 : |(rab - u) * (rba - v)| ≤ (1 / 200) * (1 / 200) := by
    rw [abs_mul]; exact mul_le_mul h1 h2 (abs_nonneg _) (by norm_num)
  have tri := abs_add_three (u * (rba - v)) (v * (rab - u)) ((rab - u) * (rba - v))
  rw [hdecomp]
  linarith

theorem round_trip_product_bound_witness :
    ∃ ra rb, rateOf [("JPY", 160)] "EUR" = some ra ∧ rateOf [("JPY", 160)] "JPY" = some rb
      ∧ ra ≠ 0 ∧ rb ≠ 0
      ∧ |(160 : ℚ) - (1 / ra) * rb| ≤ 1 / 200
      ∧ |(1 / 100 : ℚ) - (1 / rb) * ra| ≤ 1 / 200
      ∧ |(160 : ℚ) * (1 / 100) - 1| ≤ (|rb / ra| + |ra / rb|) / 200 + 1 / 40000 :=
  round_trip_product_bound [("JPY", 160)] "EUR" "JPY" 160 (1 / 100) (by decide)
    (by
      rw [getExchangeRate_of_truthy [("JPY", 160)] "EUR" "JPY" 1 160 (by decide) (by simp)
        (by simp [rateOf]) (by simp [rateOf, List.lookup]) (by norm_num) (by norm_num)]
      norm_num [parseFloatToFixed, Int.floor_eq_iff])
    (by
      rw [getExchangeRate_of_truthy [("JPY", 160)] "JPY" "EUR" 160 1 (by decide) (by simp)
        (by simp [rateOf, List.lookup]) (by simp [rateOf]) (by norm_num) (by norm_num)]
      norm_num [parseFloatToFixed, Int.floor_eq_iff])

/-- C6: when the provider answers with a `rates` object whose values are all numbers, the
table afterwards is the response's own entries, in the response's order, each value rounded
to two decimal places; a code absent from the response has no entry afterwards whatever the
previous table held; `lastUpdate` is the time of the run, and nothing is thrown. -/
theorem updateExchangeRates_replaces_table (rates : List (String × ℚ)) (now : ℕ)
    (s : RateCacheState) (hkeys : (rates.map Prod.fst).Nodup) :
    let c := updateExchangeRates
      (.fulfilled (some { rates := some (rates.map fun p => (p.1, JsonValue.number p.2)) })) now s
    c.state.cachedRates = rates.map (fun p => (p.1, parseFloatToFixed p.2 2))
      ∧ c.state.cachedRates.map Prod.fst = rates.map Prod.fst
      ∧ (∀ k, k ∉ rates.map Prod.fst → c.state.cachedRates.lookup k = none)
      ∧ (∀ k x, (k, x) ∈ rates →
          c.state.cachedRates.lookup k = some (parseFloatToFixed x 2)
            ∧ RoundedToTwoDecimals x (parseFloatToFixed x 2))
      ∧ c.state.lastUpdate = some now
      ∧ c.thrown = none := by
  intro c
  have hloop := roundRatesLoop_numbers rates [] hkeys (by simp)
  have hstate : c.state
      = { cachedRates := rates.map (fun p => (p.1, parseFloatToFixed p.2 2)),
          lastUpdate := some now } := by
    show (updateExchangeRates _ now s).state = _
    rw [updateExchangeRates_state]
    simp only [updateExchangeRatesTry, hloop, List.nil_append]
  have hk : (rates.map (fun p => (p.1, parseFloatToFixed p.2 2))).map Prod.fst
      = rates.map Prod.fst := by
    simp [List.map_map, Function.comp_def]
  refine ⟨by rw [hstate], by rw [hstate]; exact hk, ?_, ?_, by rw [hstate],
    updateExchangeRates_thrown _ _ _⟩
  · intro k hk'
    rw [hstate]
    exact lookup_eq_none_of_not_mem_keys _ k (by rw [hk]; exact hk')
  · intro k x hmem
    refine ⟨?_, roundedToTwoDecimals_parseFloatToFixed x⟩
    rw [hstate]
    apply lookup_eq_some_of_mem _ k _ (by rw [hk]; exact hkeys)
    exact List.mem_map.mpr ⟨(k, x), hmem, rfl⟩

theorem updateExchangeRates_replaces_table_witness :
    (updateExchangeRates
      (.fulfilled (some { rates := some ([("USD", (10849 : ℚ) / 10000), ("JPY", 160)].map
        fun p => (p.1, JsonValue.number p.2)) })) 2000
      { cachedRates := [("AUD", 165 / 100)], lastUpdate := some 1000 }).state.cachedRates
      = [("USD", (10849 : ℚ) / 10000), ("JPY", 160)].map
          (fun p => (p.1, parseFloatToFixed p.2 2)) :=
  (updateExchangeRates_replaces_table [("USD", (10849 : ℚ) / 10000), ("JPY", 160)] 2000
    { cachedRates := [("AUD", 165 / 100)], lastUpdate := some 1000 } (by decide)).1

/-- C7: a refresh whose provider call is rejected, or whose response has no body or no
`rates`, leaves the table and `lastUpdate` as they were, and no refresh throws to its caller.
The malformed case fails the claim: a `rates` object holding a non-numeric value makes the
refresh fail (the error is caught and logged, `lastUpdate` is unchanged), yet the table is not
the one from before the call.  With the string first the table is emptied; with a `null` after
a number the table is the part of the response that came before it. -/
theorem updateExchangeRates_malformed_rates_tears_table :
    (∀ (message : String) (now : ℕ) (s : RateCacheState),
        (updateExchangeRates (.rejected message) now s).state = s)
    ∧ (∀ (now : ℕ) (s : RateCacheState),
        (updateExchangeRates (.fulfilled none) now s).state = s
          ∧ (updateExchangeRates (.fulfilled (some { rates := none })) now s).state = s)
    ∧ (∀ (result : AxiosResult) (now : ℕ) (s : RateCacheState),
        (updateExchangeRates result now s).thrown = none)
    ∧ updateExchangeRates (.fulfilled (some { rates := some [("USD", .string "1.08")] })) 2000
        { cachedRates := [("USD", 108 / 100), ("JPY", 160)], lastUpdate := some 1000 }
      = { state := { cachedRates := [], lastUpdate := some 1000 },
          console := ["Error updating exchange rates: " ++
            "rawRates[currency].toFixed is not a function"],
          thrown := none }
    ∧ (updateExchangeRates
        (.fulfilled (some { rates := some [("GBP", .number 1), ("USD", .null)] })) 2000
        { cachedRates := [("USD", 108 / 100), ("JPY", 160)], lastUpdate := some 1000 }).state
      = { cachedRates := [("GBP", 1)], lastUpdate := some 1000 } := by
  refine ⟨fun _ _ _ => rfl, fun _ _ => ⟨rfl, rfl⟩, updateExchangeRates_thrown, rfl, ?_⟩
  have h1 : parseFloatToFixed 1 2 = 1 := by norm_num [parseFloatToFixed, Int.floor_eq_iff]
  simp [updateExchangeRates, updateExchangeRatesTry, roundRatesLoop,
    JsonValue.parseFloatToFixed2, setProp, h1]

/-- C8: in both handlers a transaction whose currency is the reporting currency "USD" gets the
factor 1 and contributes exactly its own amount: to its bucket in the trend report (whose
count goes up by one) and to the running sum in the dashboard.  This holds whatever function
stands for `getExchangeRate`, so the resolver's answer is not used, and in particular for
every rate table. -/
theorem same_currency_contributes_own_amount (rate : RateFn) (tx : Transaction)
    (hcur : tx.currency = "USD") :
    conversionRate rate tx = 1
      ∧ convertedAmount rate tx = tx.amount
      ∧ (∀ cachedRates : RateTable, convertedAmount (getExchangeRate cachedRates) tx = tx.amount)
      ∧ (∀ (groupBy : Option QueryValue) (report : Report),
          ∃ report', trendStep rate groupBy report tx = .ok report'
            ∧ report'.lookup (groupKey groupBy tx.date)
                = some { total := ((report.lookup (groupKey groupBy tx.date)).getD
                            { total := 0, count := 0 }).total + tx.amount,
                         count := ((report.lookup (groupKey groupBy tx.date)).getD
                            { total := 0, count := 0 }).count + 1 })
      ∧ (∀ sum : ℚ, reduceStep rate sum tx = sum + tx.amount) := by
  have hrate : ∀ r : RateFn, conversionRate r tx = 1 := by
    intro r
    simp [conversionRate, baseCurrency, hcur]
  have hamount : ∀ r : RateFn, convertedAmount r tx = tx.amount := by
    intro r
    simp [convertedAmount, hrate r]
  refine ⟨hrate rate, hamount rate, fun cachedRates => hamount _, ?_, ?_⟩
  · intro groupBy report
    obtain ⟨report', h1, h2, -⟩ := trendStep_ok rate groupBy report tx
    exact ⟨report', h1, by rw [h2, hamount rate]⟩
  · intro sum
    simp [reduceStep, hrate rate]

theorem same_currency_contributes_own_amount_witness :
    convertedAmount (getExchangeRate [])
      { user := "u1", amount := 100, currency := "USD", type := "expense",
        date := { utcFullYear := 2025, utcMonth := 0, utcDate := 10 },
        category := "food", tags := [] } = 100 :=
  (same_currency_contributes_own_amount (getExchangeRate [])
    { user := "u1", amount := 100, currency := "USD", type := "expense",
      date := { utcFullYear := 2025, utcMonth := 0, utcDate := 10 },
      category := "food", tags := [] } rfl).2.1

/-- C9: when `getExchangeRate` throws for a transaction (empty table, code not in the table),
the transaction gets the factor 1: the body of `forEach` adds `amount * 1` to the total of its
bucket and 1 to its count, the callback of `reduce` adds `amount * 1` to the running sum, and
a handler whose store queries returned lists holding this transaction answers 200. -/
theorem failed_conversion_contributes_amount (cachedRates : RateTable) (tx : Transaction)
    (e : String) (hfail : getExchangeRate cachedRates tx.currency baseCurrency = .error e) :
    conversionRate (getExchangeRate cachedRates) tx = 1
      ∧ (∀ (groupBy : Option QueryValue) (report : Report),
          ∃ report', trendStep (getExchangeRate cachedRates) groupBy report tx = .ok report'
            ∧ report'.lookup (groupKey groupBy tx.date)
                = some { total := ((report.lookup (groupKey groupBy tx.date)).getD
                            { total := 0, count := 0 }).total + tx.amount * 1,
                         count := ((report.lookup (groupKey groupBy tx.date)).getD
                            { total := 0, count := 0 }).count + 1 })
      ∧ (∀ sum : ℚ, reduceStep (getExchangeRate cachedRates) sum tx = sum + tx.amount * 1)
      ∧ (∀ (userId : String) (p : TrendParams) (find : Store) (q : StoreQuery)
          (txs : List Transaction), buildQuery userId p = .ok q → find q = .ok txs → tx ∈ txs →
          (getSpendingTrendReportConverted (getExchangeRate cachedRates) userId p find).status
            = 200)
      ∧ (∀ (userId : String) (find : Store) (incomes expenses : List Transaction),
          find (incomeQuery userId) = .ok incomes → find (expenseQuery userId) = .ok expenses →
          tx ∈ incomes ∨ tx ∈ expenses →
          (getDashboardSummaryConverted (getExchangeRate cachedRates) userId find).status
            = 200) := by
  have hrate : conversionRate (getExchangeRate cachedRates) tx = 1 := by
    unfold conversionRate
    split
    · rw [hfail]
    · rfl
  refine ⟨hrate, ?_, ?_, ?_, ?_⟩
  · intro groupBy report
    obtain ⟨report', h1, h2, -⟩ := trendStep_ok (getExchangeRate cachedRates) groupBy report tx
    refine ⟨report', h1, ?_⟩
    rw [h2]
    simp [convertedAmount, hrate]
  · intro sum
    simp [reduceStep, hrate]
  · intro userId p find q txs hq hfind _
    exact trend_status_of_store_ok _ userId p find q txs hq hfind
  · intro userId find incomes expenses hi he _
    rw [dashboard_of_store_ok _ userId find incomes expenses hi he]

theorem failed_conversion_contributes_amount_witness :
    conversionRate (getExchangeRate [("USD", 108 / 100)])
      { user := "u1", amount := 50, currency := "XXX", type := "expense",
        date := { utcFullYear := 2025, utcMonth := 1, utcDate := 1 },
        category := "food", tags := [] } = 1 :=
  (failed_conversion_contributes_amount [("USD", 108 / 100)]
    { user := "u1", amount := 50, currency := "XXX", type := "expense",
      date := { utcFullYear := 2025, utcMonth := 1, utcDate := 1 },
      category := "food", tags := [] }
    "Exchange rate not available for given currency"
    (by simp [getExchangeRate, baseCurrency, rateOf, List.lookup, isFalsy])).1

/-- C10: for a valid date the group key is `Y-M-D` under `groupBy = "daily"` and `Y-M` under
`groupBy = "monthly"`, where `Y` is the UTC year, `M` the UTC month counted from 1 (so between
1 and 12) and `D` the UTC day of the month, each as its decimal numeral without zero padding;
the date 2025-01-10 gives "2025-1-10" and "2025-1". -/
theorem groupKey_unpadded (d : JsDate) (hd : d.Valid) :
    groupKey (some (.str "daily")) d
        = unpaddedDecimalInt d.utcFullYear ++ "-" ++ unpaddedDecimal (d.utcMonth + 1) ++ "-"
            ++ unpaddedDecimal d.utcDate
      ∧ groupKey (some (.str "monthly")) d
        = unpaddedDecimalInt d.utcFullYear ++ "-" ++ unpaddedDecimal (d.utcMonth + 1)
      ∧ 1 ≤ d.utcMonth + 1 ∧ d.utcMonth + 1 ≤ 12
      ∧ 1 ≤ d.utcDate ∧ d.utcDate ≤ 31
      ∧ groupKey (some (.str "daily")) { utcFullYear := 2025, utcMonth := 0, utcDate := 10 }
        = "2025-1-10"
      ∧ groupKey (some (.str "monthly")) { utcFullYear := 2025, utcMonth := 0, utcDate := 10 }
        = "2025-1" := by
  obtain ⟨hm, hd1, hd2⟩ := hd
  refine ⟨?_, ?_, by omega, by omega, hd1, hd2, by decide, by decide⟩
  · simp only [groupKey, if_true, toString_int_eq_unpaddedDecimalInt,
      toString_nat_eq_unpaddedDecimal]
  · have hne : (some (QueryValue.str "monthly") = some (QueryValue.str "daily")) = False := by
      simp
    simp only [groupKey, hne, if_false, toString_int_eq_unpaddedDecimalInt,
      toString_nat_eq_unpaddedDecimal]

theorem groupKey_unpadded_witness :
    groupKey (some (.str "daily")) { utcFullYear := 2025, utcMonth := 11, utcDate := 31 }
      = unpaddedDecimalInt 2025 ++ "-" ++ unpaddedDecimal (11 + 1) ++ "-" ++ unpaddedDecimal 31 :=
  (groupKey_unpadded { utcFullYear := 2025, utcMonth := 11, utcDate := 31 } (by decide)).1

/-! ## The order of group keys and the sort -/

theorem char_eq_of_toNat_eq (a b : Char) (h : a.toNat = b.toNat) : a = b := by
  apply Char.ext
  apply UInt32.ext
  exact h

theorem codeUnitsLt_irrefl (a : List Char) : codeUnitsLt a a = false := by
  induction a with
  | nil => rfl
  | cons c cs ih => simp [codeUnitsLt, ih]

theorem codeUnitsLt_trans : ∀ (a b c : List Char),
    codeUnitsLt a b = true → codeUnitsLt b c = true → codeUnitsLt a c = true
  | _, [], _, h, _ => by simp [codeUnitsLt] at h
  | _, _ :: _, [], _, h => by simp [codeUnitsLt] at h
  | [], _ :: _, _ :: _, _, _ => by simp [codeUnitsLt]
  | x :: xs, y :: ys, z :: zs, h1, h2 => by
    simp only [codeUnitsLt, Bool.or_eq_true, decide_eq_true_eq, Bool.and_eq_true,
      beq_iff_eq] at h1 h2 ⊢
    rcases h1 with h1 | ⟨e1, h1⟩
    · rcases h2 with h2 | ⟨e2, _⟩
      · exact Or.inl (by omega)
      · exact Or.inl (by omega)
    · rcases h2 with h2 | ⟨e2, h2⟩
      · exact Or.inl (by omega)
      · exact Or.inr ⟨by omega, codeUnitsLt_trans xs ys zs h1 h2⟩

theorem codeUnitsLt_trichotomy : ∀ (a b : List Char),
    a ≠ b → codeUnitsLt a b = true ∨ codeUnitsLt b a = true
  | [], [], h => absurd rfl h
  | [], _ :: _, _ => Or.inl (by simp [codeUnitsLt])
  | _ :: _, [], _ => Or.inr (by simp [codeUnitsLt])
  | x :: xs, y :: ys, h => by
    simp only [codeUnitsLt, Bool.or_eq_true, decide_eq_true_eq, Bool.and_eq_true, beq_iff_eq]
    rcases Nat.lt_trichotomy x.toNat y.toNat with hlt | heq | hgt
    · exact Or.inl (Or.inl hlt)
    · have hxy : x = y := char_eq_of_toNat_eq x y heq
      subst hxy
      have hne : xs ≠ ys := fun e => h (by rw [e])
      rcases codeUnitsLt_trichotomy xs ys hne with h1 | h1
      · exact Or.inl (Or.inr ⟨rfl, h1⟩)
      · exact Or.inr (Or.inr ⟨rfl, h1⟩)
    · exact Or.inr (Or.inl hgt)

theorem codeUnitsLt_asymm (a b : List Char) (h : codeUnitsLt a b = true) :
    codeUnitsLt b a = false := by
  cases hba : codeUnitsLt b a with
  | false => rfl
  | true =>
    have := codeUnitsLt_trans a b a h hba
    rw [codeUnitsLt_irrefl] at this
    cases this

/-- The order "not after": `b` does not sort before `a`. -/
theorem codeUnitsLt_false_trans (a b c : List Char)
    (h1 : codeUnitsLt b a = false) (h2 : codeUnitsLt c b = false) :
    codeUnitsLt c a = false := by
  cases hca : codeUnitsLt c a with
  | false => rfl
  | true =>
    by_cases hbc : b = c
    · subst hbc; rw [hca] at h1; cases h1
    · rcases codeUnitsLt_trichotomy b c hbc with h | h
      · have := codeUnitsLt_trans b c a h hca
        rw [this] at h1; cases h1
      · rw [h] at h2; cases h2

theorem perm_insertKey (k : String) (l : List String) : (insertKey k l).Perm (k :: l) := by
  induction l with
  | nil => exact List.Perm.refl _
  | cons h t ih =>
    unfold insertKey
    split
    · exact ((List.Perm.cons h ih).trans (List.Perm.swap k h t))
    · exact List.Perm.refl _

theorem perm_sortKeys (l : List String) : (sortKeys l).Perm l := by
  induction l with
  | nil => exact List.Perm.refl _
  | cons k ks ih => exact (perm_insertKey k (sortKeys ks)).trans (List.Perm.cons k ih)

theorem pairwise_insertKey (k : String) (l : List String)
    (h : l.Pairwise fun a b => codeUnitsLt b.data a.data = false) :
    (insertKey k l).Pairwise fun a b => codeUnitsLt b.data a.data = false := by
  induction l with
  | nil => simp [insertKey]
  | cons x t ih =>
    rw [List.pairwise_cons] at h
    unfold insertKey
    split
    · rename_i hlt
      rw [List.pairwise_cons]
      refine ⟨fun b hb => ?_, ih h.2⟩
      rcases (mem_insertKey b k t).mp hb with rfl | hb
      · exact codeUnitsLt_asymm _ _ hlt
      · exact h.1 b hb
    · rename_i hnlt
      have hkx : codeUnitsLt x.data k.data = false := by simpa using hnlt
      rw [List.pairwise_cons]
      refine ⟨fun b hb => ?_, List.pairwise_cons.mpr h⟩
      rcases List.mem_cons.mp hb with rfl | hb
      · exact hkx
      · exact codeUnitsLt_false_trans k.data x.data b.data hkx (h.1 b hb)

theorem pairwise_sortKeys (l : List String) :
    (sortKeys l).Pairwise fun a b => codeUnitsLt b.data a.data = false := by
  induction l with
  | nil => simp [sortKeys]
  | cons k ks ih => exact pairwise_insertKey k _ ih

theorem strictlyAscending_sortKeys (l : List String) (h : l.Nodup) :
    StrictlyAscending (sortKeys l) := by
  have hnd : (sortKeys l).Nodup := (perm_sortKeys l).nodup_iff.mpr h
  have hs := pairwise_sortKeys l
  unfold StrictlyAscending
  unfold List.Nodup at hnd
  refine (hnd.and hs).imp ?_
  intro a b hab
  have hne : a.data ≠ b.data := fun e => hab.1 (String.ext e)
  rcases codeUnitsLt_trichotomy a.data b.data hne with h1 | h1
  · exact h1
  · rw [h1] at hab; cases hab.2

/-! ## The buckets built by the trend report -/

theorem keys_setProp {α : Type} (obj : List (String × α)) (k : String) (v : α) :
    (setProp obj k v).map Prod.fst
      = if k ∈ obj.map Prod.fst then obj.map Prod.fst else obj.map Prod.fst ++ [k] := by
  induction obj with
  | nil => simp [setProp]
  | cons p rest ih =>
    obtain ⟨k', v'⟩ := p
    by_cases hk : k' = k
    · simp [setProp, hk]
    · have hk2 : ¬ k = k' := fun e => hk e.symm
      simp only [setProp, hk, if_false, List.map_cons, ih, List.mem_cons, hk2, false_or]
      split <;> simp

theorem nodup_keys_setProp {α : Type} (obj : List (String × α)) (k : String) (v : α)
    (h : (obj.map Prod.fst).Nodup) : ((setProp obj k v).map Prod.fst).Nodup := by
  rw [keys_setProp]
  split
  · exact h
  · rename_i hk
    exact List.Nodup.append h (List.nodup_singleton k) (by simpa using hk)

theorem nodup_keys_of_trendStep (rate : RateFn) (groupBy : Option QueryValue)
    (report report' : Report) (tx : Transaction) (h : (report.map Prod.fst).Nodup)
    (hstep : trendStep rate groupBy report tx = .ok report') :
    (report'.map Prod.fst).Nodup := by
  unfold trendStep at hstep
  simp only at hstep
  split at hstep
  · cases hstep
  · injection hstep with hstep
    subst hstep
    apply nodup_keys_setProp
    split
    · exact nodup_keys_setProp _ _ _ h
    · exact h

theorem nodup_keys_of_foldlM_trendStep (rate : RateFn) (groupBy : Option QueryValue)
    (txs : List Transaction) (report report' : Report) (h : (report.map Prod.fst).Nodup)
    (hfold : txs.foldlM (trendStep rate groupBy) report = .ok report') :
    (report'.map Prod.fst).Nodup := by
  induction txs generalizing report with
  | nil =>
    injection hfold with hfold
    subst hfold
    exact h
  | cons tx rest ih =>
    rw [List.foldlM_cons] at hfold
    obtain ⟨r1, h1, -, -⟩ := trendStep_ok rate groupBy report tx
    rw [h1] at hfold
    exact ih r1 (nodup_keys_of_trendStep rate groupBy report r1 tx h h1) hfold

/-- After the loop over `txs`, a key under which no transaction falls has the bucket it had
before, and a key under which some transaction falls has its previous total (0 for a new key)
plus the converted amounts of those transactions and its previous count plus their number. -/
theorem lookup_of_foldlM_trendStep (rate : RateFn) (groupBy : Option QueryValue)
    (txs : List Transaction) (report report' : Report) (k : String)
    (hfold : txs.foldlM (trendStep rate groupBy) report = .ok report') :
    (inBucket groupBy k txs = [] → report'.lookup k = report.lookup k)
      ∧ (inBucket groupBy k txs ≠ [] →
          report'.lookup k
            = some { total := ((report.lookup k).getD { total := 0, count := 0 }).total
                        + bucketTotal rate groupBy k txs,
                     count := ((report.lookup k).getD { total := 0, count := 0 }).count
                        + bucketCount groupBy k txs }) := by
  induction txs generalizing report with
  | nil =>
    injection hfold with hfold
    subst hfold
    exact ⟨fun _ => rfl, fun h => absurd rfl h⟩
  | cons tx rest ih =>
    rw [List.foldlM_cons] at hfold
    obtain ⟨r1, h1, hkey, hother⟩ := trendStep_ok rate groupBy report tx
    rw [h1] at hfold
    obtain ⟨ih1, ih2⟩ := ih r1 hfold
    by_cases hk : groupKey groupBy tx.date = k
    · have hcons : inBucket groupBy k (tx :: rest) = tx :: inBucket groupBy k rest := by
        simp [inBucket, List.filter_cons, hk]
      refine ⟨fun h => (by rw [hcons] at h; cases h), fun _ => ?_⟩
      rw [hk] at hkey
      by_cases hrest : inBucket groupBy k rest = []
      · rw [ih1 hrest, hkey]
        simp [bucketTotal, bucketCount, hcons, hrest]
      · rw [ih2 hrest, hkey]
        simp only [Option.getD_some, bucketTotal, bucketCount, hcons, List.map_cons,
          List.sum_cons, List.length_cons, Option.some.injEq, Bucket.mk.injEq]
        constructor
        · ring
        · omega
    · have hcons : inBucket groupBy k (tx :: rest) = inBucket groupBy k rest := by
        simp [inBucket, List.filter_cons, hk]
      have hsame : r1.lookup k = report.lookup k := hother k (fun e => hk e.symm)
      rw [hcons]
      refine ⟨fun h => (by rw [ih1 h, hsame]), fun h => ?_⟩
      rw [ih2 h, hsame]
      simp [bucketTotal, bucketCount, hcons]

theorem mapM_rows_spec (report : Report) (keys : List String) (rows : List ReportRow)
    (h : keys.mapM (fun key =>
      match report.lookup key with
      | none => (Except.error "Cannot read properties of undefined (reading 'total')" :
          Except String ReportRow)
      | some b => .ok { group := key, total := b.total, count := b.count }) = .ok rows) :
    rows.map ReportRow.group = keys
      ∧ ∀ row ∈ rows,
          report.lookup row.group = some { total := row.total, count := row.count } := by
  induction keys generalizing rows with
  | nil =>
    injection h with h
    subst h
    exact ⟨rfl, fun _ hr => by cases hr⟩
  | cons k ks ih =>
    rw [List.mapM_cons] at h
    cases hb : report.lookup k with
    | none =>
      rw [hb] at h
      cases h
    | some b =>
      rw [hb] at h
      cases hrest : ks.mapM (fun key =>
        match report.lookup key with
        | none => (Except.error "Cannot read properties of undefined (reading 'total')" :
            Except String ReportRow)
        | some b => .ok { group := key, total := b.total, count := b.count }) with
      | error e =>
        rw [hrest] at h
        cases h
      | ok rs =>
        rw [hrest] at h
        injection h with h
        subst h
        obtain ⟨ih1, ih2⟩ := ih rs hrest
        refine ⟨by simp [ih1], fun row hrow => ?_⟩
        rcases List.mem_cons.mp hrow with rfl | hrow
        · exact hb
        · exact ih2 row hrow

theorem sortedReport_spec (report : Report) (rows : List ReportRow)
    (h : sortedReport report = .ok rows) :
    rows.map ReportRow.group = sortKeys (report.map Prod.fst)
      ∧ ∀ row ∈ rows,
          report.lookup row.group = some { total := row.total, count := row.count } :=
  mapM_rows_spec report _ rows h

theorem spendingTrendTry_of_store_ok (rate : RateFn) (userId : String) (p : TrendParams)
    (find : Store) (q : StoreQuery) (txs : List Transaction)
    (hq : buildQuery userId p = .ok q) (hfind : find q = .ok txs) :
    ∃ report rows, txs.foldlM (trendStep rate p.groupBy) [] = .ok report
      ∧ sortedReport report = .ok rows
      ∧ getSpendingTrendReportConverted rate userId p find
          = { status := 200, body := .trend rows } := by
  obtain ⟨report, hreport⟩ := foldlM_trendStep_ok rate p.groupBy txs []
  obtain ⟨rows, hrows⟩ := sortedReport_ok report
  have : spendingTrendTry rate userId p find = .ok rows := by
    unfold spendingTrendTry
    rw [hq]
    show (find q >>= fun transactions => _) = _
    rw [hfind]
    show (List.foldlM (trendStep rate p.groupBy) [] txs >>= fun report => _) = _
    rw [hreport]
    exact hrows
  exact ⟨report, rows, hreport, hrows, by simp [getSpendingTrendReportConverted, this]⟩

/-- The trend response for the transactions `txs` returned by the store: status 200, the
groups strictly ascending, one row for each key under which a transaction falls, and in each
row the sum of the converted amounts and the number of the transactions under its key. -/
theorem trend_rows_spec (rate : RateFn) (userId : String) (p : TrendParams)
    (find : Store) (q : StoreQuery) (txs : List Transaction)
    (hq : buildQuery userId p = .ok q) (hfind : find q = .ok txs) :
    ∃ rows, getSpendingTrendReportConverted rate userId p find
          = { status := 200, body := .trend rows }
      ∧ StrictlyAscending (rows.map ReportRow.group)
      ∧ (∀ k, k ∈ rows.map ReportRow.group ↔ inBucket p.groupBy k txs ≠ [])
      ∧ ∀ row ∈ rows, row.total = bucketTotal rate p.groupBy row.group txs
          ∧ row.count = bucketCount p.groupBy row.group txs := by
  obtain ⟨report, rows, hreport, hrows, hresp⟩ :=
    spendingTrendTry_of_store_ok rate userId p find q txs hq hfind
  obtain ⟨hgroups, hlookup⟩ := sortedReport_spec report rows hrows
  have hnodup : (report.map Prod.fst).Nodup :=
    nodup_keys_of_foldlM_trendStep rate p.groupBy txs [] report (by simp) hreport
  have hmem : ∀ k, k ∈ report.map Prod.fst ↔ inBucket p.groupBy k txs ≠ [] := by
    intro k
    obtain ⟨h1, h2⟩ := lookup_of_foldlM_trendStep rate p.groupBy txs [] report k hreport
    constructor
    · intro hk hempty
      obtain ⟨b, hb⟩ := lookup_isSome_of_mem_keys report k hk
      rw [h1 hempty] at hb
      cases hb
    · intro hne
      by_contra hk
      rw [lookup_eq_none_of_not_mem_keys report k hk] at h2
      cases h2 hne
  refine ⟨rows, hresp, ?_, ?_, ?_⟩
  · rw [hgroups]
    exact strictlyAscending_sortKeys _ hnodup
  · intro k
    rw [hgroups, mem_sortKeys]
    exact hmem k
  · intro row hrow
    have hk : row.group ∈ report.map Prod.fst := by
      rw [← mem_sortKeys, ← hgroups]
      exact List.mem_map_of_mem _ hrow
    obtain ⟨-, h2⟩ :=
      lookup_of_foldlM_trendStep rate p.groupBy txs [] report row.group hreport
    have h3 := h2 ((hmem row.group).mp hk)
    rw [hlookup row hrow] at h3
    simp only [List.lookup, Option.getD_none, zero_add, Option.some.injEq,
      Bucket.mk.injEq] at h3
    exact h3

theorem sublist_pair_of_mem {α : Type} (a b : α) (hab : a ≠ b) :
    ∀ l : List α, a ∈ l → b ∈ l → List.Sublist [a, b] l ∨ List.Sublist [b, a] l
  | [], ha, _ => by cases ha
  | x :: t, ha, hb => by
    by_cases hxa : x = a
    · subst hxa
      have hbt : b ∈ t := by
        rcases List.mem_cons.mp hb with h | h
        · exact absurd h.symm hab
        · exact h
      exact Or.inl (List.Sublist.cons₂ _ (List.singleton_sublist.mpr hbt))
    · by_cases hxb : x = b
      · subst hxb
        have hat : a ∈ t := by
          rcases List.mem_cons.mp ha with h | h
          · exact absurd h.symm hxa
          · exact h
        exact Or.inr (List.Sublist.cons₂ _ (List.singleton_sublist.mpr hat))
      · have hat : a ∈ t := by
          rcases List.mem_cons.mp ha with h | h
          · exact absurd h.symm hxa
          · exact h
        have hbt : b ∈ t := by
          rcases List.mem_cons.mp hb with h | h
          · exact absurd h.symm hxb
          · exact h
        rcases sublist_pair_of_mem a b hab t hat hbt with h | h
        · exact Or.inl (List.Sublist.cons _ h)
        · exact Or.inr (List.Sublist.cons _ h)

/-- In a strictly ascending list, a key that sorts before another one stands before it. -/
theorem sublist_pair_of_strictlyAscending (keys : List String) (a b : String)
    (hasc : StrictlyAscending keys) (hlt : codeUnitsLt a.data b.data = true)
    (ha : a ∈ keys) (hb : b ∈ keys) : List.Sublist [a, b] keys := by
  have hab : a ≠ b := by
    intro e
    subst e
    rw [codeUnitsLt_irrefl] at hlt
    cases hlt
  rcases sublist_pair_of_mem a b hab keys ha hb with h | h
  · exact h
  · have hp := List.Pairwise.sublist h hasc
    rw [List.pairwise_cons] at hp
    have hba := hp.1 a (List.mem_singleton.mpr rfl)
    rw [codeUnitsLt_asymm _ _ hlt] at hba
    cases hba

theorem foldl_reduceStep (rate : RateFn) (txs : List Transaction) (sum : ℚ) :
    txs.foldl (reduceStep rate) sum = sum + (txs.map (convertedAmount rate)).sum := by
  induction txs generalizing sum with
  | nil => simp
  | cons tx rest ih =>
    rw [List.foldl_cons, ih]
    simp only [reduceStep, convertedAmount, List.map_cons, List.sum_cons]
    ring

theorem inBucket_ne_nil_iff (groupBy : Option QueryValue) (k : String)
    (txs : List Transaction) :
    inBucket groupBy k txs ≠ [] ↔ ∃ tx ∈ txs, groupKey groupBy tx.date = k := by
  unfold inBucket
  rw [ne_eq, List.filter_eq_nil_iff]
  simp

theorem nodup_of_strictlyAscending (keys : List String) (h : StrictlyAscending keys) :
    keys.Nodup := by
  unfold StrictlyAscending at h
  refine h.imp ?_
  intro a b hab e
  subst e
  rw [codeUnitsLt_irrefl] at hab
  cases hab

/-! ## Claims C11 to C20 -/

/-- C11: for every list of transactions returned by the store, the array sent by
`getSpendingTrendReportConverted` is strictly ascending in the code-unit order of its `group`
fields, so no group key occurs twice; and when "2025-10" and "2025-2" both occur, "2025-10"
stands before "2025-2". -/
theorem trend_groups_strictly_ascending (rate : RateFn) (userId : String) (p : TrendParams)
    (find : Store) (q : StoreQuery) (txs : List Transaction)
    (hq : buildQuery userId p = .ok q) (hfind : find q = .ok txs) :
    ∃ rows, getSpendingTrendReportConverted rate userId p find
          = { status := 200, body := .trend rows }
      ∧ StrictlyAscending (rows.map ReportRow.group)
      ∧ (rows.map ReportRow.group).Nodup
      ∧ codeUnitsLt "2025-10".data "2025-2".data = true
      ∧ ("2025-10" ∈ rows.map ReportRow.group → "2025-2" ∈ rows.map ReportRow.group →
          List.Sublist ["2025-10", "2025-2"] (rows.map ReportRow.group)) := by
  obtain ⟨rows, hresp, hasc, -, -⟩ := trend_rows_spec rate userId p find q txs hq hfind
  exact ⟨rows, hresp, hasc, nodup_of_strictlyAscending _ hasc, by decide,
    fun h1 h2 => sublist_pair_of_strictlyAscending _ _ _ hasc (by decide) h1 h2⟩

theorem trend_groups_strictly_ascending_witness :
    ∃ rows, getSpendingTrendReportConverted trendTestRate "64fabc0123456789abcdef01" noParams
          (fun _ => .ok [testTransaction 100 "USD" 2025 2 1, testTransaction 200 "USD" 2025 10 15])
          = { status := 200, body := .trend rows }
      ∧ StrictlyAscending (rows.map ReportRow.group) :=
  let ⟨rows, h1, h2, _⟩ :=
    trend_groups_strictly_ascending trendTestRate "64fabc0123456789abcdef01" noParams
      (fun _ => .ok [testTransaction 100 "USD" 2025 2 1, testTransaction 200 "USD" 2025 10 15])
      { user := "64fabc0123456789abcdef01", date := none, type := none, category := none,
        tagsIn := none }
      [testTransaction 100 "USD" 2025 2 1, testTransaction 200 "USD" 2025 10 15] rfl rfl
  ⟨rows, h1, h2⟩

/-- C13: for every list of transactions returned by the store and every row of the response,
the row's `count` is the number of transactions whose group key is the row's `group`, and its
`total` is the sum of amount times conversion factor over exactly those transactions; a key
occurs in the response if and only if some transaction has it.  In the unit test (100 USD and
200 EUR at 1.1 in January 2025, 50 USD in February) the response is
`[{2025-1, 320, 2}, {2025-2, 50, 1}]`. -/
theorem trend_rows_totals_and_counts (rate : RateFn) (userId : String) (p : TrendParams)
    (find : Store) (q : StoreQuery) (txs : List Transaction)
    (hq : buildQuery userId p = .ok q) (hfind : find q = .ok txs) :
    (∃ rows, getSpendingTrendReportConverted rate userId p find
          = { status := 200, body := .trend rows }
        ∧ (∀ row ∈ rows, row.count = bucketCount p.groupBy row.group txs
            ∧ row.total = bucketTotal rate p.groupBy row.group txs)
        ∧ (∀ k, k ∈ rows.map ReportRow.group ↔ ∃ tx ∈ txs, groupKey p.groupBy tx.date = k))
      ∧ getSpendingTrendReportConverted trendTestRate "64fabc0123456789abcdef01" noParams
          (fun _ => .ok [testTransaction 100 "USD" 2025 1 10, testTransaction 200 "EUR" 2025 1 15,
            testTransaction 50 "USD" 2025 2 1])
          = { status := 200,
              body := .trend [{ group := "2025-1", total := 320, count := 2 },
                              { group := "2025-2", total := 50, count := 1 }] } := by
  constructor
  · obtain ⟨rows, hresp, -, hkeys, hrows⟩ := trend_rows_spec rate userId p find q txs hq hfind
    refine ⟨rows, hresp, fun row hrow => ⟨(hrows row hrow).2, (hrows row hrow).1⟩, fun k => ?_⟩
    rw [hkeys k, inBucket_ne_nil_iff]
  · have h : getSpendingTrendReportConverted trendTestRate "64fabc0123456789abcdef01" noParams
          (fun _ => .ok [testTransaction 100 "USD" 2025 1 10, testTransaction 200 "EUR" 2025 1 15,
            testTransaction 50 "USD" 2025 2 1])
        = { status := 200,
            body := .trend [{ group := "2025-1", total := 0 + 100 * 1 + 200 * (11 / 10),
                              count := 2 },
                            { group := "2025-2", total := 0 + 50 * 1, count := 1 }] } := rfl
    rw [h]
    norm_num

theorem trend_rows_totals_and_counts_witness :
    ∃ rows, getSpendingTrendReportConverted trendTestRate "64fabc0123456789abcdef01" noParams
          (fun _ => .ok [testTransaction 10 "USD" 2025 1 10, testTransaction 20 "EUR" 2025 1 10])
          = { status := 200, body := .trend rows }
        ∧ (∀ row ∈ rows,
            row.count = bucketCount none row.group
                [testTransaction 10 "USD" 2025 1 10, testTransaction 20 "EUR" 2025 1 10]
            ∧ row.total = bucketTotal trendTestRate none row.group
                [testTransaction 10 "USD" 2025 1 10, testTransaction 20 "EUR" 2025 1 10]) :=
  let ⟨rows, h1, h2, _⟩ :=
    (trend_rows_totals_and_counts trendTestRate "64fabc0123456789abcdef01" noParams
      (fun _ => .ok [testTransaction 10 "USD" 2025 1 10, testTransaction 20 "EUR" 2025 1 10])
      { user := "64fabc0123456789abcdef01", date := none, type := none, category := none,
        tagsIn := none }
      [testTransaction 10 "USD" 2025 1 10, testTransaction 20 "EUR" 2025 1 10] rfl rfl).1
  ⟨rows, h1, h2⟩

/-- C14: for every list of incomes and every list of expenses returned by the store,
`getDashboardSummaryConverted` answers 200 with `totalIncome` the sum of amount times
conversion factor over the incomes, `totalExpense` the same sum over the expenses, and
`netBalance` equal to `totalIncome - totalExpense`.  In the unit test (incomes 100 USD and
200 EUR at 1.1, expense 50 GBP at 1.2) the body is `{320, 60, 260}`. -/
theorem dashboard_summary_totals (rate : RateFn) (userId : String) (find : Store)
    (incomes expenses : List Transaction)
    (hi : find (incomeQuery userId) = .ok incomes)
    (he : find (expenseQuery userId) = .ok expenses) :
    getDashboardSummaryConverted rate userId find
        = { status := 200,
            body := .summary ((incomes.map (convertedAmount rate)).sum)
              ((expenses.map (convertedAmount rate)).sum)
              ((incomes.map (convertedAmount rate)).sum
                - (expenses.map (convertedAmount rate)).sum) }
      ∧ getDashboardSummaryConverted dashboardTestRate "64fabc0123456789abcdef01"
          (fun q => if q.type = some (.str "income")
            then .ok [testTransaction 100 "USD" 2025 1 1, testTransaction 200 "EUR" 2025 1 1]
            else .ok [testTransaction 50 "GBP" 2025 1 1])
        = { status := 200, body := .summary 320 60 260 } := by
  constructor
  · rw [dashboard_of_store_ok rate userId find incomes expenses hi he]
    simp only [foldl_reduceStep, zero_add]
  · have h : getDashboardSummaryConverted dashboardTestRate "64fabc0123456789abcdef01"
          (fun q => if q.type = some (.str "income")
            then .ok [testTransaction 100 "USD" 2025 1 1, testTransaction 200 "EUR" 2025 1 1]
            else .ok [testTransaction 50 "GBP" 2025 1 1])
        = { status := 200,
            body := .summary (0 + 100 * 1 + 200 * (11 / 10)) (0 + 50 * (12 / 10))
              (0 + 100 * 1 + 200 * (11 / 10) - (0 + 50 * (12 / 10))) } := rfl
    rw [h]
    norm_num

theorem dashboard_summary_totals_witness :
    getDashboardSummaryConverted dashboardTestRate "u1"
        (fun q => if q.type = some (.str "income")
          then .ok [testTransaction 100 "USD" 2025 1 1]
          else .ok [testTransaction 50 "GBP" 2025 1 1])
      = { status := 200,
          body := .summary
            (([testTransaction 100 "USD" 2025 1 1].map (convertedAmount dashboardTestRate)).sum)
            (([testTransaction 50 "GBP" 2025 1 1].map (convertedAmount dashboardTestRate)).sum)
            (([testTransaction 100 "USD" 2025 1 1].map (convertedAmount dashboardTestRate)).sum
              - ([testTransaction 50 "GBP" 2025 1 1].map
                  (convertedAmount dashboardTestRate)).sum) } :=
  (dashboard_summary_totals dashboardTestRate "u1"
    (fun q => if q.type = some (.str "income")
      then .ok [testTransaction 100 "USD" 2025 1 1]
      else .ok [testTransaction 50 "GBP" 2025 1 1])
    [testTransaction 100 "USD" 2025 1 1] [testTransaction 50 "GBP" 2025 1 1] rfl rfl).1

/-- C15: when the store answers the query of the trend handler with no transaction, the
handler answers 200 with the empty array, and when it answers both queries of the dashboard
handler with no transaction, that handler answers 200 with
`{totalIncome: 0, totalExpense: 0, netBalance: 0}`; this holds for every function in place of
`getExchangeRate`, hence for every rate table, and for every request whose query was built. -/
theorem empty_store_reports (rate : RateFn) (userId : String) (p : TrendParams)
    (find : Store) (q : StoreQuery)
    (hq : buildQuery userId p = .ok q) (hfind : find q = .ok [])
    (hi : find (incomeQuery userId) = .ok []) (he : find (expenseQuery userId) = .ok []) :
    getSpendingTrendReportConverted rate userId p find = { status := 200, body := .trend [] }
      ∧ getDashboardSummaryConverted rate userId find
          = { status := 200, body := .summary 0 0 0 }
      ∧ (∀ cachedRates : RateTable,
          getSpendingTrendReportConverted (getExchangeRate cachedRates) userId p find
              = { status := 200, body := .trend [] }
            ∧ getDashboardSummaryConverted (getExchangeRate cachedRates) userId find
              = { status := 200, body := .summary 0 0 0 }) := by
  have htrend : ∀ r : RateFn,
      getSpendingTrendReportConverted r userId p find = { status := 200, body := .trend [] } := by
    intro r
    obtain ⟨rows, hresp, -, hkeys, -⟩ := trend_rows_spec r userId p find q [] hq hfind
    have : rows = [] := by
      cases rows with
      | nil => rfl
      | cons row rest =>
        have := (hkeys row.group).mp (by simp)
        simp [inBucket] at this
    rw [hresp, this]
  have hdash : ∀ r : RateFn,
      getDashboardSummaryConverted r userId find = { status := 200, body := .summary 0 0 0 } := by
    intro r
    rw [dashboard_of_store_ok r userId find [] [] hi he]
    simp
  exact ⟨htrend rate, hdash rate, fun cachedRates => ⟨htrend _, hdash _⟩⟩

theorem empty_store_reports_witness :
    getSpendingTrendReportConverted (getExchangeRate []) "64fabc0123456789abcdef01"
        { startDate := some (.str "2025-01-01"), endDate := some (.str "2025-12-31"),
          groupBy := none, type := some (.str "income"), category := some (.str "salary"),
          tags := some (.str "bonus,stock") }
        (fun _ => .ok [])
      = { status := 200, body := .trend [] } :=
  (empty_store_reports (getExchangeRate []) "64fabc0123456789abcdef01"
    { startDate := some (.str "2025-01-01"), endDate := some (.str "2025-12-31"),
      groupBy := none, type := some (.str "income"), category := some (.str "salary"),
      tags := some (.str "bonus,stock") }
    (fun _ => .ok [])
    { user := "64fabc0123456789abcdef01",
      date := some { gte := some (.str "2025-01-01"), lte := some (.str "2025-12-31") },
      type := some (.str "income"), category := some (.str "salary"),
      tagsIn := some ["bonus", "stock"] }
    rfl rfl rfl rfl).1

/-! ## The store query -/

theorem buildQuery_spec (userId : String) (p : TrendParams) (q : StoreQuery)
    (hq : buildQuery userId p = .ok q) :
    q.user = userId
      ∧ q.date.bind DateRange.gte = given p.startDate
      ∧ q.date.bind DateRange.lte = given p.endDate
      ∧ (q.date = none ↔ given p.startDate = none ∧ given p.endDate = none)
      ∧ q.type = given p.type
      ∧ q.category = given p.category
      ∧ (∀ s, given p.tags = some (.str s) →
          q.tagsIn = some ((splitOnComma s.data).map fun piece => String.mk (trimChars piece)))
      ∧ (given p.tags = none → q.tagsIn = none) := by
  obtain ⟨sd, ed, gb, ty, cat, tg⟩ := p
  have hkeep : ∀ v : Option QueryValue,
      (match v with
        | some w => if w.truthy = true then some w else none
        | none => none) = given v := by
    intro v
    cases v with
    | none => rfl
    | some w => cases hw : w.truthy <;> simp [given, Option.filter, hw]
  unfold buildQuery at hq
  simp only [hkeep] at hq
  cases htg : given tg with
  | none =>
    simp only [htg] at hq
    injection hq with hq
    subst hq
    refine ⟨rfl, ?_, ?_, ?_, rfl, rfl, fun s hs => (by cases hs), fun _ => rfl⟩
    all_goals
      rcases sd with _ | sd <;> rcases ed with _ | ed <;>
        simp [given, Option.filter] <;> (try split) <;> (try split) <;> simp_all
  | some t =>
    simp only [htg] at hq
    cases t with
    | list items =>
      simp [splitTags, Except.map] at hq
    | str s =>
      simp only [splitTags, Except.map] at hq
      injection hq with hq
      subst hq
      refine ⟨rfl, ?_, ?_, ?_, rfl, rfl, fun s' hs => ?_, fun h => (by cases h)⟩
      pick_goal 4
      · injection hs with hs
        injection hs with hs
        subst hs
        rfl
      all_goals
        rcases sd with _ | sd <;> rcases ed with _ | ed <;>
          simp [given, Option.filter] <;> (try split) <;> (try split) <;> simp_all

theorem trend_congr_find (rate : RateFn) (userId : String) (p : TrendParams)
    (find1 find2 : Store) (q : StoreQuery) (hq : buildQuery userId p = .ok q)
    (hfind : find1 q = find2 q) :
    getSpendingTrendReportConverted rate userId p find1
      = getSpendingTrendReportConverted rate userId p find2 := by
  have : spendingTrendTry rate userId p find1 = spendingTrendTry rate userId p find2 := by
    unfold spendingTrendTry
    rw [hq]
    show (find1 q >>= fun transactions => _) = (find2 q >>= fun transactions => _)
    rw [hfind]
  unfold getSpendingTrendReportConverted
  rw [this]

theorem matchesQuery_eq_false_of_failsFilter (onOrAfter onOrBefore : JsDate → QueryValue → Bool)
    (userId : String) (p : TrendParams) (q : StoreQuery) (tx : Transaction)
    (hq : buildQuery userId p = .ok q) (hfail : failsFilter onOrAfter onOrBefore p tx) :
    matchesQuery onOrAfter onOrBefore q tx = false := by
  obtain ⟨-, hgte, hlte, -, htype, hcat, htags, -⟩ := buildQuery_spec userId p q hq
  rcases hfail with ⟨v, hv, hcmp⟩ | ⟨v, hv, hcmp⟩ | ⟨t, ht, hne⟩ | ⟨c, hc, hne⟩ | ⟨s, hs, hnone⟩
  · rw [hv] at hgte
    cases hd : q.date with
    | none => rw [hd] at hgte; cases hgte
    | some range =>
      rw [hd] at hgte
      have hg : range.gte = some v := hgte
      simp [matchesQuery, hd, hg, hcmp]
  · rw [hv] at hlte
    cases hd : q.date with
    | none => rw [hd] at hlte; cases hlte
    | some range =>
      rw [hd] at hlte
      have hl : range.lte = some v := hlte
      simp [matchesQuery, hd, hl, hcmp]
  · rw [ht] at htype
    simp [matchesQuery, htype, hne]
  · rw [hc] at hcat
    simp [matchesQuery, hcat, hne]
  · have h := htags s hs
    simp only [matchesQuery, h, Bool.and_eq_false_imp]
    intros
    rw [List.any_eq_false]
    intro tag htag
    simpa using hnone tag htag

/-- C16: the filter object built for the store carries `user` = the authenticated user's id;
`date.$gte = new Date(startDate)` exactly when `startDate` is given and
`date.$lte = new Date(endDate)` exactly when `endDate` is given (so both together when both
are given, and no `date` key when neither is); `type` and `category` exactly when given; and
`tags.$in` = the pieces of `tags` between commas, each trimmed, exactly when `tags` is given.
The request of the unit test builds the query the test expects.  Hence, with a store that
answers with the documents matching the query, a record that fails one of the given filters
can be removed from the collection without changing the response. -/
theorem store_query_carries_filters (userId : String) (p : TrendParams) (q : StoreQuery)
    (hq : buildQuery userId p = .ok q) :
    (q.user = userId
      ∧ q.date.bind DateRange.gte = given p.startDate
      ∧ q.date.bind DateRange.lte = given p.endDate
      ∧ (q.date = none ↔ given p.startDate = none ∧ given p.endDate = none)
      ∧ q.type = given p.type
      ∧ q.category = given p.category
      ∧ (∀ s, given p.tags = some (.str s) →
          q.tagsIn = some ((splitOnComma s.data).map fun piece => String.mk (trimChars piece)))
      ∧ (given p.tags = none → q.tagsIn = none))
    ∧ buildQuery "64fabc0123456789abcdef01"
        { startDate := some (.str "2025-01-01"), endDate := some (.str "2025-12-31"),
          groupBy := none, type := some (.str "income"), category := some (.str "salary"),
          tags := some (.str "bonus,stock") }
      = .ok { user := "64fabc0123456789abcdef01",
              date := some { gte := some (.str "2025-01-01"), lte := some (.str "2025-12-31") },
              type := some (.str "income"), category := some (.str "salary"),
              tagsIn := some ["bonus", "stock"] }
    ∧ ∀ (onOrAfter onOrBefore : JsDate → QueryValue → Bool) (rate : RateFn)
        (before after : List Transaction) (tx : Transaction),
        failsFilter onOrAfter onOrBefore p tx →
        getSpendingTrendReportConverted rate userId p
            (collectionStore onOrAfter onOrBefore (before ++ tx :: after))
          = getSpendingTrendReportConverted rate userId p
            (collectionStore onOrAfter onOrBefore (before ++ after)) := by
  refine ⟨buildQuery_spec userId p q hq, rfl, ?_⟩
  intro onOrAfter onOrBefore rate before after tx hfail
  apply trend_congr_find rate userId p _ _ q hq
  have hm := matchesQuery_eq_false_of_failsFilter onOrAfter onOrBefore userId p q tx hq hfail
  simp [collectionStore, List.filter_append, List.filter_cons, hm]

theorem store_query_carries_filters_witness :
    getSpendingTrendReportConverted trendTestRate "u1"
        { startDate := some (.str "2025-01-01"), endDate := none, groupBy := none,
          type := some (.str "income"), category := none, tags := some (.str " bonus , stock") }
        (collectionStore (fun _ _ => true) (fun _ _ => true)
          ([] ++ testTransaction 100 "USD" 2025 1 10 :: []))
      = getSpendingTrendReportConverted trendTestRate "u1"
        { startDate := some (.str "2025-01-01"), endDate := none, groupBy := none,
          type := some (.str "income"), category := none, tags := some (.str " bonus , stock") }
        (collectionStore (fun _ _ => true) (fun _ _ => true) ([] ++ [])) :=
  (store_query_carries_filters "u1"
    { startDate := some (.str "2025-01-01"), endDate := none, groupBy := none,
      type := some (.str "income"), category := none, tags := some (.str " bonus , stock") }
    { user := "u1", date := some { gte := some (.str "2025-01-01"), lte := none },
      type := some (.str "income"), category := none, tagsIn := some ["bonus", "stock"] }
    rfl).2.2 (fun _ _ => true) (fun _ _ => true) trendTestRate [] []
    (testTransaction 100 "USD" 2025 1 10)
    (Or.inr (Or.inr (Or.inl ⟨"income", rfl, by decide⟩)))

/-! ## The savings allocator -/

theorem allocateStep_fields (incomeAmount : ℚ) (goal : Goal) :
    (allocateStep incomeAmount goal).currentAmount
        = goal.currentAmount + incomeAmount * (goal.autoAllocatePercentage / 100)
      ∧ (allocateStep incomeAmount goal).id = goal.id
      ∧ (allocateStep incomeAmount goal).user = goal.user
      ∧ (allocateStep incomeAmount goal).description = goal.description
      ∧ (allocateStep incomeAmount goal).targetAmount = goal.targetAmount
      ∧ (allocateStep incomeAmount goal).deadline = goal.deadline
      ∧ (allocateStep incomeAmount goal).autoAllocate = goal.autoAllocate
      ∧ (allocateStep incomeAmount goal).autoAllocatePercentage = goal.autoAllocatePercentage := by
  unfold allocateStep
  simp only
  split <;> simp

theorem allocateStep_achieved (incomeAmount : ℚ) (goal : Goal) :
    (allocateStep incomeAmount goal).achieved
      = if goal.currentAmount + incomeAmount * (goal.autoAllocatePercentage / 100)
            ≥ goal.targetAmount
        then true else goal.achieved := by
  unfold allocateStep
  simp only
  split <;> rfl

theorem allocateLoop_all_saved (incomeAmount : ℚ) (save : Goal → Except String Unit)
    (goals : List Goal) (hsave : ∀ g ∈ goals, save (allocateStep incomeAmount g) = .ok ()) :
    allocateLoop incomeAmount save goals
      = { goals := goals.map (allocateStep incomeAmount),
          saveCalls := goals.map (allocateStep incomeAmount),
          persisted := goals.map (allocateStep incomeAmount),
          thrown := none } := by
  induction goals with
  | nil => rfl
  | cons g rest ih =>
    have h1 := hsave g (List.mem_cons_self _ _)
    have h2 := ih fun g' hg' => hsave g' (List.mem_cons_of_mem _ hg')
    simp [allocateLoop, h1, h2]

theorem allocateLoop_save_fails (incomeAmount : ℚ) (save : Goal → Except String Unit)
    (before after : List Goal) (goal : Goal) (e : String)
    (hbefore : ∀ g ∈ before, save (allocateStep incomeAmount g) = .ok ())
    (hfail : save (allocateStep incomeAmount goal) = .error e) :
    allocateLoop incomeAmount save (before ++ goal :: after)
      = { goals := before.map (allocateStep incomeAmount)
            ++ allocateStep incomeAmount goal :: after,
          saveCalls := before.map (allocateStep incomeAmount) ++ [allocateStep incomeAmount goal],
          persisted := before.map (allocateStep incomeAmount),
          thrown := some e } := by
  induction before with
  | nil => simp [allocateLoop, hfail]
  | cons g rest ih =>
    have h1 := hbefore g (List.mem_cons_self _ _)
    have h2 := ih fun g' hg' => hbefore g' (List.mem_cons_of_mem _ hg')
    simp [allocateLoop, h1, h2]

/-- C17: when every `save()` succeeds, `allocateSavingsForUser` leaves each goal returned by
the store with `currentAmount` = its previous `currentAmount` plus
`incomeAmount * (autoAllocatePercentage / 100)`, calls `save()` once on each goal, in order,
and changes no field other than `currentAmount` and `achieved`.  With income 200: percentage
10 and current amount 0 give 20, percentage 50 and current amount 50 give 150. -/
theorem allocate_updates_each_goal (userId : String) (incomeAmount : ℚ)
    (find : GoalQuery → Except String (List Goal)) (save : Goal → Except String Unit)
    (goals : List Goal)
    (hfind : find { user := userId, autoAllocate := true } = .ok goals)
    (hsave : ∀ g ∈ goals, save (allocateStep incomeAmount g) = .ok ()) :
    allocateSavingsForUser userId incomeAmount find save
        = { goals := goals.map (allocateStep incomeAmount),
            saveCalls := goals.map (allocateStep incomeAmount),
            persisted := goals.map (allocateStep incomeAmount),
            thrown := none }
      ∧ (∀ g : Goal,
          (allocateStep incomeAmount g).currentAmount
              = g.currentAmount + incomeAmount * (g.autoAllocatePercentage / 100)
            ∧ (allocateStep incomeAmount g).id = g.id
            ∧ (allocateStep incomeAmount g).user = g.user
            ∧ (allocateStep incomeAmount g).description = g.description
            ∧ (allocateStep incomeAmount g).targetAmount = g.targetAmount
            ∧ (allocateStep incomeAmount g).deadline = g.deadline
            ∧ (allocateStep incomeAmount g).autoAllocate = g.autoAllocate
            ∧ (allocateStep incomeAmount g).autoAllocatePercentage = g.autoAllocatePercentage)
      ∧ (allocateSavingsForUser "64fabc0123456789abcdef01" 200
            (fun _ => .ok [testGoal "g1" 10 0 100 false, testGoal "g2" 50 50 100 false])
            (fun _ => .ok ())).goals.map Goal.currentAmount = [20, 150] := by
  refine ⟨?_, allocateStep_fields incomeAmount, ?_⟩
  · unfold allocateSavingsForUser
    rw [hfind]
    exact allocateLoop_all_saved incomeAmount save goals hsave
  · have h : (allocateSavingsForUser "64fabc0123456789abcdef01" 200
          (fun _ => .ok [testGoal "g1" 10 0 100 false, testGoal "g2" 50 50 100 false])
          (fun _ => .ok ())).goals.map Goal.currentAmount
        = [0 + 200 * (10 / 100), 50 + 200 * (50 / 100)] := by
      simp [allocateSavingsForUser, allocateLoop, allocateStep_fields, testGoal]
    rw [h]
    norm_num

theorem allocate_updates_each_goal_witness :
    allocateSavingsForUser "64fabc0123456789abcdef01" 200
        (fun _ => .ok [testGoal "g1" 10 0 100 false, testGoal "g2" 50 50 100 false])
        (fun _ => .ok ())
      = { goals := [testGoal "g1" 10 0 100 false, testGoal "g2" 50 50 100 false].map
            (allocateStep 200),
          saveCalls := [testGoal "g1" 10 0 100 false, testGoal "g2" 50 50 100 false].map
            (allocateStep 200),
          persisted := [testGoal "g1" 10 0 100 false, testGoal "g2" 50 50 100 false].map
            (allocateStep 200),
          thrown := none } :=
  (allocate_updates_each_goal "64fabc0123456789abcdef01" 200
    (fun _ => .ok [testGoal "g1" 10 0 100 false, testGoal "g2" 50 50 100 false])
    (fun _ => .ok ()) [testGoal "g1" 10 0 100 false, testGoal "g2" 50 50 100 false]
    rfl (fun _ _ => rfl)).1

/-- C18: a goal processed by `allocateSavingsForUser` is achieved afterwards if its updated
`currentAmount` is at least its `targetAmount`, and otherwise keeps the flag it had; so a goal
achieved before the call is achieved after it for every `incomeAmount`.  A goal at 50 of 100
with percentage 100 and income 100 becomes achieved at 150; an achieved goal at 100 of 100
with percentage 50 and income -100 drops to 50 and stays achieved. -/
theorem allocate_achieved_flag (incomeAmount : ℚ) (goal : Goal) :
    (allocateStep incomeAmount goal).achieved
        = (if (allocateStep incomeAmount goal).currentAmount ≥ goal.targetAmount then true
            else goal.achieved)
      ∧ (goal.achieved = true → (allocateStep incomeAmount goal).achieved = true)
      ∧ (∀ (userId : String) (find : GoalQuery → Except String (List Goal))
          (save : Goal → Except String Unit) (goals : List Goal),
          find { user := userId, autoAllocate := true } = .ok goals →
          (∀ g ∈ goals, save (allocateStep incomeAmount g) = .ok ()) →
          (allocateSavingsForUser userId incomeAmount find save).goals
            = goals.map (allocateStep incomeAmount))
      ∧ ((allocateStep 100 (testGoal "g1" 100 50 100 false)).currentAmount = 150
          ∧ (allocateStep 100 (testGoal "g1" 100 50 100 false)).achieved = true)
      ∧ ((allocateStep (-100) (testGoal "g1" 50 100 100 true)).currentAmount = 50
          ∧ (allocateStep (-100) (testGoal "g1" 50 100 100 true)).achieved = true) := by
  have hach := allocateStep_achieved incomeAmount goal
  have hcur := (allocateStep_fields incomeAmount goal).1
  refine ⟨by rw [hach, hcur], ?_, ?_, ?_, ?_⟩
  · intro h
    rw [hach, h]
    split <;> rfl
  · intro userId find save goals hfind hsave
    unfold allocateSavingsForUser
    rw [hfind]
    show (allocateLoop incomeAmount save goals).goals = _
    rw [allocateLoop_all_saved incomeAmount save goals hsave]
  · rw [allocateStep_achieved, (allocateStep_fields _ _).1]
    norm_num [testGoal]
  · rw [allocateStep_achieved, (allocateStep_fields _ _).1]
    norm_num [testGoal]

theorem allocate_achieved_flag_witness :
    (allocateStep (-100) (testGoal "g1" 50 100 100 true)).achieved = true :=
  (allocate_achieved_flag (-100) (testGoal "g1" 50 100 100 true)).2.1 rfl

/-- C19: when the goal query fails, `allocateSavingsForUser` rejects with that error and
saves nothing.  When the `save()` of a goal fails, it rejects with that error; the goals
before it are updated and saved, the goal itself is updated in memory and not saved, and the
goals after it are neither updated nor saved. -/
theorem allocate_partial_application (userId : String) (incomeAmount : ℚ)
    (find : GoalQuery → Except String (List Goal)) (save : Goal → Except String Unit)
    (before after : List Goal) (goal : Goal) (e : String)
    (hfind : find { user := userId, autoAllocate := true } = .ok (before ++ goal :: after))
    (hbefore : ∀ g ∈ before, save (allocateStep incomeAmount g) = .ok ())
    (hfail : save (allocateStep incomeAmount goal) = .error e) :
    allocateSavingsForUser userId incomeAmount find save
        = { goals := before.map (allocateStep incomeAmount)
              ++ allocateStep incomeAmount goal :: after,
            saveCalls := before.map (allocateStep incomeAmount)
              ++ [allocateStep incomeAmount goal],
            persisted := before.map (allocateStep incomeAmount),
            thrown := some e }
      ∧ ∀ (find' : GoalQuery → Except String (List Goal)) (e' : String),
          find' { user := userId, autoAllocate := true } = .error e' →
          allocateSavingsForUser userId incomeAmount find' save
            = { goals := [], saveCalls := [], persisted := [], thrown := some e' } := by
  constructor
  · unfold allocateSavingsForUser
    rw [hfind]
    exact allocateLoop_save_fails incomeAmount save before after goal e hbefore hfail
  · intro find' e' hfind'
    unfold allocateSavingsForUser
    rw [hfind']

theorem allocate_partial_application_witness :
    allocateSavingsForUser "64fabc0123456789abcdef01" 200
        (fun _ => .ok ([testGoal "g1" 10 0 100 false] ++ testGoal "g2" 50 50 100 false
          :: [testGoal "g3" 20 0 100 false]))
        (fun g => if g.id = "g2" then .error "DB Error" else .ok ())
      = { goals := [testGoal "g1" 10 0 100 false].map (allocateStep 200)
            ++ allocateStep 200 (testGoal "g2" 50 50 100 false)
              :: [testGoal "g3" 20 0 100 false],
          saveCalls := [testGoal "g1" 10 0 100 false].map (allocateStep 200)
            ++ [allocateStep 200 (testGoal "g2" 50 50 100 false)],
          persisted := [testGoal "g1" 10 0 100 false].map (allocateStep 200),
          thrown := some "DB Error" } :=
  (allocate_partial_application "64fabc0123456789abcdef01" 200
    (fun _ => .ok ([testGoal "g1" 10 0 100 false] ++ testGoal "g2" 50 50 100 false
      :: [testGoal "g3" 20 0 100 false]))
    (fun g => if g.id = "g2" then .error "DB Error" else .ok ())
    [testGoal "g1" 10 0 100 false] [testGoal "g3" 20 0 100 false]
    (testGoal "g2" 50 50 100 false) "DB Error" rfl
    (fun g hg => by
      rw [List.mem_singleton.mp hg]
      simp [(allocateStep_fields _ _).2.1, testGoal])
    (by simp [(allocateStep_fields _ _).2.1, testGoal])).1

/-- C20, the failing case: `createTransaction` saves the document and answers 201, and that
is all it does: the goals are the same after the call as before it, for every request.  For
the user of the tests with a goal at percentage 10 and current amount 0, an income of 200 is
saved with status 201 and the goal still has current amount 0, where a call of
`allocateSavingsForUser` with the user's id and the amount would have left it at 20. -/
theorem createTransaction_does_not_allocate :
    (∀ (userId : String) (body : Transaction) (saveError : Transaction → Option String)
        (db : Database), (createTransaction userId body saveError db).2.goals = db.goals)
      ∧ (createTransaction "64fabc0123456789abcdef01"
            { user := "", amount := 200, currency := "USD", type := "income",
              date := { utcFullYear := 2025, utcMonth := 0, utcDate := 10 },
              category := "salary", tags := [] }
            (fun _ => none)
            { transactions := [], goals := [testGoal "g1" 10 0 100 false] }).1.status = 201
      ∧ (createTransaction "64fabc0123456789abcdef01"
            { user := "", amount := 200, currency := "USD", type := "income",
              date := { utcFullYear := 2025, utcMonth := 0, utcDate := 10 },
              category := "salary", tags := [] }
            (fun _ => none)
            { transactions := [], goals := [testGoal "g1" 10 0 100 false] }).2.goals.map
          Goal.currentAmount = [0]
      ∧ (allocateSavingsForUser "64fabc0123456789abcdef01" 200
            (fun _ => .ok [testGoal "g1" 10 0 100 false]) (fun _ => .ok ())).goals.map
          Goal.currentAmount = [20] := by
  refine ⟨?_, rfl, rfl, ?_⟩
  · intro userId body saveError db
    unfold createTransaction
    simp only
    split <;> rfl
  · have h : (allocateSavingsForUser "64fabc0123456789abcdef01" 200
          (fun _ => .ok [testGoal "g1" 10 0 100 false]) (fun _ => .ok ())).goals.map
          Goal.currentAmount = [0 + 200 * (10 / 100)] := by
      simp [allocateSavingsForUser, allocateLoop, allocateStep_fields, testGoal]
    rw [h]
    norm_num

/-! ## Group keys and chronological order -/

theorem codeUnitsLt_append_left (p s t : List Char) :
    codeUnitsLt (p ++ s) (p ++ t) = codeUnitsLt s t := by
  induction p with
  | nil => rfl
  | cons c cs ih => simp [codeUnitsLt, ih]

theorem codeUnitsLt_cons_same (c : Char) (s t : List Char) :
    codeUnitsLt (c :: s) (c :: t) = codeUnitsLt s t := by
  simp [codeUnitsLt]

theorem toNat_digitChar (d : ℕ) (h : d < 10) : (Nat.digitChar d).toNat = 48 + d := by
  interval_cases d <;> rfl

/-- Of two digit strings of the same length, most significant digit first, the one with the
smaller value sorts first, whatever follows the two. -/
theorem codeUnitsLt_of_digits_lt : ∀ (l1 l2 : List ℕ), l1.length = l2.length →
    (∀ d ∈ l1, d < 10) → (∀ d ∈ l2, d < 10) →
    Nat.ofDigits 10 l1.reverse < Nat.ofDigits 10 l2.reverse →
    ∀ s t : List Char,
      codeUnitsLt (l1.map Nat.digitChar ++ s) (l2.map Nat.digitChar ++ t) = true
  | [], [], _, _, _, h, _, _ => by simp at h
  | [], _ :: _, hlen, _, _, _, _, _ => by simp at hlen
  | _ :: _, [], hlen, _, _, _, _, _ => by simp at hlen
  | d1 :: r1, d2 :: r2, hlen, h1, h2, hlt, s, t => by
    have hlen' : r1.length = r2.length := by simpa using hlen
    have hd1 : d1 < 10 := h1 d1 (List.mem_cons_self _ _)
    have hd2 : d2 < 10 := h2 d2 (List.mem_cons_self _ _)
    have hr1 : ∀ d ∈ r1, d < 10 := fun d hd => h1 d (List.mem_cons_of_mem _ hd)
    have hr2 : ∀ d ∈ r2, d < 10 := fun d hd => h2 d (List.mem_cons_of_mem _ hd)
    have hv1 : Nat.ofDigits 10 r1.reverse < 10 ^ r1.length := by
      have := Nat.ofDigits_lt_base_pow_length (b := 10) (l := r1.reverse) (by norm_num)
        (fun x hx => hr1 x (List.mem_reverse.mp hx))
      simpa using this
    have hv2 : Nat.ofDigits 10 r2.reverse < 10 ^ r1.length := by
      have := Nat.ofDigits_lt_base_pow_length (b := 10) (l := r2.reverse) (by norm_num)
        (fun x hx => hr2 x (List.mem_reverse.mp hx))
      rw [hlen']
      simpa using this
    simp only [List.reverse_cons, Nat.ofDigits_append, List.length_reverse,
      Nat.ofDigits_singleton, ← hlen'] at hlt
    simp only [List.map_cons, List.cons_append, codeUnitsLt, toNat_digitChar d1 hd1,
      toNat_digitChar d2 hd2, Bool.or_eq_true, decide_eq_true_eq, Bool.and_eq_true, beq_iff_eq]
    rcases Nat.lt_trichotomy d1 d2 with hlt12 | heq | hgt
    · exact Or.inl (by omega)
    · subst heq
      refine Or.inr ⟨rfl, ?_⟩
      exact codeUnitsLt_of_digits_lt r1 r2 hlen' hr1 hr2 (by omega) s t
    · exfalso
      have h3 : 10 ^ r1.length * d2 + 10 ^ r1.length ≤ 10 ^ r1.length * d1 := by
        rw [← Nat.mul_succ]
        exact Nat.mul_le_mul_left _ hgt
      omega

theorem data_unpaddedDecimal (n : ℕ) :
    ∃ l : List ℕ, (unpaddedDecimal n).data = l.map Nat.digitChar
      ∧ (∀ d ∈ l, d < 10) ∧ Nat.ofDigits 10 l.reverse = n := by
  by_cases h : n = 0
  · subst h
    exact ⟨[0], rfl, by simp, by simp⟩
  · refine ⟨(Nat.digits 10 n).reverse, by simp [unpaddedDecimal, h], ?_, ?_⟩
    · intro d hd
      exact Nat.digits_lt_base (by norm_num) (List.mem_reverse.mp hd)
    · rw [List.reverse_reverse, Nat.ofDigits_digits]

/-- Of two numbers written with the same number of digits, the numeral of the smaller one
sorts first, whatever follows the two numerals. -/
theorem codeUnitsLt_unpaddedDecimal (a b : ℕ) (hlt : a < b) (hw : sameWidth a b)
    (s t : List Char) :
    codeUnitsLt ((unpaddedDecimal a).data ++ s) ((unpaddedDecimal b).data ++ t) = true := by
  obtain ⟨l1, e1, hl1, v1⟩ := data_unpaddedDecimal a
  obtain ⟨l2, e2, hl2, v2⟩ := data_unpaddedDecimal b
  have hlen : l1.length = l2.length := by
    have := hw
    unfold sameWidth at this
    simp only [String.length, e1, e2, List.length_map] at this
    exact this
  rw [e1, e2]
  exact codeUnitsLt_of_digits_lt l1 l2 hlen hl1 hl2 (by rw [v1, v2]; exact hlt) s t

theorem toString_of_nonneg (y : ℤ) (hy : 0 ≤ y) : toString y = unpaddedDecimal y.toNat := by
  obtain ⟨n, rfl⟩ := Int.eq_ofNat_of_zero_le hy
  rw [toString_int_eq_unpaddedDecimalInt]
  rfl

/-- C12, refuted as stated: February 2025 is earlier than October 2025, yet the key "2025-2"
does not sort before the key "2025-10"; it sorts after it. -/
theorem later_month_key_sorts_first :
    bucketEarlier (some (.str "monthly"))
        { utcFullYear := 2025, utcMonth := 1, utcDate := 1 }
        { utcFullYear := 2025, utcMonth := 9, utcDate := 1 }
      ∧ groupKey (some (.str "monthly")) { utcFullYear := 2025, utcMonth := 1, utcDate := 1 }
          = "2025-2"
      ∧ groupKey (some (.str "monthly")) { utcFullYear := 2025, utcMonth := 9, utcDate := 1 }
          = "2025-10"
      ∧ codeUnitsLt
          (groupKey (some (.str "monthly"))
            { utcFullYear := 2025, utcMonth := 1, utcDate := 1 }).data
          (groupKey (some (.str "monthly"))
            { utcFullYear := 2025, utcMonth := 9, utcDate := 1 }).data = false
      ∧ codeUnitsLt
          (groupKey (some (.str "monthly"))
            { utcFullYear := 2025, utcMonth := 9, utcDate := 1 }).data
          (groupKey (some (.str "monthly"))
            { utcFullYear := 2025, utcMonth := 1, utcDate := 1 }).data = true := by
  decide

/-- C12, amended: for two dates with non-negative years and every granularity, if the period
of `d1` is chronologically earlier than the period of `d2` and the first component in which
the two periods differ (year, then month, then day) is written with the same number of digits
in both, then the key of `d1` sorts before the key of `d2`. -/
theorem earlier_bucket_sorts_first_at_same_width (groupBy : Option QueryValue)
    (d1 d2 : JsDate) (hy1 : 0 ≤ d1.utcFullYear) (hy2 : 0 ≤ d2.utcFullYear)
    (hearlier : bucketEarlier groupBy d1 d2) (hwidth : sameWidthWhereTheyDiffer d1 d2) :
    codeUnitsLt (groupKey groupBy d1).data (groupKey groupBy d2).data = true := by
  obtain ⟨hwy, hwm, hwd⟩ := hwidth
  have hkey : ∀ d : JsDate, 0 ≤ d.utcFullYear →
      (groupKey groupBy d).data
        = (unpaddedDecimal d.utcFullYear.toNat).data
            ++ ('-' :: ((unpaddedDecimal (d.utcMonth + 1)).data
              ++ (if groupBy = some (.str "daily")
                  then '-' :: ((unpaddedDecimal d.utcDate).data ++ []) else []))) := by
    intro d hd
    unfold groupKey
    split
    · simp [toString_of_nonneg _ hd, toString_nat_eq_unpaddedDecimal]
    · simp [toString_of_nonneg _ hd, toString_nat_eq_unpaddedDecimal]
  rw [hkey d1 hy1, hkey d2 hy2]
  rcases hearlier with hy | ⟨hy, hm | ⟨hm, hg, hd⟩⟩
  · apply codeUnitsLt_unpaddedDecimal _ _ _ (hwy (ne_of_lt hy))
    omega
  · rw [hy, codeUnitsLt_append_left, codeUnitsLt_cons_same]
    exact codeUnitsLt_unpaddedDecimal _ _ (by omega) (hwm hy (ne_of_lt hm)) _ _
  · rw [hy, hm, codeUnitsLt_append_left, codeUnitsLt_cons_same, codeUnitsLt_append_left,
      if_pos hg, if_pos hg, codeUnitsLt_cons_same]
    exact codeUnitsLt_unpaddedDecimal _ _ hd (hwd hy hm) _ _

theorem earlier_bucket_sorts_first_at_same_width_witness :
    codeUnitsLt
        (groupKey (some (.str "daily"))
          { utcFullYear := 2025, utcMonth := 9, utcDate := 30 }).data
        (groupKey (some (.str "daily"))
          { utcFullYear := 2025, utcMonth := 10, utcDate := 2 }).data = true :=
  earlier_bucket_sorts_first_at_same_width (some (.str "daily"))
    { utcFullYear := 2025, utcMonth := 9, utcDate := 30 }
    { utcFullYear := 2025, utcMonth := 10, utcDate := 2 }
    (by decide) (by decide) (by decide)
    ⟨fun h => absurd rfl h,
     fun _ _ => by simp [sameWidth, unpaddedDecimal, String.length],
     fun _ h => absurd h (by decide)⟩

/-! ## Claims C21 to C30 -/

theorem buildQuery_error_iff (userId : String) (p : TrendParams) :
    (∃ e, buildQuery userId p = .error e) ↔ ∃ items, given p.tags = some (.list items) := by
  obtain ⟨sd, ed, gb, ty, cat, tg⟩ := p
  have hkeep : ∀ v : Option QueryValue,
      (match v with
        | some w => if w.truthy = true then some w else none
        | none => none) = given v := by
    intro v
    cases v with
    | none => rfl
    | some w => cases hw : w.truthy <;> simp [given, Option.filter, hw]
  unfold buildQuery
  simp only [hkeep]
  cases htg : given tg with
  | none =>
    constructor
    · rintro ⟨e, h⟩
      cases h
    · rintro ⟨items, h⟩
      cases h
  | some t =>
    cases t with
    | str s =>
      constructor
      · rintro ⟨e, h⟩
        cases h
      · rintro ⟨items, h⟩
        cases h
    | list items =>
      constructor
      · intro _
        exact ⟨items, rfl⟩
      · intro _
        exact ⟨"tags.split is not a function", rfl⟩

theorem trend_response_cases (rate : RateFn) (userId : String) (p : TrendParams)
    (find : Store) :
    (∃ e, (buildQuery userId p = .error e
            ∨ ∃ q, buildQuery userId p = .ok q ∧ find q = .error e)
        ∧ getSpendingTrendReportConverted rate userId p find
            = { status := 500, body := .serverError "Server Error" e })
      ∨ (∃ q txs rows, buildQuery userId p = .ok q ∧ find q = .ok txs
          ∧ getSpendingTrendReportConverted rate userId p find
              = { status := 200, body := .trend rows }) := by
  cases hq : buildQuery userId p with
  | error e =>
    left
    refine ⟨e, Or.inl rfl, ?_⟩
    simp [getSpendingTrendReportConverted, spendingTrendTry, hq]
    rfl
  | ok q =>
    cases hfind : find q with
    | error e =>
      left
      refine ⟨e, Or.inr ⟨q, rfl, hfind⟩, ?_⟩
      have : spendingTrendTry rate userId p find = .error e := by
        unfold spendingTrendTry
        rw [hq]
        show (find q >>= fun transactions => _) = _
        rw [hfind]
        rfl
      simp [getSpendingTrendReportConverted, this]
    | ok txs =>
      right
      obtain ⟨_, rows, -, -, hresp⟩ :=
        spendingTrendTry_of_store_ok rate userId p find q txs hq hfind
      exact ⟨q, txs, rows, rfl, hfind, hresp⟩

theorem dashboard_response_cases (rate : RateFn) (userId : String) (find : Store) :
    (∃ e, (find (incomeQuery userId) = .error e
            ∨ ((∃ incomes, find (incomeQuery userId) = .ok incomes)
                ∧ find (expenseQuery userId) = .error e))
        ∧ getDashboardSummaryConverted rate userId find
            = { status := 500, body := .serverError "Server Error" e })
      ∨ (∃ incomes expenses totalIncome totalExpense,
          find (incomeQuery userId) = .ok incomes ∧ find (expenseQuery userId) = .ok expenses
          ∧ getDashboardSummaryConverted rate userId find
              = { status := 200,
                  body := .summary totalIncome totalExpense (totalIncome - totalExpense) }) := by
  cases hi : find (incomeQuery userId) with
  | error e =>
    left
    refine ⟨e, Or.inl rfl, ?_⟩
    have : dashboardSummaryTry rate userId find = .error e := by
      unfold dashboardSummaryTry
      rw [hi]
      rfl
    simp [getDashboardSummaryConverted, this]
  | ok incomes =>
    cases he : find (expenseQuery userId) with
    | error e =>
      left
      refine ⟨e, Or.inr ⟨⟨incomes, rfl⟩, rfl⟩, ?_⟩
      have : dashboardSummaryTry rate userId find = .error e := by
        unfold dashboardSummaryTry
        rw [hi]
        show (find (expenseQuery userId) >>= fun expenses => _) = _
        rw [he]
        rfl
      simp [getDashboardSummaryConverted, this]
    | ok expenses =>
      right
      exact ⟨incomes, expenses, _, _, rfl, rfl,
        dashboard_of_store_ok rate userId find incomes expenses hi he⟩

/-- C21, refuted as stated: with a repeated `tags` parameter (an array) the trend handler
answers 500 with `{msg: "Server Error", error: "tags.split is not a function"}` although the
store answers every query; the store is not even asked. -/
theorem trend_500_without_store_failure :
    getSpendingTrendReportConverted trendTestRate "64fabc0123456789abcdef01"
        { startDate := none, endDate := none, groupBy := none, type := none, category := none,
          tags := some (.list ["bonus", "stock"]) }
        (fun _ => .ok [testTransaction 100 "USD" 2025 1 10])
      = { status := 500, body := .serverError "Server Error" "tags.split is not a function" } :=
  rfl

/-- C21, amended: each report handler answers either 200 or 500 with
`{msg: "Server Error", error}`, and it answers 500 exactly when an error is thrown in its
`try` block, `error` being that error's message: a store query fails, or, in the trend
handler, the given `tags` parameter is an array, on which `split` throws before the store is
asked.  Whenever the store returns its lists the answer is 200, whatever function stands for
`getExchangeRate`, hence for every rate table. -/
theorem report_500_iff_error_thrown (rate : RateFn) (userId : String) (p : TrendParams)
    (find : Store) :
    ((getSpendingTrendReportConverted rate userId p find).status = 500
        ↔ (∃ items, given p.tags = some (.list items))
          ∨ ∃ q e, buildQuery userId p = .ok q ∧ find q = .error e)
      ∧ (∀ q e, buildQuery userId p = .ok q → find q = .error e →
          getSpendingTrendReportConverted rate userId p find
            = { status := 500, body := .serverError "Server Error" e })
      ∧ (∀ q txs, buildQuery userId p = .ok q → find q = .ok txs →
          (getSpendingTrendReportConverted rate userId p find).status = 200)
      ∧ ((getDashboardSummaryConverted rate userId find).status = 500
        ↔ (∃ e, find (incomeQuery userId) = .error e)
          ∨ ((∃ incomes, find (incomeQuery userId) = .ok incomes)
              ∧ ∃ e, find (expenseQuery userId) = .error e))
      ∧ (∀ e, find (incomeQuery userId) = .error e
            ∨ ((∃ incomes, find (incomeQuery userId) = .ok incomes)
                ∧ find (expenseQuery userId) = .error e) →
          getDashboardSummaryConverted rate userId find
            = { status := 500, body := .serverError "Server Error" e })
      ∧ (∀ incomes expenses, find (incomeQuery userId) = .ok incomes →
          find (expenseQuery userId) = .ok expenses →
          (getDashboardSummaryConverted rate userId find).status = 200) := by
  have ht := trend_response_cases rate userId p find
  have hd := dashboard_response_cases rate userId find
  refine ⟨?_, ?_, ?_, ?_, ?_, ?_⟩
  · constructor
    · intro h500
      rcases ht with ⟨e, hcause, -⟩ | ⟨q, txs, rows, -, -, hresp⟩
      · rcases hcause with hb | hs
        · exact Or.inl ((buildQuery_error_iff userId p).mp ⟨e, hb⟩)
        · obtain ⟨q, hq, hf⟩ := hs
          exact Or.inr ⟨q, e, hq, hf⟩
      · rw [hresp] at h500
        cases h500
    · intro hcause
      rcases ht with ⟨e, -, hresp⟩ | ⟨q, txs, rows, hq, hf, -⟩
      · rw [hresp]
      · rcases hcause with hl | ⟨q', e, hq', hf'⟩
        · obtain ⟨e, he⟩ := (buildQuery_error_iff userId p).mpr hl
          rw [hq] at he
          cases he
        · rw [hq] at hq'
          cases hq'
          rw [hf] at hf'
          cases hf'
  · intro q e hq hf
    rcases ht with ⟨e', hcause, hresp⟩ | ⟨q', txs, rows, hq', hf', -⟩
    · rcases hcause with hb | ⟨q', hq', hf'⟩
      · rw [hq] at hb
        cases hb
      · rw [hq] at hq'
        cases hq'
        rw [hf] at hf'
        cases hf'
        exact hresp
    · rw [hq] at hq'
      cases hq'
      rw [hf] at hf'
      cases hf'
  · intro q txs hq hf
    exact trend_status_of_store_ok rate userId p find q txs hq hf
  · constructor
    · intro h500
      rcases hd with ⟨e, hcause, -⟩ | ⟨incomes, expenses, ti, te, -, -, hresp⟩
      · rcases hcause with hi | ⟨hi, he⟩
        · exact Or.inl ⟨e, hi⟩
        · exact Or.inr ⟨hi, e, he⟩
      · rw [hresp] at h500
        cases h500
    · intro hcause
      rcases hd with ⟨e, -, hresp⟩ | ⟨incomes, expenses, ti, te, hi, he, -⟩
      · rw [hresp]
      · rcases hcause with ⟨e, hi'⟩ | ⟨-, e, he'⟩
        · rw [hi] at hi'
          cases hi'
        · rw [he] at he'
          cases he'
  · intro e hcause
    rcases hd with ⟨e', hcause', hresp⟩ | ⟨incomes, expenses, ti, te, hi, he, -⟩
    · have : e' = e := by
        rcases hcause with hi | ⟨⟨incomes, hi⟩, he⟩ <;>
          rcases hcause' with hi' | ⟨⟨incomes', hi'⟩, he'⟩
        · rw [hi] at hi'
          injection hi' with h
          exact h.symm
        · rw [hi] at hi'
          cases hi'
        · rw [hi] at hi'
          cases hi'
        · rw [he] at he'
          injection he' with h
          exact h.symm
      rw [hresp, this]
    · rcases hcause with hi' | ⟨-, he'⟩
      · rw [hi] at hi'
        cases hi'
      · rw [he] at he'
        cases he'
  · intro incomes expenses hi he
    rw [dashboard_of_store_ok rate userId find incomes expenses hi he]

theorem report_500_iff_error_thrown_witness :
    getSpendingTrendReportConverted trendTestRate "64fabc0123456789abcdef01" noParams
        (fun _ => .error "DB Error")
      = { status := 500, body := .serverError "Server Error" "DB Error" } :=
  (report_500_iff_error_thrown trendTestRate "64fabc0123456789abcdef01" noParams
    (fun _ => .error "DB Error")).2.1
    { user := "64fabc0123456789abcdef01", date := none, type := none, category := none,
      tagsIn := none }
    "DB Error" rfl rfl

theorem getExchangeRate_error_iff (cachedRates : RateTable) (fromCurrency toCurrency : String)
    (hne : fromCurrency ≠ toCurrency) (hcache : cachedRates ≠ []) :
    (∃ e, getExchangeRate cachedRates fromCurrency toCurrency = .error e)
      ↔ isFalsy (rateOf cachedRates fromCurrency) = true
          ∨ isFalsy (rateOf cachedRates toCurrency) = true := by
  constructor
  · rintro ⟨e, he⟩
    by_contra hcon
    simp only [not_or, Bool.not_eq_true] at hcon
    obtain ⟨rf, hf, hf0⟩ := (isFalsy_eq_false_iff _).mp hcon.1
    obtain ⟨rt, ht, ht0⟩ := (isFalsy_eq_false_iff _).mp hcon.2
    rw [getExchangeRate_of_truthy cachedRates fromCurrency toCurrency rf rt hne hcache hf ht
      hf0 ht0] at he
    cases he
  · intro h
    exact ⟨_, getExchangeRate_of_falsy cachedRates fromCurrency toCurrency hne hcache h⟩

theorem isFalsy_eq_true_iff (r : Option ℚ) : isFalsy r = true ↔ r = none ∨ r = some 0 := by
  cases r <;> simp [isFalsy]

theorem parseFloatToFixed_two_eq_zero (x : ℚ) (h0 : 0 ≤ x) (h : x < 1 / 200) :
    parseFloatToFixed x 2 = 0 := by
  unfold parseFloatToFixed
  rw [if_neg (not_lt.mpr h0)]
  have : ⌊x * 10 ^ 2 + 1 / 2⌋ = 0 := by
    rw [Int.floor_eq_iff]
    constructor
    · push_cast; linarith
    · push_cast; linarith
  rw [this]
  simp

theorem parseFloatToFixed_two_nonneg (x : ℚ) (h0 : 0 ≤ x) : 0 ≤ parseFloatToFixed x 2 := by
  unfold parseFloatToFixed
  rw [if_neg (not_lt.mpr h0)]
  apply div_nonneg _ (by norm_num)
  have : (0 : ℤ) ≤ ⌊x * 10 ^ 2 + 1 / 2⌋ := Int.floor_nonneg.mpr (by linarith)
  exact_mod_cast this

theorem updateExchangeRates_numbers_state (rates : List (String × ℚ)) (now : ℕ)
    (s : RateCacheState) (hkeys : (rates.map Prod.fst).Nodup) :
    (updateExchangeRates
      (.fulfilled (some { rates := some (rates.map fun p => (p.1, JsonValue.number p.2)) }))
      now s).state
      = { cachedRates := rates.map (fun p => (p.1, parseFloatToFixed p.2 2)),
          lastUpdate := some now } := by
  have hloop := roundRatesLoop_numbers rates [] hkeys (by simp)
  rw [updateExchangeRates_state]
  simp only [updateExchangeRatesTry, hloop, List.nil_append]

/-- A rate at or above 0 and below 0.005 is stored as 0 by a refresh; the code it belongs to
then has an entry, `getExchangeRate` rejects it with the same error as a code without entry,
and the reports convert its amounts with the factor 1. -/
theorem zero_rate_rejected_and_converted_with_factor_one (rates : List (String × ℚ)) (now : ℕ)
    (s : RateCacheState) (c : String) (x : ℚ) (tx : Transaction)
    (hkeys : (rates.map Prod.fst).Nodup) (hmem : (c, x) ∈ rates) (h0 : 0 ≤ x)
    (hx : x < 1 / 200) (hEUR : c ≠ "EUR") (hUSD : c ≠ "USD") (hcur : tx.currency = c) :
    (updateExchangeRates
        (.fulfilled (some { rates := some (rates.map fun p => (p.1, JsonValue.number p.2)) }))
        now s).state.cachedRates.lookup c = some 0
      ∧ getExchangeRate
          (updateExchangeRates
            (.fulfilled (some { rates := some (rates.map fun p =>
              (p.1, JsonValue.number p.2)) }))
            now s).state.cachedRates c "USD"
          = .error "Exchange rate not available for given currency"
      ∧ conversionRate (getExchangeRate
          (updateExchangeRates
            (.fulfilled (some { rates := some (rates.map fun p =>
              (p.1, JsonValue.number p.2)) }))
            now s).state.cachedRates) tx = 1 := by
  rw [updateExchangeRates_numbers_state rates now s hkeys]
  have hk : (rates.map (fun p => (p.1, parseFloatToFixed p.2 2))).map Prod.fst
      = rates.map Prod.fst := by
    simp [List.map_map, Function.comp_def]
  have hlook : (rates.map (fun p => (p.1, parseFloatToFixed p.2 2))).lookup c = some 0 := by
    rw [← parseFloatToFixed_two_eq_zero x h0 hx]
    apply lookup_eq_some_of_mem _ c _ (by rw [hk]; exact hkeys)
    exact List.mem_map.mpr ⟨(c, x), hmem, rfl⟩
  have hne' : (rates.map (fun p => (p.1, parseFloatToFixed p.2 2))) ≠ [] := by
    intro h
    rw [h] at hlook
    cases hlook
  have hfail : getExchangeRate (rates.map (fun p => (p.1, parseFloatToFixed p.2 2))) c "USD"
      = .error "Exchange rate not available for given currency" :=
    getExchangeRate_of_falsy _ c "USD" hUSD hne'
      (Or.inl (by simp [rateOf, hEUR, hlook, isFalsy]))
  refine ⟨hlook, hfail, ?_⟩
  unfold conversionRate
  rw [hcur]
  simp only [baseCurrency, ne_eq, hUSD, not_false_eq_true, if_true]
  rw [hfail]

/-- C25: the table `{JPY: 300}` holds only a strictly positive rate, and
`getExchangeRate("JPY", "EUR")` returns exactly 0 on it.  In general, for distinct codes with
strictly positive operands the call returns a number that is never negative and that is 0
whenever `(1 / rateOf(from)) * rateOf(to)` is below 0.005.  A transaction whose currency
converts to USD at 0 then contributes 0: its bucket total does not change while its count
goes up by one, and the running sum of the dashboard does not change. -/
theorem getExchangeRate_zero_for_positive_rates :
    getExchangeRate [("JPY", 300)] "JPY" "EUR" = .ok 0
      ∧ (∀ (cachedRates : RateTable) (fromCurrency toCurrency : String) (rf rt : ℚ),
          fromCurrency ≠ toCurrency → cachedRates ≠ [] →
          rateOf cachedRates fromCurrency = some rf → rateOf cachedRates toCurrency = some rt →
          0 < rf → 0 < rt →
          ∃ r, getExchangeRate cachedRates fromCurrency toCurrency = .ok r ∧ 0 ≤ r
            ∧ ((1 / rf) * rt < 1 / 200 → r = 0))
      ∧ getExchangeRate [("VND", 26000), ("USD", 108 / 100)] "VND" "USD" = .ok 0
      ∧ (∀ (cachedRates : RateTable) (tx : Transaction),
          getExchangeRate cachedRates tx.currency baseCurrency = .ok 0 →
          tx.currency ≠ baseCurrency →
          convertedAmount (getExchangeRate cachedRates) tx = 0
            ∧ (∀ (groupBy : Option QueryValue) (report : Report),
                ∃ report', trendStep (getExchangeRate cachedRates) groupBy report tx = .ok report'
                  ∧ report'.lookup (groupKey groupBy tx.date)
                      = some { total := ((report.lookup (groupKey groupBy tx.date)).getD
                                  { total := 0, count := 0 }).total,
                               count := ((report.lookup (groupKey groupBy tx.date)).getD
                                  { total := 0, count := 0 }).count + 1 })
            ∧ (∀ sum : ℚ, reduceStep (getExchangeRate cachedRates) sum tx = sum)) := by
  have hgen : ∀ (cachedRates : RateTable) (fromCurrency toCurrency : String) (rf rt : ℚ),
      fromCurrency ≠ toCurrency → cachedRates ≠ [] →
      rateOf cachedRates fromCurrency = some rf → rateOf cachedRates toCurrency = some rt →
      0 < rf → 0 < rt →
      ∃ r, getExchangeRate cachedRates fromCurrency toCurrency = .ok r ∧ 0 ≤ r
        ∧ ((1 / rf) * rt < 1 / 200 → r = 0) := by
    intro cachedRates fromCurrency toCurrency rf rt hne hcache hf ht hrf hrt
    have hpos : 0 ≤ (1 / rf) * rt := by positivity
    exact ⟨_, getExchangeRate_of_truthy cachedRates fromCurrency toCurrency rf rt hne hcache
      hf ht (ne_of_gt hrf) (ne_of_gt hrt), parseFloatToFixed_two_nonneg _ hpos,
      fun hsmall => parseFloatToFixed_two_eq_zero _ hpos hsmall⟩
  refine ⟨?_, hgen, ?_, ?_⟩
  · obtain ⟨r, hr, -, hzero⟩ := hgen [("JPY", 300)] "JPY" "EUR" 300 1 (by decide) (by simp)
      (by simp [rateOf, List.lookup]) (by simp [rateOf]) (by norm_num) (by norm_num)
    rw [hr, hzero (by norm_num)]
  · obtain ⟨r, hr, -, hzero⟩ := hgen [("VND", 26000), ("USD", 108 / 100)] "VND" "USD" 26000
      (108 / 100) (by decide) (by simp) (by simp [rateOf, List.lookup])
      (by simp [rateOf, List.lookup]) (by norm_num) (by norm_num)
    rw [hr, hzero (by norm_num)]
  · intro cachedRates tx hzero hcur
    have hrate : conversionRate (getExchangeRate cachedRates) tx = 0 := by
      unfold conversionRate
      rw [if_pos hcur, hzero]
    have hamount : convertedAmount (getExchangeRate cachedRates) tx = 0 := by
      simp [convertedAmount, hrate]
    refine ⟨hamount, ?_, ?_⟩
    · intro groupBy report
      obtain ⟨report', h1, h2, -⟩ := trendStep_ok (getExchangeRate cachedRates) groupBy report tx
      refine ⟨report', h1, ?_⟩
      rw [h2, hamount, add_zero]
    · intro sum
      simp [reduceStep, hrate]

theorem getExchangeRate_zero_for_positive_rates_witness :
    ∃ r, getExchangeRate [("JPY", 300), ("USD", 108 / 100)] "JPY" "USD" = .ok r ∧ 0 ≤ r
      ∧ ((1 / 300 : ℚ) * (108 / 100) < 1 / 200 → r = 0) :=
  getExchangeRate_zero_for_positive_rates.2.1 [("JPY", 300), ("USD", 108 / 100)] "JPY" "USD"
    300 (108 / 100) (by decide) (by simp) (by simp [rateOf, List.lookup])
    (by simp [rateOf, List.lookup]) (by norm_num) (by norm_num)

/-- C27: for every `groupBy` value other than the string "daily" (absent, "monthly",
"weekly", an array, anything else) the trend handler sends exactly the response it sends for
`groupBy = "monthly"`; and no `groupBy` value is rejected: the status of the response is the
same for every two `groupBy` values. -/
theorem groupBy_other_than_daily_is_monthly (rate : RateFn) (userId : String)
    (p : TrendParams) (find : Store) (hg : p.groupBy ≠ some (.str "daily")) :
    getSpendingTrendReportConverted rate userId p find
        = getSpendingTrendReportConverted rate userId { p with groupBy := some (.str "monthly") }
            find
      ∧ ∀ g1 g2 : Option QueryValue,
          (getSpendingTrendReportConverted rate userId { p with groupBy := g1 } find).status
            = (getSpendingTrendReportConverted rate userId { p with groupBy := g2 } find).status
      := by
  have hkey : ∀ d : JsDate, groupKey p.groupBy d = groupKey (some (.str "monthly")) d := by
    intro d
    unfold groupKey
    rw [if_neg hg, if_neg (by decide)]
  have hstep : trendStep rate p.groupBy = trendStep rate (some (.str "monthly")) := by
    funext report tx
    unfold trendStep
    simp only [hkey]
  have hbuild : ∀ g : Option QueryValue,
      buildQuery userId { p with groupBy := g } = buildQuery userId p := fun _ => rfl
  constructor
  · unfold getSpendingTrendReportConverted spendingTrendTry
    simp only [hbuild, hstep]
  · intro g1 g2
    have hstatus : ∀ g : Option QueryValue,
        (getSpendingTrendReportConverted rate userId { p with groupBy := g } find).status
          = (getSpendingTrendReportConverted rate userId p find).status := by
      intro g
      rcases trend_response_cases rate userId { p with groupBy := g } find with
        ⟨e, hcause, hresp⟩ | ⟨q, txs, rows, hq, hf, hresp⟩
      · rw [hresp]
        have h500 : (getSpendingTrendReportConverted rate userId p find).status = 500 := by
          rcases hcause with hb | ⟨q, hq, hf⟩
          · rw [hbuild g] at hb
            simp [getSpendingTrendReportConverted, spendingTrendTry, hb]
            rfl
          · rw [hbuild g] at hq
            rcases trend_response_cases rate userId p find with
              ⟨e', -, hresp'⟩ | ⟨q', txs, rows, hq', hf', -⟩
            · rw [hresp']
            · rw [hq] at hq'
              cases hq'
              rw [hf] at hf'
              cases hf'
        rw [h500]
      · rw [hresp]
        rw [hbuild g] at hq
        exact (trend_status_of_store_ok rate userId p find q txs hq hf).symm
    rw [hstatus g1, hstatus g2]

theorem groupBy_other_than_daily_is_monthly_witness :
    getSpendingTrendReportConverted trendTestRate "u1"
        { startDate := none, endDate := none, groupBy := some (.str "weekly"), type := none,
          category := none, tags := none }
        (fun _ => .ok [testTransaction 100 "USD" 2025 1 10])
      = getSpendingTrendReportConverted trendTestRate "u1"
        { startDate := none, endDate := none, groupBy := some (.str "monthly"), type := none,
          category := none, tags := none }
        (fun _ => .ok [testTransaction 100 "USD" 2025 1 10]) :=
  (groupBy_other_than_daily_is_monthly trendTestRate "u1"
    { startDate := none, endDate := none, groupBy := some (.str "weekly"), type := none,
      category := none, tags := none }
    (fun _ => .ok [testTransaction 100 "USD" 2025 1 10]) (by decide)).1

/-! ## Conservation over the buckets -/

theorem sum_map_ite_eq_of_nodup {M : Type} [AddCommMonoid M] (keys : List String) (k0 : String)
    (x : M) (hnodup : keys.Nodup) (hmem : k0 ∈ keys) :
    (keys.map fun k => if k0 = k then x else 0).sum = x := by
  induction keys with
  | nil => cases hmem
  | cons k rest ih =>
    rw [List.nodup_cons] at hnodup
    rw [List.map_cons, List.sum_cons]
    by_cases hk : k0 = k
    · subst hk
      have hzero : (rest.map fun k => if k0 = k then x else 0) = rest.map fun _ => (0 : M) := by
        apply List.map_congr_left
        intro k hkmem
        rw [if_neg]
        rintro rfl
        exact hnodup.1 hkmem
      rw [if_pos rfl, hzero]
      simp
    · rw [if_neg hk, zero_add]
      rcases List.mem_cons.mp hmem with h | h
      · exact absurd h hk
      · exact ih hnodup.2 h

theorem sum_over_buckets {M : Type} [AddCommMonoid M] (key : Transaction → String)
    (f : Transaction → M) (keys : List String) (hnodup : keys.Nodup) (txs : List Transaction)
    (hkeys : ∀ tx ∈ txs, key tx ∈ keys) :
    (keys.map fun k => ((txs.filter fun tx => decide (key tx = k)).map f).sum).sum
      = (txs.map f).sum := by
  induction txs with
  | nil => simp
  | cons tx rest ih =>
    have hstep : ∀ k, ((List.filter (fun tx => decide (key tx = k)) (tx :: rest)).map f).sum
        = (if key tx = k then f tx else 0)
            + ((rest.filter fun tx => decide (key tx = k)).map f).sum := by
      intro k
      by_cases hk : key tx = k
      · simp [List.filter_cons, hk]
      · simp [List.filter_cons, hk]
    simp only [hstep]
    rw [List.sum_map_add, sum_map_ite_eq_of_nodup keys (key tx) (f tx) hnodup
      (hkeys tx (List.mem_cons_self _ _)), ih (fun t ht => hkeys t (List.mem_cons_of_mem _ ht)),
      List.map_cons, List.sum_cons]

theorem length_eq_sum_map_one (txs : List Transaction) :
    txs.length = (txs.map fun _ => 1).sum := by
  induction txs with
  | nil => rfl
  | cons tx rest ih => rw [List.length_cons, List.map_cons, List.sum_cons, ← ih, add_comm]

/-- C26: for every list of transactions returned by the store, the handler sends 200 with
rows whose `count` fields sum to the number of transactions, each `count` being at least 1,
and whose `total` fields sum to the sum over all transactions of amount times conversion
factor. -/
theorem trend_conservation (rate : RateFn) (userId : String) (p : TrendParams)
    (find : Store) (q : StoreQuery) (txs : List Transaction)
    (hq : buildQuery userId p = .ok q) (hfind : find q = .ok txs) :
    ∃ rows, getSpendingTrendReportConverted rate userId p find
          = { status := 200, body := .trend rows }
      ∧ (rows.map ReportRow.count).sum = txs.length
      ∧ (∀ row ∈ rows, 1 ≤ row.count)
      ∧ (rows.map ReportRow.total).sum = (txs.map (convertedAmount rate)).sum := by
  obtain ⟨rows, hresp, hasc, hkeys, hrows⟩ := trend_rows_spec rate userId p find q txs hq hfind
  have hnodup := nodup_of_strictlyAscending _ hasc
  have hall : ∀ tx ∈ txs, groupKey p.groupBy tx.date ∈ rows.map ReportRow.group := by
    intro tx htx
    rw [hkeys, inBucket_ne_nil_iff]
    exact ⟨tx, htx, rfl⟩
  refine ⟨rows, hresp, ?_, ?_, ?_⟩
  · have hcount : rows.map ReportRow.count
        = (rows.map ReportRow.group).map fun k => bucketCount p.groupBy k txs := by
      rw [List.map_map]
      exact List.map_congr_left fun row hrow => (hrows row hrow).2
    rw [hcount, length_eq_sum_map_one txs,
      ← sum_over_buckets (fun tx => groupKey p.groupBy tx.date) (fun _ => 1)
        (rows.map ReportRow.group) hnodup txs hall]
    congr 1
    apply List.map_congr_left
    intro k _
    unfold bucketCount inBucket
    exact length_eq_sum_map_one _
  · intro row hrow
    rw [(hrows row hrow).2]
    have hne : inBucket p.groupBy row.group txs ≠ [] :=
      (hkeys row.group).mp (List.mem_map_of_mem _ hrow)
    unfold bucketCount
    exact List.length_pos.mpr hne
  · have htotal : rows.map ReportRow.total
        = (rows.map ReportRow.group).map fun k => bucketTotal rate p.groupBy k txs := by
      rw [List.map_map]
      exact List.map_congr_left fun row hrow => (hrows row hrow).1
    rw [htotal, ← sum_over_buckets (fun tx => groupKey p.groupBy tx.date) (convertedAmount rate)
        (rows.map ReportRow.group) hnodup txs hall]
    rfl

theorem trend_conservation_witness :
    ∃ rows, getSpendingTrendReportConverted trendTestRate "64fabc0123456789abcdef01" noParams
          (fun _ => .ok [testTransaction 100 "USD" 2025 1 10, testTransaction 200 "EUR" 2025 1 15,
            testTransaction 50 "USD" 2025 2 1])
          = { status := 200, body := .trend rows }
      ∧ (rows.map ReportRow.count).sum = 3 :=
  let ⟨rows, h1, h2, _⟩ :=
    trend_conservation trendTestRate "64fabc0123456789abcdef01" noParams
      (fun _ => .ok [testTransaction 100 "USD" 2025 1 10, testTransaction 200 "EUR" 2025 1 15,
        testTransaction 50 "USD" 2025 2 1])
      { user := "64fabc0123456789abcdef01", date := none, type := none, category := none,
        tagsIn := none }
      [testTransaction 100 "USD" 2025 1 10, testTransaction 200 "EUR" 2025 1 15,
        testTransaction 50 "USD" 2025 2 1] rfl rfl
  ⟨rows, h1, h2⟩

/-! ## `getGoalById` -/

theorem digits_of_hundred_le (n : ℕ) (h : 100 ≤ n) :
    Nat.digits 10 n = (n % 10) :: (n / 10 % 10) :: Nat.digits 10 (n / 100) := by
  rw [Nat.digits_def' (by norm_num) (by omega), Nat.digits_def' (by norm_num) (by omega)]
  rw [Nat.div_div_eq_div_mul]

theorem data_toString_nat (n : ℕ) (h : 0 < n) :
    (toString n).data = (Nat.digits 10 n).reverse.map Nat.digitChar := by
  rw [toString_nat_eq_unpaddedDecimal]
  unfold unpaddedDecimal
  rw [if_neg (by omega)]

/-- The digits written by `toFixed(2)` for the integer `n` of hundredths: the numeral of
`n / 100`, then the tens digit and the units digit of `n`. -/
theorem padZeros_split (n : ℕ) :
    let m := padZeros (toString n).data 3
    m.take (m.length - 2) = (unpaddedDecimal (n / 100)).data
      ∧ m.drop (m.length - 2) = [Nat.digitChar (n / 10 % 10), Nat.digitChar (n % 10)] := by
  intro m
  by_cases h100 : 100 ≤ n
  · have hpos : 0 < n / 100 := Nat.div_pos h100 (by norm_num)
    have hdata : (toString n).data
        = (unpaddedDecimal (n / 100)).data
            ++ [Nat.digitChar (n / 10 % 10), Nat.digitChar (n % 10)] := by
      rw [data_toString_nat n (by omega), digits_of_hundred_le n h100]
      unfold unpaddedDecimal
      rw [if_neg (by omega)]
      simp
    have hm : m = (unpaddedDecimal (n / 100)).data
        ++ [Nat.digitChar (n / 10 % 10), Nat.digitChar (n % 10)] := by
      show padZeros (toString n).data 3 = _
      unfold padZeros
      have hlen : 3 - (toString n).data.length = 0 := by
        rw [hdata]
        have : 0 < (unpaddedDecimal (n / 100)).data.length := by
          unfold unpaddedDecimal
          rw [if_neg (by omega)]
          simp only [List.length_map, List.length_reverse]
          exact List.length_pos.mpr (Nat.digits_ne_nil_iff_ne_zero.mpr (by omega))
        simp only [List.length_append, List.length_cons, List.length_nil]
        omega
      rw [hlen, hdata]
      rfl
    rw [hm]
    simp
  · have hsmall : n < 100 := by omega
    have hdiv : n / 100 = 0 := Nat.div_eq_of_lt hsmall
    rw [hdiv]
    clear h100 hdiv
    revert m
    interval_cases n <;> exact ⟨rfl, rfl⟩

theorem toFixed_two_of_lt (x : ℚ) (h : |x| < 10 ^ 21) :
    toFixed x 2 = (if x < 0 then "-" else "")
        ++ unpaddedDecimal (⌊|x| * 10 ^ 2 + 1 / 2⌋.toNat / 100) ++ "."
        ++ String.mk [Nat.digitChar (⌊|x| * 10 ^ 2 + 1 / 2⌋.toNat / 10 % 10),
            Nat.digitChar (⌊|x| * 10 ^ 2 + 1 / 2⌋.toNat % 10)] := by
  have habs : (if x < 0 then -x else x) = |x| := by
    split
    · rw [abs_of_neg (by assumption)]
    · rw [abs_of_nonneg (not_lt.mp (by assumption))]
  unfold toFixed
  simp only [habs]
  rw [if_neg (not_le.mpr h), if_pos (by decide)]
  obtain ⟨h1, h2⟩ := padZeros_split ⌊|x| * 10 ^ 2 + 1 / 2⌋.toNat
  simp only at h1 h2
  rw [h1, h2]

theorem writtenWithTwoDecimals_toFixed (x : ℚ) (h : |x| < 10 ^ 21) :
    WrittenWithTwoDecimals (toFixed x 2) x := by
  have hfloor : (0 : ℤ) ≤ ⌊|x| * 10 ^ 2 + 1 / 2⌋ :=
    Int.floor_nonneg.mpr (by have := abs_nonneg x; linarith)
  obtain ⟨N, hN⟩ := Int.eq_ofNat_of_zero_le hfloor
  refine ⟨⌊|x| * 10 ^ 2 + 1 / 2⌋.toNat / 100, ⌊|x| * 10 ^ 2 + 1 / 2⌋.toNat / 10 % 10,
    ⌊|x| * 10 ^ 2 + 1 / 2⌋.toNat % 10, Nat.mod_lt _ (by norm_num), Nat.mod_lt _ (by norm_num),
    ?_, toFixed_two_of_lt x h⟩
  have hvalue : parseFloatToFixed |x| 2 = (N : ℚ) / 100 := by
    unfold parseFloatToFixed
    rw [if_neg (not_lt.mpr (abs_nonneg x)), hN]
    norm_num
  have hsplit : ((N / 100 : ℕ) : ℚ) + ((N / 10 % 10 : ℕ) : ℚ) / 10 + ((N % 10 : ℕ) : ℚ) / 100
      = (N : ℚ) / 100 := by
    have hnat : N = 100 * (N / 100) + 10 * (N / 10 % 10) + N % 10 := by omega
    have hcast : (N : ℚ) = 100 * ((N / 100 : ℕ) : ℚ) + 10 * ((N / 10 % 10 : ℕ) : ℚ)
        + ((N % 10 : ℕ) : ℚ) := by exact_mod_cast hnat
    rw [hcast]
    ring
  rw [hN, Int.toNat_ofNat, hsplit, ← hvalue]
  exact roundedToTwoDecimals_parseFloatToFixed |x|

theorem floor_toNat_of_nat (n : ℕ) (x : ℚ) (h : x = (n : ℚ)) : ⌊x⌋.toNat = n := by
  rw [h, Int.floor_natCast, Int.toNat_ofNat]

theorem floor_half_toNat_of_nat (n : ℕ) (x : ℚ) (h : x = (n : ℚ)) :
    ⌊x + 1 / 2⌋.toNat = n := by
  have : ⌊x + 1 / 2⌋ = (n : ℤ) := by
    rw [Int.floor_eq_iff, h]
    constructor
    · push_cast; linarith
    · push_cast; linarith
  rw [this, Int.toNat_ofNat]

theorem toFixed_zero_two : toFixed 0 2 = "0.00" := by
  rw [toFixed_two_of_lt 0 (by norm_num), if_neg (by norm_num),
    floor_half_toNat_of_nat 0 _ (by norm_num), ← toString_nat_eq_unpaddedDecimal]
  decide

theorem not_writtenWithTwoDecimals_exponent (x : ℚ) : ¬ WrittenWithTwoDecimals "1e+24" x := by
  rintro ⟨n, d1, d2, -, -, -, hs⟩
  have hdata := congrArg (fun s : String => s.data.reverse) hs
  simp only [String.data_append, List.reverse_append] at hdata
  have h3 := congrArg (fun l : List Char => l.get? 2) hdata
  simp at h3

/-- C22, refuted as stated: the goal with `currentAmount` 10^22 and `targetAmount` 1 is found,
its progress number is 10^24, and the `progress` sent is the string "1e+24", which is not a
number written with two decimals. -/
theorem getGoalById_progress_in_exponent_notation :
    getGoalById "g1" "64fabc0123456789abcdef01"
        (fun _ => .ok (some (testGoal "g1" 0 (10 ^ 22) 1 false)))
      = { status := 200,
          body := .goalWithProgress (testGoal "g1" 0 (10 ^ 22) 1 false) "1e+24" }
      ∧ 0 < (testGoal "g1" 0 (10 ^ 22) 1 false).targetAmount
      ∧ ∀ x : ℚ, ¬ WrittenWithTwoDecimals "1e+24" x := by
  refine ⟨?_, by norm_num [testGoal], not_writtenWithTwoDecimals_exponent⟩
  have hp : goalProgress (testGoal "g1" 0 (10 ^ 22) 1 false) = 10 ^ 24 := by
    norm_num [goalProgress, testGoal]
  have hfixed : toFixed (10 ^ 24) 2 = "1e+24" := by
    have h1 : ¬ ((10 : ℚ) ^ 24 < 0) := by norm_num
    have h2 : (10 : ℚ) ^ 21 ≤ 10 ^ 24 := by norm_num
    unfold toFixed
    simp only [h1, h2, if_true, if_false]
    rw [floor_toNat_of_nat (10 ^ 24) _ (by norm_num)]
    decide
  show ({ status := 200, body := .goalWithProgress _ (toFixed (goalProgress _) 2) }
    : GoalResponse) = _
  rw [hp, hfixed]

/-- C22, amended: for every goal found by `getGoalById` the response is 200 and carries the
goal unchanged together with `progress`.  When `targetAmount <= 0`, `progress` is "0.00",
whatever `currentAmount` is.  When `targetAmount > 0`, `progress` is
`((currentAmount / targetAmount) * 100).toFixed(2)`, and as long as that number is below 10^21
in absolute value it is written with exactly two decimals: sign, whole part, point and two
digits, the value written being the number rounded to two decimal places.  The goal with 200
of 1000 gets "20.00". -/
theorem getGoalById_progress (paramsId userId : String)
    (findOne : GoalIdQuery → Except String (Option Goal)) (goal : Goal)
    (hfound : findOne { id := paramsId, user := userId } = .ok (some goal)) :
    (∃ progress, getGoalById paramsId userId findOne
          = { status := 200, body := .goalWithProgress goal progress }
        ∧ (goal.targetAmount ≤ 0 → progress = "0.00")
        ∧ (0 < goal.targetAmount →
            progress = toFixed (goal.currentAmount / goal.targetAmount * 100) 2
              ∧ (|goal.currentAmount / goal.targetAmount * 100| < 10 ^ 21 →
                  WrittenWithTwoDecimals progress
                    (goal.currentAmount / goal.targetAmount * 100))))
      ∧ getGoalById "g123" "64fabc0123456789abcdef01"
          (fun _ => .ok (some (testGoal "g123" 0 200 1000 false)))
        = { status := 200, body := .goalWithProgress (testGoal "g123" 0 200 1000 false) "20.00" }
      := by
  constructor
  · refine ⟨toFixed (goalProgress goal) 2, ?_, ?_, ?_⟩
    · unfold getGoalById
      rw [hfound]
    · intro hle
      unfold goalProgress
      rw [if_neg (not_lt.mpr hle)]
      exact toFixed_zero_two
    · intro hpos
      unfold goalProgress
      rw [if_pos hpos]
      exact ⟨rfl, fun hlt => writtenWithTwoDecimals_toFixed _ hlt⟩
  · have hp : goalProgress (testGoal "g123" 0 200 1000 false) = 20 := by
      norm_num [goalProgress, testGoal]
    have hfixed : toFixed 20 2 = "20.00" := by
      rw [toFixed_two_of_lt 20 (by norm_num), if_neg (by norm_num),
        floor_half_toNat_of_nat 2000 _ (by norm_num), ← toString_nat_eq_unpaddedDecimal]
      decide
    show ({ status := 200, body := .goalWithProgress _ (toFixed (goalProgress _) 2) }
      : GoalResponse) = _
    rw [hp, hfixed]

theorem getGoalById_progress_witness :
    getGoalById "g7" "64fabc0123456789abcdef01"
        (fun _ => .ok (some (testGoal "g7" 0 100 (-50) false)))
      = { status := 200, body := .goalWithProgress (testGoal "g7" 0 100 (-50) false) "0.00" } :=
  let ⟨_, h1, h2, _⟩ :=
    (getGoalById_progress "g7" "64fabc0123456789abcdef01"
      (fun _ => .ok (some (testGoal "g7" 0 100 (-50) false)))
      (testGoal "g7" 0 100 (-50) false) rfl).1
  (h2 (by norm_num [testGoal])) ▸ h1

/-! ## The unusual-spending job -/

theorem unusualSpendingStep_of_ok (now : JsDate) (aggregate : Aggregate)
    (createNotification : NotificationCall → Except String Unit) (userId : String)
    (cur prev : ℚ) (hcur : currentExpenseOf now aggregate userId = .ok cur)
    (hprev : previousTotalOf now aggregate userId = .ok prev)
    (hcreate : ∀ call, createNotification call = .ok ()) :
    unusualSpendingStep now aggregate createNotification userId
      = .ok (if prev / 3 > 0 ∧ cur > prev / 3 * (3 / 2) then
          some { user := userId, message := unusualSpendingMessage cur (prev / 3),
                 type := "unusual" }
        else none) := by
  unfold currentExpenseOf at hcur
  unfold previousTotalOf at hprev
  unfold unusualSpendingStep
  cases hc : aggregate (ExpenseMatch.mk userId "expense" ⟨now.utcFullYear, now.utcMonth⟩
      ⟨now.utcFullYear, now.utcMonth + 1⟩) with
  | error e => rw [hc] at hcur; cases hcur
  | ok currentAgg =>
    rw [hc] at hcur
    cases hp : aggregate (ExpenseMatch.mk userId "expense" ⟨now.utcFullYear, now.utcMonth - 3⟩
        ⟨now.utcFullYear, now.utcMonth⟩) with
    | error e => rw [hp] at hprev; cases hprev
    | ok previousAgg =>
      rw [hp] at hprev
      have h1 : firstTotal currentAgg = cur := by
        simpa [Except.map] using hcur
      have h2 : firstTotal previousAgg = prev := by
        simpa [Except.map] using hprev
      simp only [bind, Except.bind, hc, hp, h1, h2, pure, Except.pure]
      by_cases hcond : prev / 3 > 0 ∧ cur > prev / 3 * (3 / 2)
      · rw [if_pos hcond, if_pos hcond, hcreate]
      · rw [if_neg hcond, if_neg hcond]

theorem unusualSpendingLoop_of_ok (now : String → JsDate) (aggregate : Aggregate)
    (createNotification : NotificationCall → Except String Unit) (cur prev : String → ℚ)
    (hcreate : ∀ call, createNotification call = .ok ()) :
    ∀ users : List String,
      (∀ u ∈ users, currentExpenseOf (now u) aggregate u = .ok (cur u)) →
      (∀ u ∈ users, previousTotalOf (now u) aggregate u = .ok (prev u)) →
      (unusualSpendingLoop now aggregate createNotification users).consoleError = none
        ∧ (unusualSpendingLoop now aggregate createNotification users).notifications
          = users.filterMap fun u =>
              if prev u / 3 > 0 ∧ cur u > prev u / 3 * (3 / 2) then
                some { user := u, message := unusualSpendingMessage (cur u) (prev u / 3),
                       type := "unusual" }
              else none
  | [], _, _ => ⟨rfl, rfl⟩
  | u :: rest, hcur, hprev => by
    obtain ⟨ih1, ih2⟩ := unusualSpendingLoop_of_ok now aggregate createNotification cur prev
      hcreate rest (fun v hv => hcur v (List.mem_cons_of_mem _ hv))
      (fun v hv => hprev v (List.mem_cons_of_mem _ hv))
    have hstep := unusualSpendingStep_of_ok (now u) aggregate createNotification u (cur u)
      (prev u) (hcur u (List.mem_cons_self _ _)) (hprev u (List.mem_cons_self _ _)) hcreate
    unfold unusualSpendingLoop
    rw [hstep]
    by_cases hcond : prev u / 3 > 0 ∧ cur u > prev u / 3 * (3 / 2)
    · simp only [if_pos hcond, List.filterMap_cons]
      exact ⟨ih1, by rw [ih2]⟩
    · simp only [if_neg hcond, List.filterMap_cons]
      exact ⟨ih1, ih2⟩

/-- C23, code bug: a user has spent 100 in the current month and nothing in the three months
before; 100 exceeds 150% of the average 0 / 3, which is the condition of the claim and of the
docstring of the job, all awaited calls succeed, and the run creates no notification, because
the code also asks for `averageExpense > 0`. -/
theorem no_notification_without_previous_expenses :
    currentExpenseOf { utcFullYear := 2025, utcMonth := 2, utcDate := 15 }
        (fun q => if q.gte.month = 2 then .ok [100] else .ok []) "u1" = .ok 100
      ∧ previousTotalOf { utcFullYear := 2025, utcMonth := 2, utcDate := 15 }
        (fun q => if q.gte.month = 2 then .ok [100] else .ok []) "u1" = .ok 0
      ∧ ExceedsAverageByHalf 100 0
      ∧ (unusualSpendingJob (fun _ => { utcFullYear := 2025, utcMonth := 2, utcDate := 15 })
          (.ok ["u1"]) (fun q => if q.gte.month = 2 then .ok [100] else .ok [])
          (fun _ => .ok ())).notifications = []
      ∧ (unusualSpendingJob (fun _ => { utcFullYear := 2025, utcMonth := 2, utcDate := 15 })
          (.ok ["u1"]) (fun q => if q.gte.month = 2 then .ok [100] else .ok [])
          (fun _ => .ok ())).consoleError = none := by
  have h1 : currentExpenseOf { utcFullYear := 2025, utcMonth := 2, utcDate := 15 }
      (fun q => if q.gte.month = 2 then .ok [100] else .ok []) "u1" = .ok 100 := by
    simp [currentExpenseOf, Except.map, firstTotal]
  have h2 : previousTotalOf { utcFullYear := 2025, utcMonth := 2, utcDate := 15 }
      (fun q => if q.gte.month = 2 then .ok [100] else .ok []) "u1" = .ok 0 := by
    simp [previousTotalOf, Except.map, firstTotal]
  obtain ⟨h3, h4⟩ := unusualSpendingLoop_of_ok
    (fun _ => { utcFullYear := 2025, utcMonth := 2, utcDate := 15 })
    (fun q => if q.gte.month = 2 then .ok [100] else .ok []) (fun _ => .ok ())
    (fun _ => 100) (fun _ => 0) (fun _ => rfl) ["u1"]
    (fun u hu => by rw [List.mem_singleton.mp hu]; exact h1)
    (fun u hu => by rw [List.mem_singleton.mp hu]; exact h2)
  refine ⟨h1, h2, by norm_num [ExceedsAverageByHalf], ?_, h3⟩
  show (unusualSpendingLoop _ _ _ ["u1"]).notifications = []
  rw [h4]
  norm_num

/-- What the condition of the job amounts to: in a run whose awaited calls all succeed, a
user found by the `distinct` query gets a notification exactly when the previous
three-month total is positive and the current month's total exceeds 150% of that total
divided by 3; every notification created has type "unusual" and goes to a user of the query
result, and no error reaches the `catch` block. -/
theorem unusual_notification_iff (now : String → JsDate) (aggregate : Aggregate)
    (createNotification : NotificationCall → Except String Unit) (users : List String)
    (cur prev : String → ℚ)
    (hcur : ∀ u ∈ users, currentExpenseOf (now u) aggregate u = .ok (cur u))
    (hprev : ∀ u ∈ users, previousTotalOf (now u) aggregate u = .ok (prev u))
    (hcreate : ∀ call, createNotification call = .ok ()) :
    (unusualSpendingJob now (.ok users) aggregate createNotification).consoleError = none
      ∧ (∀ call ∈ (unusualSpendingJob now (.ok users) aggregate createNotification).notifications,
          call.type = "unusual" ∧ call.user ∈ users)
      ∧ ∀ u ∈ users,
          (∃ call ∈ (unusualSpendingJob now (.ok users) aggregate createNotification).notifications,
              call.user = u)
            ↔ (0 < prev u ∧ ExceedsAverageByHalf (cur u) (prev u)) := by
  obtain ⟨h1, h2⟩ := unusualSpendingLoop_of_ok now aggregate createNotification cur prev hcreate
    users hcur hprev
  have hjob : unusualSpendingJob now (.ok users) aggregate createNotification
      = unusualSpendingLoop now aggregate createNotification users := rfl
  have hcond : ∀ u, (prev u / 3 > 0 ∧ cur u > prev u / 3 * (3 / 2))
      ↔ (0 < prev u ∧ ExceedsAverageByHalf (cur u) (prev u)) := by
    intro u
    unfold ExceedsAverageByHalf
    constructor
    · rintro ⟨ha, hb⟩
      exact ⟨by linarith, by linarith⟩
    · rintro ⟨ha, hb⟩
      exact ⟨by positivity, by linarith⟩
  rw [hjob, h2]
  refine ⟨h1, ?_, ?_⟩
  · intro call hcall
    rw [List.mem_filterMap] at hcall
    obtain ⟨u, hu, hsome⟩ := hcall
    split at hsome
    · cases hsome
      exact ⟨rfl, hu⟩
    · cases hsome
  · intro u hu
    rw [← hcond u]
    constructor
    · rintro ⟨call, hcall, huser⟩
      rw [List.mem_filterMap] at hcall
      obtain ⟨v, -, hsome⟩ := hcall
      split at hsome
      · cases hsome
        cases huser
        assumption
      · cases hsome
    · intro h
      exact ⟨{ user := u, message := unusualSpendingMessage (cur u) (prev u / 3),
               type := "unusual" },
        List.mem_filterMap.mpr ⟨u, hu, by rw [if_pos h]⟩, rfl⟩

theorem unusual_notification_iff_witness :
    (unusualSpendingJob (fun _ => { utcFullYear := 2025, utcMonth := 2, utcDate := 15 })
        (.ok ["u1"]) (fun q => if q.gte.month = 2 then .ok [200] else .ok [300])
        (fun _ => .ok ())).consoleError = none :=
  (unusual_notification_iff (fun _ => { utcFullYear := 2025, utcMonth := 2, utcDate := 15 })
    (fun q => if q.gte.month = 2 then .ok [200] else .ok [300]) (fun _ => .ok ()) ["u1"]
    (fun _ => 200) (fun _ => 300)
    (fun _ _ => by simp [currentExpenseOf, Except.map, firstTotal])
    (fun _ _ => by simp [previousTotalOf, Except.map, firstTotal])
    (fun _ => rfl)).1

/-! ## The budget-monitoring job -/

theorem budgetStep_of_ok (aggregate : SpendingQuery → Except String (List ℚ))
    (createNotification : NotificationCall → Except String Unit) (budget : Budget) (spent : ℚ)
    (hspent : calculateTotalSpending aggregate budget.user budget.periodYearMonth budget.category
      = .ok spent)
    (hcreate : ∀ call, createNotification call = .ok ()) :
    ∃ alert, budgetStep aggregate createNotification budget = .ok alert
      ∧ ∀ call, alert = some call ↔
          (call.user = budget.user
            ∧ ((call.type = "upcoming"
                  ∧ call.message = budgetMessageHead budget ++ " is nearly exceeded ("
                      ++ (thresholdPercent spent budget.amount).toFixed2
                      ++ "%). Consider reducing discretionary spending."
                  ∧ (thresholdPercent spent budget.amount).ge 90 = true
                  ∧ (thresholdPercent spent budget.amount).lt 100 = true)
              ∨ (call.type = "missed"
                  ∧ call.message = budgetMessageHead budget ++ " has been exceeded ("
                      ++ (thresholdPercent spent budget.amount).toFixed2
                      ++ "%). Please review your spending and consider revising your budget."
                  ∧ (thresholdPercent spent budget.amount).ge 100 = true
                  ∧ ¬ ((thresholdPercent spent budget.amount).ge 90 = true
                        ∧ (thresholdPercent spent budget.amount).lt 100 = true)))) := by
  unfold budgetStep
  simp only [bind, Except.bind, hspent, pure, Except.pure]
  by_cases h1 : ((thresholdPercent spent budget.amount).ge 90
      && (thresholdPercent spent budget.amount).lt 100) = true
  · rw [if_pos h1, hcreate]
    have h1' := h1
    rw [Bool.and_eq_true] at h1'
    refine ⟨_, rfl, fun call => ?_⟩
    constructor
    · intro h
      cases h
      exact ⟨rfl, Or.inl ⟨rfl, rfl, h1'.1, h1'.2⟩⟩
    · rintro ⟨hu, ⟨ht, hm, -, -⟩ | ⟨-, -, -, hno⟩⟩
      · obtain ⟨u, m, t⟩ := call
        simp only at hu ht hm
        rw [hu, ht, hm]
      · exact absurd h1' hno
  · rw [if_neg h1]
    have h1' : ¬ ((thresholdPercent spent budget.amount).ge 90 = true
        ∧ (thresholdPercent spent budget.amount).lt 100 = true) := by
      rw [← Bool.and_eq_true]
      exact h1
    by_cases h2 : (thresholdPercent spent budget.amount).ge 100 = true
    · rw [if_pos h2, hcreate]
      refine ⟨_, rfl, fun call => ?_⟩
      constructor
      · intro h
        cases h
        exact ⟨rfl, Or.inr ⟨rfl, rfl, h2, h1'⟩⟩
      · rintro ⟨hu, ⟨-, -, ha, hb⟩ | ⟨ht, hm, -, -⟩⟩
        · exact absurd ⟨ha, hb⟩ h1'
        · obtain ⟨u, m, t⟩ := call
          simp only at hu ht hm
          rw [hu, ht, hm]
    · rw [if_neg h2]
      refine ⟨none, rfl, fun call => ?_⟩
      constructor
      · intro h
        cases h
      · rintro ⟨-, ⟨-, -, ha, hb⟩ | ⟨-, -, ha, -⟩⟩
        · exact absurd ⟨ha, hb⟩ h1'
        · exact absurd ha h2

theorem budgetLoop_of_ok (aggregate : SpendingQuery → Except String (List ℚ))
    (createNotification : NotificationCall → Except String Unit)
    (alert : Budget → Option NotificationCall) :
    ∀ budgets : List Budget,
      (∀ b ∈ budgets, budgetStep aggregate createNotification b = .ok (alert b)) →
      budgetLoop aggregate createNotification budgets
        = (budgets.filterMap fun b => (alert b).map (Prod.mk b), none)
  | [], _ => rfl
  | b :: rest, h => by
    have ih := budgetLoop_of_ok aggregate createNotification alert rest
      (fun v hv => h v (List.mem_cons_of_mem _ hv))
    unfold budgetLoop
    rw [h b (List.mem_cons_self _ _), ih]
    cases hb : alert b with
    | none => simp [List.filterMap_cons, hb]
    | some call => simp [List.filterMap_cons, hb]

theorem thresholdPercent_of_ne_zero (totalSpending amount : ℚ) (h : amount ≠ 0) :
    thresholdPercent totalSpending amount = .finite (totalSpending / amount * 100) := by
  unfold thresholdPercent jsDivide
  rw [if_pos h]
  rfl

theorem thresholdPercent_zero_amount (totalSpending : ℚ) :
    thresholdPercent totalSpending 0
      = if totalSpending > 0 then .posInfinity
        else if totalSpending < 0 then .negInfinity else .nan := by
  unfold thresholdPercent jsDivide
  rw [if_neg (by simp)]
  split
  · rfl
  · split
    · rfl
    · rfl

theorem map_fst_filterMap_sublist {α β : Type} (f : α → Option β) :
    ∀ l : List α, ((l.filterMap fun a => (f a).map (Prod.mk a)).map Prod.fst).Sublist l
  | [] => List.Sublist.slnil
  | a :: rest => by
    have ih := map_fst_filterMap_sublist f rest
    cases ha : f a with
    | none =>
      simp only [List.filterMap_cons, ha, Option.map_none']
      exact List.Sublist.cons a ih
    | some b =>
      simp only [List.filterMap_cons, ha, Option.map_some', List.map_cons]
      exact List.Sublist.cons₂ a ih

theorem mem_filterMap_pair {α β : Type} (f : α → Option β) (l : List α) (a : α) (b : β) :
    (a, b) ∈ (l.filterMap fun a => (f a).map (Prod.mk a)) ↔ a ∈ l ∧ f a = some b := by
  rw [List.mem_filterMap]
  constructor
  · rintro ⟨a', ha', h⟩
    cases hf : f a' with
    | none => rw [hf] at h; cases h
    | some b' =>
      rw [hf] at h
      simp only [Option.map_some', Option.some.injEq, Prod.mk.injEq] at h
      obtain ⟨rfl, rfl⟩ := h
      exact ⟨ha', hf⟩
  · rintro ⟨ha, hf⟩
    exact ⟨a, ha, by rw [hf]; rfl⟩

/-- C28: in a run of the budget-monitoring job whose awaited calls all succeed, with
`p = (totalSpending / budget.amount) * 100`, every budget gets at most one notification (the
budgets notified form a sublist of the budgets found), of type "upcoming" or "missed", sent to
the user of the budget.  For a non-zero amount the notification has type "upcoming" exactly
when `90 <= p < 100` and type "missed" exactly when `p >= 100`, and there is none when
`p < 90`.  For the amount 0, a positive spending gets the "missed" notification, the one of
the exceeded budget, and a zero spending gets none. -/
theorem budget_alert_by_threshold (budgets : List Budget)
    (aggregate : SpendingQuery → Except String (List ℚ))
    (createNotification : NotificationCall → Except String Unit) (spent : Budget → ℚ)
    (hspent : ∀ b ∈ budgets,
      calculateTotalSpending aggregate b.user b.periodYearMonth b.category = .ok (spent b))
    (hcreate : ∀ call, createNotification call = .ok ()) :
    (budgetMonitoringJob (.ok budgets) aggregate createNotification).2 = none
      ∧ ((budgetMonitoringJob (.ok budgets) aggregate createNotification).1.map Prod.fst).Sublist
          budgets
      ∧ ∀ b ∈ budgets,
          (∀ call, (b, call) ∈ (budgetMonitoringJob (.ok budgets) aggregate createNotification).1 →
              call.user = b.user ∧ (call.type = "upcoming" ∨ call.type = "missed"))
          ∧ (b.amount ≠ 0 →
              ((∃ call, (b, call)
                    ∈ (budgetMonitoringJob (.ok budgets) aggregate createNotification).1
                  ∧ call.type = "upcoming")
                ↔ (90 ≤ spent b / b.amount * 100 ∧ spent b / b.amount * 100 < 100))
              ∧ ((∃ call, (b, call)
                    ∈ (budgetMonitoringJob (.ok budgets) aggregate createNotification).1
                  ∧ call.type = "missed")
                ↔ 100 ≤ spent b / b.amount * 100)
              ∧ (spent b / b.amount * 100 < 90 → ∀ call, (b, call)
                    ∉ (budgetMonitoringJob (.ok budgets) aggregate createNotification).1))
          ∧ (b.amount = 0 →
              (0 < spent b →
                (∃ call, (b, call)
                    ∈ (budgetMonitoringJob (.ok budgets) aggregate createNotification).1
                  ∧ call.type = "missed")
                ∧ ∀ call, (b, call)
                    ∈ (budgetMonitoringJob (.ok budgets) aggregate createNotification).1 →
                    call.type = "missed")
              ∧ (spent b = 0 → ∀ call, (b, call)
                    ∉ (budgetMonitoringJob (.ok budgets) aggregate createNotification).1)) := by
  have hstep : ∀ b ∈ budgets, budgetStep aggregate createNotification b
      = .ok (match budgetStep aggregate createNotification b with
              | .ok alert => alert
              | .error _ => none) := by
    intro b hb
    obtain ⟨alert, h, -⟩ := budgetStep_of_ok aggregate createNotification b (spent b)
      (hspent b hb) hcreate
    rw [h]
  have hrun : budgetMonitoringJob (.ok budgets) aggregate createNotification
      = (budgets.filterMap fun b =>
          (match budgetStep aggregate createNotification b with
            | .ok alert => alert
            | .error _ => none).map (Prod.mk b), none) :=
    budgetLoop_of_ok aggregate createNotification _ budgets hstep
  rw [hrun]
  refine ⟨rfl, map_fst_filterMap_sublist _ budgets, fun b hb => ?_⟩
  obtain ⟨alert, halert, hiff⟩ := budgetStep_of_ok aggregate createNotification b (spent b)
    (hspent b hb) hcreate
  have hmem : ∀ call, (b, call) ∈ (budgets.filterMap fun b =>
      (match budgetStep aggregate createNotification b with
        | .ok alert => alert
        | .error _ => none).map (Prod.mk b)) ↔ alert = some call := by
    intro call
    rw [mem_filterMap_pair, halert]
    exact ⟨fun h => h.2, fun h => ⟨hb, h⟩⟩
  simp only [hmem, hiff]
  refine ⟨?_, ?_, ?_⟩
  · rintro call ⟨hu, ⟨ht, -⟩ | ⟨ht, -⟩⟩
    · exact ⟨hu, Or.inl ht⟩
    · exact ⟨hu, Or.inr ht⟩
  · intro hne
    rw [thresholdPercent_of_ne_zero _ _ hne]
    simp only [JsNumber.ge, JsNumber.lt, decide_eq_true_eq, ge_iff_le]
    refine ⟨?_, ?_, ?_⟩
    · constructor
      · rintro ⟨call, ⟨-, ⟨-, -, h1, h2⟩ | ⟨ht, -⟩⟩, ht'⟩
        · exact ⟨h1, h2⟩
        · rw [ht] at ht'
          exact absurd ht' (by decide)
      · rintro ⟨h1, h2⟩
        exact ⟨{ user := b.user, message := _, type := "upcoming" },
          ⟨rfl, Or.inl ⟨rfl, rfl, h1, h2⟩⟩, rfl⟩
    · constructor
      · rintro ⟨call, ⟨-, ⟨ht, -⟩ | ⟨-, -, h1, -⟩⟩, ht'⟩
        · rw [ht] at ht'
          exact absurd ht' (by decide)
        · exact h1
      · intro h1
        exact ⟨{ user := b.user, message := _, type := "missed" },
          ⟨rfl, Or.inr ⟨rfl, rfl, h1, fun h => absurd h.2 (not_lt.mpr h1)⟩⟩, rfl⟩
    · rintro hlt call ⟨-, ⟨-, -, h1, -⟩ | ⟨-, -, h1, -⟩⟩
      · linarith
      · linarith
  · intro hzero
    rw [hzero, thresholdPercent_zero_amount]
    refine ⟨?_, ?_⟩
    · intro hpos
      rw [if_pos hpos]
      refine ⟨⟨{ user := b.user, message := _, type := "missed" },
        ⟨rfl, Or.inr ⟨rfl, rfl, rfl, fun h => absurd h.2 (by decide)⟩⟩, rfl⟩, ?_⟩
      rintro call ⟨-, ⟨-, -, -, h⟩ | ⟨ht, -⟩⟩
      · exact absurd h (by decide)
      · exact ht
    · intro hs
      rw [hs, if_neg (lt_irrefl 0), if_neg (lt_irrefl 0)]
      rintro call ⟨-, ⟨-, -, h, -⟩ | ⟨-, -, h, -⟩⟩
      · exact absurd h (by decide)
      · exact absurd h (by decide)

theorem budget_alert_by_threshold_witness :
    ∃ call, (({ id := "b1", user := "u1", amount := 0, category := none,
                periodYearMonth := "2025-03" } : Budget), call)
          ∈ (budgetMonitoringJob
              (.ok [{ id := "b1", user := "u1", amount := 0, category := none,
                      periodYearMonth := "2025-03" }])
              (fun _ => .ok [50]) (fun _ => .ok ())).1
        ∧ call.type = "missed" :=
  ((((budget_alert_by_threshold
      [{ id := "b1", user := "u1", amount := 0, category := none, periodYearMonth := "2025-03" }]
      (fun _ => .ok [50]) (fun _ => .ok ()) (fun _ => 50) (fun _ _ => rfl) (fun _ => rfl)).2.2
    { id := "b1", user := "u1", amount := 0, category := none, periodYearMonth := "2025-03" }
    (List.mem_singleton_self _)).2.2 rfl).1 (by norm_num)).1

/-! ## Access tokens and the admin check -/

theorem splitOnSpace_of_no_space : ∀ cs : List Char, ' ' ∉ cs → splitOnSpace cs = [cs]
  | [], _ => rfl
  | c :: cs, h => by
    have hc : c ≠ ' ' := fun e => h (by rw [e]; exact List.mem_cons_self _ _)
    have ih := splitOnSpace_of_no_space cs (fun hmem => h (List.mem_cons_of_mem _ hmem))
    unfold splitOnSpace
    rw [if_neg hc, ih]

theorem authMiddleware_bearer (jwt : Jwt) (env : Env) (token : String)
    (hspace : ' ' ∉ token.data) :
    authMiddleware jwt env (some ("Bearer " ++ token))
      = match jwt.verify token env.jwtSecret with
        | .ok decoded => .next decoded.user
        | .error e => .response 401 (.messageWithError "Invalid token" e) := by
  have hne : "Bearer " ++ token ≠ "" := by
    intro h
    have := congrArg String.length h
    simp at this
    exact absurd this.1 (by decide)
  have hsplit : splitOnSpace ("Bearer " ++ token).data = ["Bearer".data, token.data] := by
    rw [String.data_append]
    show splitOnSpace ('B' :: 'e' :: 'a' :: 'r' :: 'e' :: 'r' :: ' ' :: token.data) = _
    simp [splitOnSpace, splitOnSpace_of_no_space token.data hspace]
  unfold authMiddleware
  simp only [hne, if_false, hsplit, List.map_cons, List.map_nil]
  rfl

/-- C29: `refreshToken` signs the payload `{ user: { id } }`, with no role, and `login` signs
`{ user: { id, role } }`.  So for every user, an Admin included, whose refresh token verifies:
the refreshed access token, presented as `Bearer` token, passes `authMiddleware` with a
`req.user` whose `role` is undefined, and `adminMiddleware` answers 403 "Access denied"
without calling `next`; with the access token of `login`, `adminMiddleware` calls `next` for
an Admin. -/
theorem refreshed_token_fails_admin_check (jwt : Jwt) (env : Env) (user : User)
    (refresh : String) (hcookie : refresh ≠ "")
    (hrefresh : jwt.verify refresh env.refreshTokenSecret
      = .ok { user := none, id := some user.id })
    (hverify : ∀ role : Option String, role = none ∨ role = some user.role →
      jwt.verify
          (jwt.sign { user := some { id := some user.id, role := role }, id := none }
            env.jwtSecret env.jwtExpires) env.jwtSecret
        = .ok { user := some { id := some user.id, role := role }, id := none })
    (hspace : ∀ role : Option String, role = none ∨ role = some user.role →
      ' ' ∉ (jwt.sign { user := some { id := some user.id, role := role }, id := none }
              env.jwtSecret env.jwtExpires).data) :
    refreshToken jwt env (some refresh)
        = { status := 200,
            body := .accessToken
              (jwt.sign { user := some { id := some user.id, role := none }, id := none }
                env.jwtSecret env.jwtExpires),
            cookie := none }
      ∧ authMiddleware jwt env
          (some ("Bearer "
            ++ jwt.sign { user := some { id := some user.id, role := none }, id := none }
                env.jwtSecret env.jwtExpires))
        = .next (some { id := some user.id, role := none })
      ∧ adminMiddleware (some { id := some user.id, role := none })
        = .response 403 (.message "Access denied")
      ∧ login jwt env [] (.ok (some user)) (fun _ => .ok true)
        = { status := 200,
            body := .accessTokenAndUser
              (jwt.sign { user := some { id := some user.id, role := some user.role },
                          id := none }
                env.jwtSecret env.jwtExpires) user.id,
            cookie := some (jwt.sign { user := none, id := some user.id }
              env.refreshTokenSecret env.refreshTokenExpires) }
      ∧ authMiddleware jwt env
          (some ("Bearer "
            ++ jwt.sign { user := some { id := some user.id, role := some user.role },
                          id := none }
                env.jwtSecret env.jwtExpires))
        = .next (some { id := some user.id, role := some user.role })
      ∧ (user.role = "Admin" →
          adminMiddleware (some { id := some user.id, role := some user.role })
            = .next (some { id := some user.id, role := some user.role })) := by
  refine ⟨?_, ?_, rfl, rfl, ?_, ?_⟩
  · unfold refreshToken
    simp only [hcookie, if_false, hrefresh]
  · rw [authMiddleware_bearer jwt env _ (hspace none (Or.inl rfl)), hverify none (Or.inl rfl)]
  · rw [authMiddleware_bearer jwt env _ (hspace (some user.role) (Or.inr rfl)),
      hverify (some user.role) (Or.inr rfl)]
  · intro hrole
    unfold adminMiddleware
    rw [hrole]
    rfl

theorem refreshed_token_fails_admin_check_witness :
    refreshToken
        { sign := fun payload _ _ =>
            match payload.user with
            | some claims => if claims.role = none then "a1" else "a2"
            | none => "r1",
          verify := fun token _ =>
            if token = "a1" then .ok { user := some { id := some "u1", role := none }, id := none }
            else if token = "a2" then
              .ok { user := some { id := some "u1", role := some "Admin" }, id := none }
            else .ok { user := none, id := some "u1" } }
        { jwtSecret := "s1", jwtExpires := "1h", refreshTokenSecret := "s2",
          refreshTokenExpires := "7d" }
        (some "r1")
      = { status := 200, body := .accessToken "a1", cookie := none } :=
  (refreshed_token_fails_admin_check
    { sign := fun payload _ _ =>
        match payload.user with
        | some claims => if claims.role = none then "a1" else "a2"
        | none => "r1",
      verify := fun token _ =>
        if token = "a1" then .ok { user := some { id := some "u1", role := none }, id := none }
        else if token = "a2" then
          .ok { user := some { id := some "u1", role := some "Admin" }, id := none }
        else .ok { user := none, id := some "u1" } }
    { jwtSecret := "s1", jwtExpires := "1h", refreshTokenSecret := "s2",
      refreshTokenExpires := "7d" }
    { id := "u1", email := "admin@example.com", role := "Admin" } "r1" (by decide) rfl
    (fun role h => by rcases h with rfl | rfl <;> rfl)
    (fun role h => by rcases h with rfl | rfl <;> decide)).1

/-! ## The calendar of `Date` -/

theorem dayFromYear_succ (y : ℤ) : dayFromYear (y + 1) = dayFromYear y + daysInYear y := by
  unfold dayFromYear daysInYear
  split_ifs <;> omega

theorem yearFromDay_spec (d : ℤ) :
    dayFromYear (yearFromDay d) ≤ d ∧ d < dayFromYear (yearFromDay d + 1) := by
  unfold yearFromDay
  simp only []
  split_ifs with h1 h2
  · refine ⟨h1, ?_⟩
    unfold dayFromYear at *
    omega
  · exact ⟨h2, by omega⟩
  · refine ⟨?_, ?_⟩
    · unfold dayFromYear at *
      omega
    · have : 1970 + d * 400 / 146097 - 1 + 1 = 1970 + d * 400 / 146097 := by ring
      rw [this]
      omega

theorem ite_range (c : Prop) [Decidable c] (a b : ℤ) (ha : 0 ≤ a ∧ a ≤ 11)
    (hb : 0 ≤ b ∧ b ≤ 11) : 0 ≤ (if c then a else b) ∧ (if c then a else b) ≤ 11 := by
  split
  · exact ha
  · exact hb

theorem monthOfDayWithinYear_range (d leap : ℤ) :
    0 ≤ monthOfDayWithinYear d leap ∧ monthOfDayWithinYear d leap ≤ 11 := by
  unfold monthOfDayWithinYear
  refine ite_range _ _ _ (by omega) ?_
  refine ite_range _ _ _ (by omega) ?_
  refine ite_range _ _ _ (by omega) ?_
  refine ite_range _ _ _ (by omega) ?_
  refine ite_range _ _ _ (by omega) ?_
  refine ite_range _ _ _ (by omega) ?_
  refine ite_range _ _ _ (by omega) ?_
  refine ite_range _ _ _ (by omega) ?_
  refine ite_range _ _ _ (by omega) ?_
  refine ite_range _ _ _ (by omega) ?_
  exact ite_range _ _ _ (by omega) (by omega)

theorem makeDay_of_time (t n : ℤ) :
    makeDay (yearFromTime t) (monthFromTime t) (dateFromTime t + n) = dayNumber t + n := by
  have hr : 0 ≤ monthFromTime t ∧ monthFromTime t ≤ 11 := monthOfDayWithinYear_range _ _
  have hdiv : monthFromTime t / 12 = 0 := by omega
  have hmod : monthFromTime t % 12 = monthFromTime t := by omega
  unfold makeDay
  simp only [hdiv, hmod, add_zero]
  have hleap : (if daysInYear (yearFromTime t) = 366 then (1 : ℤ) else 0) = inLeapYear t := rfl
  rw [hleap]
  unfold dateFromTime dayWithinYear
  omega

theorem setUTCDate_getUTCDate_add (t n : ℤ) :
    setUTCDate t (dateFromTime t + n) = t + n * msPerDay := by
  unfold setUTCDate makeDate
  rw [makeDay_of_time]
  unfold dayNumber timeWithinDay msPerDay
  omega

theorem daysBeforeMonth_le (d leap : ℤ) (hd : 0 ≤ d) :
    daysBeforeMonth (monthOfDayWithinYear d leap) leap ≤ d := by
  unfold monthOfDayWithinYear daysBeforeMonth
  omega

theorem dayFromYear_lt (a b : ℤ) (h : a < b) : dayFromYear a < dayFromYear b := by
  unfold dayFromYear
  omega

theorem yearFromDay_unique (d y : ℤ) (h1 : dayFromYear y ≤ d) (h2 : d < dayFromYear (y + 1)) :
    yearFromDay d = y := by
  obtain ⟨h3, h4⟩ := yearFromDay_spec d
  by_contra hne
  rcases lt_or_gt_of_ne hne with h | h
  · have : dayFromYear (yearFromDay d + 1) ≤ dayFromYear y := by
      rcases eq_or_lt_of_le (show yearFromDay d + 1 ≤ y by omega) with e | l
      · rw [e]
      · exact le_of_lt (dayFromYear_lt _ _ l)
    omega
  · have : dayFromYear (y + 1) ≤ dayFromYear (yearFromDay d) := by
      rcases eq_or_lt_of_le (show y + 1 ≤ yearFromDay d by omega) with e | l
      · rw [e]
      · exact le_of_lt (dayFromYear_lt _ _ l)
    omega

theorem dayNumber_makeDate (d time : ℤ) (h : 0 ≤ time ∧ time < msPerDay) :
    dayNumber (makeDate d time) = d ∧ timeWithinDay (makeDate d time) = time := by
  unfold dayNumber timeWithinDay makeDate msPerDay at *
  omega

theorem timeWithinDay_range (t : ℤ) : 0 ≤ timeWithinDay t ∧ timeWithinDay t < msPerDay := by
  unfold timeWithinDay msPerDay
  omega

theorem one_le_dateFromTime (t : ℤ) : 1 ≤ dateFromTime t := by
  have h := (yearFromDay_spec (dayNumber t)).1
  have hd : 0 ≤ dayWithinYear t := by
    unfold dayWithinYear yearFromTime
    omega
  have := daysBeforeMonth_le (dayWithinYear t) (inLeapYear t) hd
  unfold dateFromTime monthFromTime
  omega

theorem daysBeforeMonth_succ (m leap : ℤ) (hm : 0 ≤ m ∧ m ≤ 10) :
    daysBeforeMonth (m + 1) leap = daysBeforeMonth m leap + daysInMonth m leap := by
  unfold daysBeforeMonth daysInMonth
  omega

theorem daysBeforeMonth_add_daysInMonth_le (m leap : ℤ) (hm : 0 ≤ m ∧ m ≤ 11)
    (hl : leap = 0 ∨ leap = 1) :
    0 ≤ daysBeforeMonth m leap ∧ daysBeforeMonth m leap + daysInMonth m leap ≤ 365 + leap := by
  unfold daysBeforeMonth daysInMonth
  omega

theorem monthOfDayWithinYear_of_lt_daysInMonth (m leap k : ℤ) (hm : 0 ≤ m ∧ m ≤ 11)
    (hl : leap = 0 ∨ leap = 1) (hk : 0 ≤ k ∧ k < daysInMonth m leap) :
    monthOfDayWithinYear (daysBeforeMonth m leap + k) leap = m := by
  unfold daysInMonth at hk
  unfold monthOfDayWithinYear daysBeforeMonth
  omega

theorem daysInYear_eq (y : ℤ) :
    daysInYear y = 365 + (if daysInYear y = 366 then 1 else 0) := by
  unfold daysInYear
  omega

theorem dateFromTime_le (t : ℤ) :
    dateFromTime t ≤ daysInMonth (monthFromTime t) (inLeapYear t) := by
  have h := (yearFromDay_spec (dayNumber t)).2
  rw [dayFromYear_succ, daysInYear_eq] at h
  have hd : dayWithinYear t < 365 + inLeapYear t := by
    unfold dayWithinYear inLeapYear yearFromTime
    omega
  have hl : inLeapYear t = 0 ∨ inLeapYear t = 1 := by
    unfold inLeapYear
    omega
  unfold dateFromTime monthFromTime
  generalize dayWithinYear t = d at *
  generalize inLeapYear t = leap at *
  unfold monthOfDayWithinYear daysBeforeMonth daysInMonth
  omega

theorem civil_of_makeDay (y m d time : ℤ) (hm : 0 ≤ m ∧ m ≤ 11)
    (hd : 1 ≤ d ∧ d ≤ daysInMonth m (if daysInYear y = 366 then 1 else 0))
    (htime : 0 ≤ time ∧ time < msPerDay) :
    yearFromTime (makeDate (makeDay y m d) time) = y
      ∧ monthFromTime (makeDate (makeDay y m d) time) = m
      ∧ dateFromTime (makeDate (makeDay y m d) time) = d
      ∧ timeWithinDay (makeDate (makeDay y m d) time) = time := by
  obtain ⟨hday, htwd⟩ := dayNumber_makeDate (makeDay y m d) time htime
  have hdiv : m / 12 = 0 := by omega
  have hmod : m % 12 = m := by omega
  have hleap : (if daysInYear y = 366 then (1 : ℤ) else 0) = 0
      ∨ (if daysInYear y = 366 then (1 : ℤ) else 0) = 1 := by
    split
    · exact Or.inr rfl
    · exact Or.inl rfl
  have hmake : makeDay y m d
      = dayFromYear y + daysBeforeMonth m (if daysInYear y = 366 then 1 else 0) + d - 1 := by
    unfold makeDay
    simp only [hdiv, hmod, add_zero]
  have hrange := daysBeforeMonth_add_daysInMonth_le m _ hm hleap
  have hyear : yearFromTime (makeDate (makeDay y m d) time) = y := by
    unfold yearFromTime
    rw [hday]
    apply yearFromDay_unique
    · omega
    · rw [dayFromYear_succ]
      have := daysInYear_eq y
      omega
  have hin : inLeapYear (makeDate (makeDay y m d) time)
      = if daysInYear y = 366 then 1 else 0 := by
    unfold inLeapYear
    rw [hyear]
  have hdwy : dayWithinYear (makeDate (makeDay y m d) time)
      = daysBeforeMonth m (if daysInYear y = 366 then 1 else 0) + (d - 1) := by
    unfold dayWithinYear
    rw [hday, hyear, hmake]
    ring
  have hmonth : monthFromTime (makeDate (makeDay y m d) time) = m := by
    unfold monthFromTime
    rw [hdwy, hin]
    exact monthOfDayWithinYear_of_lt_daysInMonth m _ (d - 1) hm hleap (by omega)
  refine ⟨hyear, hmonth, ?_, htwd⟩
  unfold dateFromTime
  rw [hmonth, hdwy, hin]
  ring

theorem makeDay_normalize (y m d : ℤ) : makeDay y m d = makeDay (y + m / 12) (m % 12) d := by
  unfold makeDay
  have h1 : m % 12 / 12 = 0 := by omega
  have h2 : m % 12 % 12 = m % 12 := by omega
  simp only [h1, h2, add_zero]

theorem makeDay_carry (y m d : ℤ) (hm : 0 ≤ m ∧ m ≤ 10) :
    makeDay y m d
      = makeDay y (m + 1) (d - daysInMonth m (if daysInYear y = 366 then 1 else 0)) := by
  have h1 : m / 12 = 0 := by omega
  have h2 : m % 12 = m := by omega
  have h3 : (m + 1) / 12 = 0 := by omega
  have h4 : (m + 1) % 12 = m + 1 := by omega
  unfold makeDay
  simp only [h1, h2, h3, h4, add_zero]
  rw [daysBeforeMonth_succ m _ hm]
  ring

theorem timeWithinDay_setUTCMonth (t month : ℤ) :
    timeWithinDay (setUTCMonth t month) = timeWithinDay t :=
  (dayNumber_makeDate _ _ (timeWithinDay_range t)).2

/-- The effect of `setUTCMonth(getUTCMonth() + 1)`.  Let the next month be the month after
that of `t`, in the next year after December.  When the next month has the day of the month
of `t`, the result is that day of the next month; otherwise it is in the month after the next
one, on the day left after the days of the next month. -/
theorem setUTCMonth_next (t : ℤ) :
    let next := setUTCMonth t (monthFromTime t + 1)
    let year := yearFromTime t + (monthFromTime t + 1) / 12
    let month := (monthFromTime t + 1) % 12
    let length := daysInMonth month (if daysInYear year = 366 then 1 else 0)
    (dateFromTime t ≤ length →
        yearFromTime next = year ∧ monthFromTime next = month
          ∧ dateFromTime next = dateFromTime t)
      ∧ (length < dateFromTime t →
        yearFromTime next = year ∧ monthFromTime next = month + 1
          ∧ dateFromTime next = dateFromTime t - length) := by
  intro next year month length
  have hmonth : 0 ≤ month ∧ month ≤ 11 := by
    show 0 ≤ (monthFromTime t + 1) % 12 ∧ (monthFromTime t + 1) % 12 ≤ 11
    omega
  have hnext : next = makeDate (makeDay year month (dateFromTime t)) (timeWithinDay t) := by
    show setUTCMonth t (monthFromTime t + 1) = _
    unfold setUTCMonth
    rw [makeDay_normalize]
  have h1 := one_le_dateFromTime t
  have h31 : dateFromTime t ≤ 31 := by
    have := dateFromTime_le t
    have hl : inLeapYear t = 0 ∨ inLeapYear t = 1 := by
      unfold inLeapYear
      omega
    unfold daysInMonth at this
    omega
  constructor
  · intro hle
    obtain ⟨a, b, c, -⟩ := civil_of_makeDay year month (dateFromTime t) (timeWithinDay t) hmonth
      ⟨h1, hle⟩ (timeWithinDay_range t)
    rw [hnext]
    exact ⟨a, b, c⟩
  · intro hlt
    have hlen : 28 ≤ length ∧ length < 31 ∧ month ≤ 10 := by
      have hl : (if daysInYear year = 366 then (1 : ℤ) else 0) = 0
          ∨ (if daysInYear year = 366 then (1 : ℤ) else 0) = 1 := by
        omega
      have hdef : length = daysInMonth month (if daysInYear year = 366 then 1 else 0) := rfl
      unfold daysInMonth at hdef
      omega
    have hcarry := makeDay_carry year month (dateFromTime t) ⟨hmonth.1, hlen.2.2⟩
    have hlong : dateFromTime t - length
        ≤ daysInMonth (month + 1) (if daysInYear year = 366 then 1 else 0) := by
      have hl : (if daysInYear year = 366 then (1 : ℤ) else 0) = 0
          ∨ (if daysInYear year = 366 then (1 : ℤ) else 0) = 1 := by
        omega
      unfold daysInMonth
      omega
    obtain ⟨a, b, c, -⟩ := civil_of_makeDay year (month + 1) (dateFromTime t - length)
      (timeWithinDay t) (by omega) ⟨by omega, hlong⟩ (timeWithinDay_range t)
    rw [hnext, hcarry]
    exact ⟨a, b, c⟩

/-! ## The recurring-transaction job -/

theorem getNextOccurrence_invalid (lastDate : ℤ) (pattern : Option String)
    (h1 : pattern ≠ some "daily") (h2 : pattern ≠ some "weekly")
    (h3 : pattern ≠ some "monthly") :
    getNextOccurrence lastDate pattern = .error "Invalid recurrence pattern" := by
  unfold getNextOccurrence
  rw [if_neg h1, if_neg h2, if_neg h3]

theorem recurringStep_invalid (currentTimeUTC : ℤ)
    (createNotification : NotificationCall → Except String Unit)
    (transaction : RecurringTransaction)
    (h1 : transaction.recurrencePattern ≠ some "daily")
    (h2 : transaction.recurrencePattern ≠ some "weekly")
    (h3 : transaction.recurrencePattern ≠ some "monthly") :
    recurringStep currentTimeUTC createNotification transaction
      = ([], some "Invalid recurrence pattern") := by
  unfold recurringStep
  rw [getNextOccurrence_invalid _ _ h1 h2 h3]

theorem recurringLoop_cons_some (currentTimeUTC : ℤ)
    (createNotification : NotificationCall → Except String Unit)
    (transaction : RecurringTransaction) (rest : List RecurringTransaction) (e : String)
    (h : (recurringStep currentTimeUTC createNotification transaction).2 = some e) :
    recurringLoop currentTimeUTC createNotification (transaction :: rest)
      = ((recurringStep currentTimeUTC createNotification transaction).1.map
          (Prod.mk transaction), some e) := by
  rw [recurringLoop]
  simp only [h]

theorem recurringLoop_cons_none (currentTimeUTC : ℤ)
    (createNotification : NotificationCall → Except String Unit)
    (transaction : RecurringTransaction) (rest : List RecurringTransaction)
    (h : (recurringStep currentTimeUTC createNotification transaction).2 = none) :
    recurringLoop currentTimeUTC createNotification (transaction :: rest)
      = ((recurringStep currentTimeUTC createNotification transaction).1.map
            (Prod.mk transaction)
          ++ (recurringLoop currentTimeUTC createNotification rest).1,
        (recurringLoop currentTimeUTC createNotification rest).2) := by
  rw [recurringLoop]
  simp only [h]

/-- A transaction with an invalid pattern ends the loop: the notifications are those of the
transactions before it, and the error is the one of an earlier iteration if there is one, the
error of `getNextOccurrence` otherwise. -/
theorem recurringLoop_abort (currentTimeUTC : ℤ)
    (createNotification : NotificationCall → Except String Unit)
    (bad : RecurringTransaction) (after : List RecurringTransaction)
    (hbad : recurringStep currentTimeUTC createNotification bad
      = ([], some "Invalid recurrence pattern")) :
    ∀ before : List RecurringTransaction,
      (recurringLoop currentTimeUTC createNotification (before ++ bad :: after)).1
          = (recurringLoop currentTimeUTC createNotification before).1
        ∧ (recurringLoop currentTimeUTC createNotification (before ++ bad :: after)).2
          = some (((recurringLoop currentTimeUTC createNotification before).2).getD
              "Invalid recurrence pattern")
  | [] => by
    rw [List.nil_append, recurringLoop_cons_some _ _ bad after "Invalid recurrence pattern"
      (by rw [hbad]), hbad]
    exact ⟨rfl, rfl⟩
  | transaction :: rest => by
    obtain ⟨ih1, ih2⟩ := recurringLoop_abort currentTimeUTC createNotification bad after hbad rest
    rw [List.cons_append]
    cases hstep : (recurringStep currentTimeUTC createNotification transaction).2 with
    | some e =>
      rw [recurringLoop_cons_some _ _ _ _ e hstep, recurringLoop_cons_some _ _ _ _ e hstep]
      exact ⟨rfl, rfl⟩
    | none =>
      rw [recurringLoop_cons_none _ _ _ _ hstep, recurringLoop_cons_none _ _ _ _ hstep]
      exact ⟨by rw [ih1], ih2⟩

theorem mem_before_of_mem_recurringLoop (currentTimeUTC : ℤ)
    (createNotification : NotificationCall → Except String Unit) :
    ∀ (transactions : List RecurringTransaction) (p : RecurringTransaction × NotificationCall),
      p ∈ (recurringLoop currentTimeUTC createNotification transactions).1 →
      p.1 ∈ transactions
  | [], p, h => by
    simp [recurringLoop] at h
  | transaction :: rest, p, h => by
    cases hstep : (recurringStep currentTimeUTC createNotification transaction).2 with
    | some e =>
      rw [recurringLoop_cons_some _ _ _ _ e hstep] at h
      simp only [List.mem_map] at h
      obtain ⟨call, -, rfl⟩ := h
      exact List.mem_cons_self _ _
    | none =>
      rw [recurringLoop_cons_none _ _ _ _ hstep] at h
      simp only [List.mem_append, List.mem_map] at h
      rcases h with ⟨call, -, rfl⟩ | h
      · exact List.mem_cons_self _ _
      · exact List.mem_cons_of_mem _
          (mem_before_of_mem_recurringLoop currentTimeUTC createNotification rest p h)

/-- C30, code bug: for the last date 2025-01-31T10:00:00Z and the pattern "monthly" the date
returned is 2025-03-03T10:00:00Z.  The last date is in January (month index 0) and the date
returned is in March (month index 2), on the third day: the UTC month is advanced by two and
February, the month of the next occurrence, is skipped. -/
theorem monthly_from_january_31_is_in_march :
    getNextOccurrence 1738317600000 (some "monthly")
        = .ok { lastDate := 1738317600000, nextDate := 1740996000000 }
      ∧ toISOString 1738317600000 = "2025-01-31T10:00:00.000Z"
      ∧ toISOString 1740996000000 = "2025-03-03T10:00:00.000Z"
      ∧ monthFromTime 1738317600000 = 0 ∧ dateFromTime 1738317600000 = 31
      ∧ monthFromTime 1740996000000 = 2 ∧ dateFromTime 1740996000000 = 3 := by
  refine ⟨?_, by decide, by decide, by decide, by decide, by decide, by decide⟩
  have h : setUTCMonth 1738317600000 (monthFromTime 1738317600000 + 1) = 1740996000000 := by
    decide
  unfold getNextOccurrence
  rw [if_neg (by decide), if_neg (by decide), if_pos rfl, h]

/-- What `getNextOccurrence` and the job do: the call leaves `lastDate` as it is and returns a
new date: for
"daily" the time value plus one day, for "weekly" plus seven days, for "monthly" the result
of `setUTCMonth(getUTCMonth() + 1)`, which keeps the time of the day and is the same day of
the next month when the next month has that day, and otherwise the day left over in the month
after the next one.  For every other pattern, `null` included, it throws "Invalid recurrence
pattern".  In the job, a transaction with such a pattern ends the loop: the notifications
created are those of the transactions before it in the list, none is created for it or for a
later transaction, and the error caught is "Invalid recurrence pattern" unless an earlier
iteration has thrown. -/
theorem getNextOccurrence_and_abort (lastDate now : ℤ)
    (find : RecurringQuery → Except String (List RecurringTransaction))
    (createNotification : NotificationCall → Except String Unit)
    (before after : List RecurringTransaction) (bad : RecurringTransaction)
    (hfind : find { recurring := true, recurrenceEndDateGte := now }
      = .ok (before ++ bad :: after))
    (h1 : bad.recurrencePattern ≠ some "daily") (h2 : bad.recurrencePattern ≠ some "weekly")
    (h3 : bad.recurrencePattern ≠ some "monthly") :
    getNextOccurrence lastDate (some "daily")
        = .ok { lastDate := lastDate, nextDate := lastDate + msPerDay }
      ∧ getNextOccurrence lastDate (some "weekly")
        = .ok { lastDate := lastDate, nextDate := lastDate + 7 * msPerDay }
      ∧ (∃ nextDate, getNextOccurrence lastDate (some "monthly")
            = .ok { lastDate := lastDate, nextDate := nextDate }
          ∧ timeWithinDay nextDate = timeWithinDay lastDate
          ∧ (dateFromTime lastDate
                ≤ daysInMonth ((monthFromTime lastDate + 1) % 12)
                    (if daysInYear (yearFromTime lastDate + (monthFromTime lastDate + 1) / 12)
                        = 366 then 1 else 0) →
              yearFromTime nextDate = yearFromTime lastDate + (monthFromTime lastDate + 1) / 12
                ∧ monthFromTime nextDate = (monthFromTime lastDate + 1) % 12
                ∧ dateFromTime nextDate = dateFromTime lastDate)
          ∧ (daysInMonth ((monthFromTime lastDate + 1) % 12)
                    (if daysInYear (yearFromTime lastDate + (monthFromTime lastDate + 1) / 12)
                        = 366 then 1 else 0)
                < dateFromTime lastDate →
              yearFromTime nextDate = yearFromTime lastDate + (monthFromTime lastDate + 1) / 12
                ∧ monthFromTime nextDate = (monthFromTime lastDate + 1) % 12 + 1
                ∧ dateFromTime nextDate = dateFromTime lastDate
                    - daysInMonth ((monthFromTime lastDate + 1) % 12)
                        (if daysInYear
                            (yearFromTime lastDate + (monthFromTime lastDate + 1) / 12)
                          = 366 then 1 else 0)))
      ∧ getNextOccurrence lastDate bad.recurrencePattern = .error "Invalid recurrence pattern"
      ∧ getNextOccurrence lastDate none = .error "Invalid recurrence pattern"
      ∧ (recurringTransactionJob now find createNotification).1
          = (recurringLoop now createNotification before).1
      ∧ (∀ p ∈ (recurringTransactionJob now find createNotification).1, p.1 ∈ before)
      ∧ (recurringTransactionJob now find createNotification).2
          = some (((recurringLoop now createNotification before).2).getD
              "Invalid recurrence pattern") := by
  have hjob : recurringTransactionJob now find createNotification
      = recurringLoop now createNotification (before ++ bad :: after) := by
    unfold recurringTransactionJob
    simp only [hfind]
  obtain ⟨ha, hb⟩ := recurringLoop_abort now createNotification bad after
    (recurringStep_invalid now createNotification bad h1 h2 h3) before
  refine ⟨?_, ?_, ?_, getNextOccurrence_invalid _ _ h1 h2 h3,
    getNextOccurrence_invalid _ _ (by decide) (by decide) (by decide), ?_, ?_, ?_⟩
  · unfold getNextOccurrence
    rw [if_pos rfl, setUTCDate_getUTCDate_add, one_mul]
  · unfold getNextOccurrence
    rw [if_neg (by decide), if_pos rfl, setUTCDate_getUTCDate_add]
  · refine ⟨setUTCMonth lastDate (monthFromTime lastDate + 1), ?_,
      timeWithinDay_setUTCMonth _ _, (setUTCMonth_next lastDate).1, (setUTCMonth_next lastDate).2⟩
    unfold getNextOccurrence
    rw [if_neg (by decide), if_neg (by decide), if_pos rfl]
  · rw [hjob, ha]
  · intro p hp
    rw [hjob, ha] at hp
    exact mem_before_of_mem_recurringLoop now createNotification before p hp
  · rw [hjob, hb]

theorem getNextOccurrence_and_abort_witness :
    (recurringTransactionJob 1738317600000
        (fun _ => .ok
          [{ id := "t1", user := "u1", date := 1738231200000, recurrencePattern := none },
           { id := "t2", user := "u2", date := 1738234800000,
             recurrencePattern := some "daily" }])
        (fun _ => .ok ())).1 = []
      ∧ (recurringTransactionJob 1738317600000
        (fun _ => .ok
          [{ id := "t1", user := "u1", date := 1738231200000, recurrencePattern := none },
           { id := "t2", user := "u2", date := 1738234800000,
             recurrencePattern := some "daily" }])
        (fun _ => .ok ())).2 = some "Invalid recurrence pattern" :=
  let h := getNextOccurrence_and_abort 0 1738317600000
    (fun _ => .ok
      [{ id := "t1", user := "u1", date := 1738231200000, recurrencePattern := none },
       { id := "t2", user := "u2", date := 1738234800000, recurrencePattern := some "daily" }])
    (fun _ => .ok ()) []
    [{ id := "t2", user := "u2", date := 1738234800000, recurrencePattern := some "daily" }]
    { id := "t1", user := "u1", date := 1738231200000, recurrencePattern := none } rfl
    (by decide) (by decide) (by decide)
  ⟨h.2.2.2.2.2.1, h.2.2.2.2.2.2.2⟩

/-! ## Reads that reach `Object.prototype` -/

theorem readOperand_of_not_inherited (cachedRates : RateTable) (c : String)
    (hc : c ∉ objectPrototypeMembers) :
    readOperand cachedRates c
      = match rateOf cachedRates c with
        | some rate => .number rate
        | none => .undefined := by
  unfold readOperand rateOf
  by_cases h : c = "EUR"
  · simp [h]
  · rw [if_neg h, if_neg h]
    cases cachedRates.lookup c with
    | none => simp [hc]
    | some rate => rfl

/-- For codes that are not names of members of `Object.prototype`, the function with the reads
of own properties only computes what the function with all reads computes. -/
theorem getExchangeRateOnObject_of_not_inherited (cachedRates : RateTable)
    (fromCurrency toCurrency : String) (hf : fromCurrency ∉ objectPrototypeMembers)
    (ht : toCurrency ∉ objectPrototypeMembers) :
    getExchangeRateOnObject cachedRates fromCurrency toCurrency
      = (getExchangeRate cachedRates fromCurrency toCurrency).map JsNumber.finite := by
  unfold getExchangeRateOnObject getExchangeRate
  by_cases hne : fromCurrency = toCurrency
  · simp [hne, Except.map]
  · rw [if_neg hne, if_neg hne]
    by_cases hlen : (cachedRates.map Prod.fst).length = 0
    · simp [hlen, Except.map]
    · rw [if_neg hlen, if_neg hlen]
      simp only [readOperand_of_not_inherited _ _ hf, readOperand_of_not_inherited _ _ ht]
      cases rateOf cachedRates fromCurrency with
      | none => simp [RateOperand.falsy, isFalsy, Except.map]
      | some rf =>
        cases rateOf cachedRates toCurrency with
        | none => simp [RateOperand.falsy, isFalsy, Except.map]
        | some rt =>
          by_cases h0 : rf = 0 ∨ rt = 0
          · have : (decide (rf = 0) || decide (rt = 0)) = true := by
              rcases h0 with h | h <;> simp [h]
            simp [RateOperand.falsy, isFalsy, Except.map, this]
          · have : (decide (rf = 0) || decide (rt = 0)) = false := by
              simp only [not_or] at h0
              simp [h0.1, h0.2]
            simp [RateOperand.falsy, isFalsy, Except.map, this]

/-- With the reads of `readOperand`, for distinct codes on a non-empty table the function
throws exactly when one of its two operands reads as `undefined` or as 0. -/
theorem getExchangeRateOnObject_error_iff (cachedRates : RateTable)
    (fromCurrency toCurrency : String) (hne : fromCurrency ≠ toCurrency)
    (hcache : cachedRates ≠ []) :
    (∃ e, getExchangeRateOnObject cachedRates fromCurrency toCurrency = .error e)
      ↔ (readOperand cachedRates fromCurrency).falsy = true
          ∨ (readOperand cachedRates toCurrency).falsy = true := by
  have hlen : ¬ (cachedRates.map Prod.fst).length = 0 := by
    cases cachedRates with
    | nil => exact absurd rfl hcache
    | cons p rest => simp
  unfold getExchangeRateOnObject
  rw [if_neg hne, if_neg hlen]
  simp only []
  by_cases h : ((readOperand cachedRates fromCurrency).falsy
      || (readOperand cachedRates toCurrency).falsy) = true
  · rw [if_pos h]
    rw [Bool.or_eq_true] at h
    exact ⟨fun _ => h, fun _ => ⟨_, rfl⟩⟩
  · rw [if_neg h]
    rw [Bool.or_eq_true] at h
    constructor
    · rintro ⟨e, he⟩
      split at he <;> cases he
    · intro h'
      exact absurd h' h

/-- With the reads of `readOperand`, a code that is not EUR, has no entry in the table and is
not the name of a member of `Object.prototype` makes the call throw. -/
theorem getExchangeRateOnObject_missing_code (cachedRates : RateTable)
    (fromCurrency toCurrency : String) (hne : fromCurrency ≠ toCurrency)
    (hcache : cachedRates ≠ [])
    (hmiss : (fromCurrency ≠ "EUR" ∧ cachedRates.lookup fromCurrency = none
          ∧ fromCurrency ∉ objectPrototypeMembers)
      ∨ (toCurrency ≠ "EUR" ∧ cachedRates.lookup toCurrency = none
          ∧ toCurrency ∉ objectPrototypeMembers)) :
    ∃ e, getExchangeRateOnObject cachedRates fromCurrency toCurrency = .error e := by
  rw [getExchangeRateOnObject_error_iff cachedRates fromCurrency toCurrency hne hcache]
  rcases hmiss with ⟨h1, h2, h3⟩ | ⟨h1, h2, h3⟩
  · left
    simp [readOperand, h1, h2, h3, RateOperand.falsy]
  · right
    simp [readOperand, h1, h2, h3, RateOperand.falsy]

/-- C4, code bug: on the table `{USD: 1.08}` the code "constructor" is not EUR and has no
entry, yet `getExchangeRate("constructor", "USD")` does not throw: the read
`cachedRates["constructor"]` finds the member of `Object.prototype`, which is truthy, the
guard does not fire, and the call returns `NaN`.  A code without entry that is not the name of
such a member, like "XXX", makes the call throw. -/
theorem getExchangeRate_constructor_returns_nan :
    "constructor" ≠ "EUR" ∧ "constructor" ≠ "USD"
      ∧ ([("USD", 108 / 100)] : RateTable) ≠ []
      ∧ ([("USD", 108 / 100)] : RateTable).lookup "constructor" = none
      ∧ getExchangeRateOnObject [("USD", 108 / 100)] "constructor" "USD" = .ok .nan
      ∧ getExchangeRateOnObject [("USD", 108 / 100)] "XXX" "USD"
        = .error "Exchange rate not available for given currency" := by
  refine ⟨by decide, by decide, by simp, by simp [List.lookup], ?_, ?_⟩
  · simp [getExchangeRateOnObject, readOperand, RateOperand.falsy, objectPrototypeMembers,
      List.lookup]
  · simp [getExchangeRateOnObject, readOperand, RateOperand.falsy, objectPrototypeMembers,
      List.lookup]

/-- C24, code bug: on the table `{USD: 1.08}`, for the distinct codes "USD" and "toString",
the operand of "toString" is absent from the table (`rateOf` is `none`), yet
`getExchangeRate("USD", "toString")` does not fail: the read `cachedRates["toString"]` finds
the member of `Object.prototype`, and the call returns `NaN`.  So an absent operand does not
always make the call fail. -/
theorem getExchangeRate_absent_operand_returns_nan :
    "USD" ≠ "toString"
      ∧ ([("USD", 108 / 100)] : RateTable) ≠ []
      ∧ rateOf [("USD", 108 / 100)] "toString" = none
      ∧ rateOf [("USD", 108 / 100)] "USD" = some (108 / 100)
      ∧ getExchangeRateOnObject [("USD", 108 / 100)] "USD" "toString" = .ok .nan
      ∧ ∀ e, getExchangeRateOnObject [("USD", 108 / 100)] "USD" "toString" ≠ .error e := by
  have h : getExchangeRateOnObject [("USD", 108 / 100)] "USD" "toString" = .ok .nan := by
    simp [getExchangeRateOnObject, readOperand, RateOperand.falsy, objectPrototypeMembers,
      List.lookup]
  refine ⟨by decide, by simp, by simp [rateOf, List.lookup], by simp [rateOf, List.lookup], h,
    ?_⟩
  intro e he
  rw [h] at he
  cases he

/-- C2, code bug: the first refresh after module load gets the response
`{rates: {GBP: 1, USD: null}}`.  It fails on `null.toFixed`, so `lastUpdate` is still unset and
no refresh has succeeded, but the table now holds `GBP`; for the distinct codes EUR and GBP
`getExchangeRate` then returns 1 instead of failing. -/
theorem getExchangeRate_succeeds_before_first_successful_refresh :
    "EUR" ≠ "GBP"
      ∧ initialState.cachedRates = []
      ∧ (updateExchangeRates
          (.fulfilled (some { rates := some [("GBP", .number 1), ("USD", .null)] })) 2000
          initialState).state
        = { cachedRates := [("GBP", 1)], lastUpdate := none }
      ∧ getLastUpdate (updateExchangeRates
          (.fulfilled (some { rates := some [("GBP", .number 1), ("USD", .null)] })) 2000
          initialState).state = none
      ∧ getExchangeRate (updateExchangeRates
          (.fulfilled (some { rates := some [("GBP", .number 1), ("USD", .null)] })) 2000
          initialState).state.cachedRates "EUR" "GBP" = .ok 1
      ∧ getExchangeRateOnObject (updateExchangeRates
          (.fulfilled (some { rates := some [("GBP", .number 1), ("USD", .null)] })) 2000
          initialState).state.cachedRates "EUR" "GBP" = .ok (.finite 1) := by
  have h1 : parseFloatToFixed 1 2 = 1 := by norm_num [parseFloatToFixed, Int.floor_eq_iff]
  have hstate : (updateExchangeRates
      (.fulfilled (some { rates := some [("GBP", .number 1), ("USD", .null)] })) 2000
      initialState).state = { cachedRates := [("GBP", 1)], lastUpdate := none } := by
    simp [updateExchangeRates, updateExchangeRatesTry, roundRatesLoop,
      JsonValue.parseFloatToFixed2, setProp, h1, initialState]
  have hrate : getExchangeRate [("GBP", 1)] "EUR" "GBP" = .ok 1 := by
    rw [getExchangeRate_of_truthy [("GBP", 1)] "EUR" "GBP" 1 1 (by decide) (by simp)
      (by simp [rateOf]) (by simp [rateOf, List.lookup]) (by norm_num) (by norm_num)]
    norm_num [parseFloatToFixed, Int.floor_eq_iff]
  refine ⟨by decide, rfl, hstate, ?_, ?_, ?_⟩
  · rw [hstate]
    rfl
  · rw [hstate]
    exact hrate
  · rw [hstate, getExchangeRateOnObject_of_not_inherited _ _ _ (by decide) (by decide), hrate]
    rfl

end FinanceTracker
